import Mathlib

/-!
# Specify-block symbols of slang: timing paths and system timing checks

A shallow embedding of `source/ast/symbols/SpecifySymbols.cpp`.

* Pointers become `Option`; object identity (pointer comparison of scopes)
  becomes comparison of an address field.
* `context.addDiag` becomes an explicit list of emitted diagnostics, returned
  next to the ordinary result, in emission order.
* A failed `ASSERT`, an invalid downcast, an out-of-range index and the
  dereference of a null pointer become `Except.error`.
* The expression binder and the constant evaluator (`Expression::bind`,
  `Expression::bindLValue`, `ASTContext::evalInteger`, ...) live outside this
  translation unit; they are taken as the fields of an `Engine` parameter.
-/

namespace Slang

/-! ## Source positions and diagnostics -/

abbrev SourceLocation := Nat

structure SourceRange where
  start : SourceLocation
  stop : SourceLocation
  deriving DecidableEq, Repr

/-- What the code reads of a `Type`: `isIntegral()`, `isError()`,
`isNumeric()` and `getBitWidth()`. -/
structure Ty where
  isIntegral : Bool
  isError : Bool
  isNumeric : Bool
  bitWidth : Nat
  deriving DecidableEq, Repr

/-- Diagnostic codes used by the specify symbols; `External n` stands for any
code raised by a collaborator (binder, evaluator). -/
inductive DiagCode where
  | InvalidSpecifyType
  | InvalidSpecifySource
  | InvalidSpecifyDest
  | InvalidSpecifyPath
  | SpecifyPathMultiDim
  | SpecifyPathBadReference
  | SpecifyPathConditionExpr
  | ParallelPathWidth
  | DelayNotNumeric
  | UnknownSystemTimingCheck
  | TooFewArguments
  | TooManyArguments
  | EmptyArgNotAllowed
  | TimingCheckEventNotAllowed
  | MinTypMaxNotAllowed
  | InvalidTimingCheckNotifierArg
  | TimingCheckEventEdgeRequired
  | NoteDeclarationHere
  | External (n : Nat)
  deriving DecidableEq, Repr

/-- Values streamed into a diagnostic with `<<`. -/
inductive DiagArg where
  | text (s : String)
  | type (t : Ty)
  | num (n : Nat)
  | range (r : SourceRange)
  deriving DecidableEq, Repr

structure Diagnostic where
  code : DiagCode
  range : SourceRange
  args : List DiagArg
  notes : List (DiagCode × SourceLocation)
  deriving DecidableEq, Repr

/-- Ways in which the C++ code stops instead of returning. -/
inductive Fault where
  | assertion
  | badCast
  | outOfRange
  | nullDereference
  | unreachable
  deriving DecidableEq, Repr

/-! ## Symbols and scopes -/

/-- The `SymbolKind` enumeration of `Symbol.h`. -/
inductive SymbolKind where
  | Unknown | Root | CompilationUnit | DeferredMember | TransparentMember
  | EmptyMember | PredefinedIntegerType | ScalarType | FloatingType | EnumType
  | EnumValue | PackedArrayType | FixedSizeUnpackedArrayType | DynamicArrayType
  | AssociativeArrayType | QueueType | PackedStructType | UnpackedStructType
  | PackedUnionType | UnpackedUnionType | ClassType | VoidType | NullType
  | CHandleType | StringType | EventType | UnboundedType | TypeAlias | ErrorType
  | ForwardingTypedef | NetType | Parameter | TypeParameter | Port | InterfacePort
  | Modport | ModportPort | Instance | InstanceBody | InstanceArray | Package
  | ExplicitImport | WildcardImport | Attribute | Genvar | GenerateBlock
  | GenerateBlockArray | ProceduralBlock | StatementBlock | Net | Variable
  | FormalArgument | Field | ClassProperty | Subroutine | ContinuousAssign | Gate
  | GateArray | ElabSystemTask | GenericClassDef | MethodPrototype | UnknownModule
  | Iterator | ConstraintBlock
  -- kinds used by SpecifySymbols.cpp
  | Specparam | SpecifyBlock | TimingPath | PulseStyle | SystemTimingCheck
  deriving DecidableEq, Repr

inductive DefinitionKind where
  | Module | Interface | Program
  deriving DecidableEq, Repr

inductive ArgumentDirection where
  | In | Out | InOut | Ref
  deriving DecidableEq, Repr

/-- A scope together with the symbol it belongs to: `addr` is the identity of
the object, `kind` the kind of `asSymbol()`, `definitionKind` the kind of the
definition of an instance body, `parent` the `getParentScope()` of
`asSymbol()`. -/
inductive Scope where
  | mk (addr : Nat) (kind : SymbolKind) (definitionKind : DefinitionKind)
      (parent : Option Scope)
  deriving Repr

namespace Scope

def addr : Scope → Nat
  | mk a _ _ _ => a

def kind : Scope → SymbolKind
  | mk _ k _ _ => k

def definitionKind : Scope → DefinitionKind
  | mk _ _ d _ => d

/-- The scope that contains the symbol of this scope:
`asSymbol().getParentScope()`. -/
def getParentScope : Scope → Option Scope
  | mk _ _ _ p => p

end Scope

structure PortSymbol where
  direction : ArgumentDirection
  deriving DecidableEq, Repr

/-- One link of the chain `getFirstPortBackref()` / `getNextBackreference()`. -/
structure PortBackref where
  port : PortSymbol
  deriving DecidableEq, Repr

/-- A `ValueSymbol`. `direction` is the field of `ModportPortSymbol`, read
only when `kind` is `ModportPort`; `parentScope` is `getParentScope()`;
`portBackrefs` is the chain of port back-references in order. -/
structure ValueSymbol where
  kind : SymbolKind
  name : String
  location : SourceLocation
  type : Ty
  direction : ArgumentDirection
  parentScope : Option Scope
  portBackrefs : List PortBackref
  deriving Repr

/-! ## Expressions -/

inductive UnaryOperator where
  | Plus | Minus | BitwiseNot | BitwiseAnd | BitwiseOr | BitwiseXor
  | BitwiseNand | BitwiseNor | BitwiseXnor | LogicalNot
  | Preincrement | Predecrement | Postincrement | Postdecrement
  deriving DecidableEq, Repr

inductive BinaryOperator where
  | Add | Subtract | Multiply | Divide | Mod
  | BinaryAnd | BinaryOr | BinaryXor | BinaryXnor
  | Equality | Inequality | CaseEquality | CaseInequality
  | GreaterThanEqual | GreaterThan | LessThanEqual | LessThan
  | WildcardEquality | WildcardInequality
  | LogicalAnd | LogicalOr | LogicalImplication | LogicalEquivalence
  | LogicalShiftLeft | LogicalShiftRight
  | ArithmeticShiftLeft | ArithmeticShiftRight | Power
  deriving DecidableEq, Repr

inductive ExpressionKind where
  | Invalid | IntegerLiteral | RealLiteral | TimeLiteral | UnbasedUnsizedIntegerLiteral
  | NullLiteral | UnboundedLiteral | StringLiteral
  | NamedValue | HierarchicalValue
  | UnaryOp | BinaryOp | ConditionalOp | Inside | Assignment
  | Concatenation | Replication | Streaming
  | ElementSelect | RangeSelect | MemberAccess
  | Call | Conversion | DataType | TypeReference
  | SimpleAssignmentPattern | StructuredAssignmentPattern | ReplicatedAssignmentPattern
  | EmptyArgument | OpenRange | Dist | NewArray | NewClass | NewCovergroup
  | CopyClass | MinTypMax | ClockingEvent | AssertionInstance | TaggedUnion
  deriving DecidableEq, Repr

/-- The expression kinds that have no constructor of their own in
`Expression`. -/
inductive OtherExpressionKind where
  | TimeLiteral | UnbasedUnsizedIntegerLiteral | NullLiteral | UnboundedLiteral
  | StringLiteral | HierarchicalValue | Inside | Assignment | Streaming
  | MemberAccess | DataType | TypeReference
  | SimpleAssignmentPattern | StructuredAssignmentPattern | ReplicatedAssignmentPattern
  | EmptyArgument | OpenRange | Dist | NewArray | NewClass | NewCovergroup
  | CopyClass | ClockingEvent | AssertionInstance | TaggedUnion
  deriving DecidableEq, Repr

def OtherExpressionKind.toKind : OtherExpressionKind → ExpressionKind
  | .TimeLiteral => .TimeLiteral
  | .UnbasedUnsizedIntegerLiteral => .UnbasedUnsizedIntegerLiteral
  | .NullLiteral => .NullLiteral
  | .UnboundedLiteral => .UnboundedLiteral
  | .StringLiteral => .StringLiteral
  | .HierarchicalValue => .HierarchicalValue
  | .Inside => .Inside
  | .Assignment => .Assignment
  | .Streaming => .Streaming
  | .MemberAccess => .MemberAccess
  | .DataType => .DataType
  | .TypeReference => .TypeReference
  | .SimpleAssignmentPattern => .SimpleAssignmentPattern
  | .StructuredAssignmentPattern => .StructuredAssignmentPattern
  | .ReplicatedAssignmentPattern => .ReplicatedAssignmentPattern
  | .EmptyArgument => .EmptyArgument
  | .OpenRange => .OpenRange
  | .Dist => .Dist
  | .NewArray => .NewArray
  | .NewClass => .NewClass
  | .NewCovergroup => .NewCovergroup
  | .CopyClass => .CopyClass
  | .ClockingEvent => .ClockingEvent
  | .AssertionInstance => .AssertionInstance
  | .TaggedUnion => .TaggedUnion

/-- A bound expression. Every node carries its `type` and `sourceRange`; the
kinds that SpecifySymbols.cpp looks into have a constructor of their own, all
remaining kinds share `Other`. -/
inductive Expression where
  | Invalid (type : Ty) (sourceRange : SourceRange)
  | IntegerLiteral (type : Ty) (sourceRange : SourceRange)
  | RealLiteral (type : Ty) (sourceRange : SourceRange)
  | NamedValue (symbol : ValueSymbol) (type : Ty) (sourceRange : SourceRange)
  | UnaryOp (op : UnaryOperator) (operand : Expression) (type : Ty)
      (sourceRange : SourceRange)
  | BinaryOp (op : BinaryOperator) (left right : Expression) (type : Ty)
      (sourceRange : SourceRange)
  | ConditionalOp (pred left right : Expression) (type : Ty) (sourceRange : SourceRange)
  | ElementSelect (value selector : Expression) (type : Ty) (sourceRange : SourceRange)
  | RangeSelect (value left right : Expression) (type : Ty) (sourceRange : SourceRange)
  | Call (arguments : List Expression) (type : Ty) (sourceRange : SourceRange)
  | Conversion (isImplicit : Bool) (operand : Expression) (type : Ty)
      (sourceRange : SourceRange)
  | MinTypMax (min typ max : Expression) (type : Ty) (sourceRange : SourceRange)
  | Concatenation (operands : List Expression) (type : Ty) (sourceRange : SourceRange)
  | Replication (count concat : Expression) (type : Ty) (sourceRange : SourceRange)
  | Other (k : OtherExpressionKind) (operands : List Expression) (type : Ty)
      (sourceRange : SourceRange)
  deriving Repr

namespace Expression

def kind : Expression → ExpressionKind
  | Invalid .. => .Invalid
  | IntegerLiteral .. => .IntegerLiteral
  | RealLiteral .. => .RealLiteral
  | NamedValue .. => .NamedValue
  | UnaryOp .. => .UnaryOp
  | BinaryOp .. => .BinaryOp
  | ConditionalOp .. => .ConditionalOp
  | ElementSelect .. => .ElementSelect
  | RangeSelect .. => .RangeSelect
  | Call .. => .Call
  | Conversion .. => .Conversion
  | MinTypMax .. => .MinTypMax
  | Concatenation .. => .Concatenation
  | Replication .. => .Replication
  | Other k _ _ _ => k.toKind

def type : Expression → Ty
  | Invalid t _ => t
  | IntegerLiteral t _ => t
  | RealLiteral t _ => t
  | NamedValue _ t _ => t
  | UnaryOp _ _ t _ => t
  | BinaryOp _ _ _ t _ => t
  | ConditionalOp _ _ _ t _ => t
  | ElementSelect _ _ t _ => t
  | RangeSelect _ _ _ t _ => t
  | Call _ t _ => t
  | Conversion _ _ t _ => t
  | MinTypMax _ _ _ t _ => t
  | Concatenation _ t _ => t
  | Replication _ _ t _ => t
  | Other _ _ t _ => t

def sourceRange : Expression → SourceRange
  | Invalid _ r => r
  | IntegerLiteral _ r => r
  | RealLiteral _ r => r
  | NamedValue _ _ r => r
  | UnaryOp _ _ _ r => r
  | BinaryOp _ _ _ _ r => r
  | ConditionalOp _ _ _ _ r => r
  | ElementSelect _ _ _ r => r
  | RangeSelect _ _ _ _ r => r
  | Call _ _ r => r
  | Conversion _ _ _ r => r
  | MinTypMax _ _ _ _ r => r
  | Concatenation _ _ r => r
  | Replication _ _ _ r => r
  | Other _ _ _ r => r

/-- Modelled from the spec: `Expression::bad()` is declared in Expression.h,
which is not part of the sources at hand; binding "always returns a node,
possibly marked invalid", and a node is bad when it is the invalid marker or
its type is the error type. -/
def bad (e : Expression) : Bool :=
  e.kind == .Invalid || e.type.isError

end Expression

/-! ## Syntax nodes -/

inductive SyntaxKind where
  | IdentifierName
  | IdentifierSelectName
  | ScopedName
  | ElementSelectExpression
  | IntegerLiteralExpression
  | InvocationExpression
  | MinTypMaxExpression
  | ParenthesizedExpression
  | UnknownKind
  deriving DecidableEq, Repr

inductive TokenKind where
  | Unknown | Plus | PlusEqual | Minus | MinusEqual | PlusColon | MinusColon
  | StarArrow | EqualsArrow | PosEdgeKeyword | NegEdgeKeyword | EdgeKeyword
  deriving DecidableEq, Repr

/-- An expression syntax node, as far as this file looks at it: its `kind`,
its text (what tells two nodes apart for the binder), `sourceRange()` and
`getFirstToken().location()`. -/
structure ExpressionSyntax where
  kind : SyntaxKind
  text : String
  sourceRange : SourceRange
  firstTokenLocation : SourceLocation
  deriving DecidableEq, Repr

/-- A token: `kind`, `valueText()` / `rawText()`, `range()`. -/
structure Token where
  kind : TokenKind
  text : String
  range : SourceRange
  deriving DecidableEq, Repr

structure EdgeDescriptorSyntax where
  t1 : Token
  t2 : Token
  deriving DecidableEq, Repr

structure EdgeControlSpecifierSyntax where
  descriptors : List EdgeDescriptorSyntax
  deriving DecidableEq, Repr

structure TimingCheckEventConditionSyntax where
  expr : ExpressionSyntax
  deriving DecidableEq, Repr

structure TimingCheckEventArgSyntax where
  edge : Token
  controlSpecifier : Option EdgeControlSpecifierSyntax
  terminal : ExpressionSyntax
  condition : Option TimingCheckEventConditionSyntax
  sourceRange : SourceRange
  deriving DecidableEq, Repr

/-- The three kinds of actual argument of a system timing check:
`EmptyTimingCheckArg`, `ExpressionTimingCheckArg`, `TimingCheckEventArg`. -/
inductive TimingCheckArgSyntax where
  | EmptyTimingCheckArg (sourceRange : SourceRange)
  | ExpressionTimingCheckArg (expr : ExpressionSyntax) (sourceRange : SourceRange)
  | TimingCheckEventArg (arg : TimingCheckEventArgSyntax)
  deriving DecidableEq, Repr

def TimingCheckArgSyntax.sourceRange : TimingCheckArgSyntax → SourceRange
  | .EmptyTimingCheckArg r => r
  | .ExpressionTimingCheckArg _ r => r
  | .TimingCheckEventArg a => a.sourceRange

structure SystemTimingCheckSyntax where
  name : Token
  args : List TimingCheckArgSyntax
  sourceRange : SourceRange
  firstTokenLocation : SourceLocation
  deriving DecidableEq, Repr

inductive PathSuffixSyntax where
  | SimplePathSuffix (outputs : List ExpressionSyntax)
  | EdgeSensitivePathSuffix (outputs : List ExpressionSyntax) (polarityOperator : Token)
      (expr : ExpressionSyntax)
  deriving DecidableEq, Repr

structure PathDescriptionSyntax where
  edgeIdentifier : Token
  inputs : List ExpressionSyntax
  polarityOperator : Token
  pathOperator : Token
  suffix : PathSuffixSyntax
  deriving DecidableEq, Repr

structure PathDeclarationSyntax where
  desc : PathDescriptionSyntax
  delays : List ExpressionSyntax
  firstTokenLocation : SourceLocation
  deriving DecidableEq, Repr

/-- The syntax a `TimingPathSymbol` is created from: a plain path
declaration, or one wrapped in `ifnone` or in `if (predicate)`. -/
inductive TimingPathSyntax where
  | PathDeclaration (path : PathDeclarationSyntax)
  | IfNonePathDeclaration (path : PathDeclarationSyntax)
  | ConditionalPathDeclaration (predicate : ExpressionSyntax) (path : PathDeclarationSyntax)
  deriving DecidableEq, Repr

structure PulseStyleDeclarationSyntax where
  keyword : Token
  inputs : List ExpressionSyntax
  firstTokenLocation : SourceLocation
  deriving DecidableEq, Repr

/-! ## Binding context and the external engine -/

/-- The two `ASTFlags` bits this file sets or clears. -/
structure ASTFlags where
  NonProcedural : Bool
  SpecifyBlock : Bool
  deriving DecidableEq, Repr

/-- A record of the call `LookupLocation::after(*this)`: the index of the
symbol within its scope. -/
inductive LookupLocation where
  | max
  | after (indexInScope : Nat)
  deriving DecidableEq, Repr

structure ASTContext where
  scope : Scope
  lookupLocation : LookupLocation
  flags : ASTFlags
  deriving Repr

inductive EdgeKind where
  | None | PosEdge | NegEdge | BothEdges
  deriving DecidableEq, Repr

/-- The collaborators of SpecifySymbols.cpp defined elsewhere. Each takes what
the C++ call is given and returns its result together with the diagnostics it
adds to the context. They are functions: the same call gives the same answer.

* `bind`: `Expression::bind(syntax, context)`
* `bindLValue`: `Expression::bindLValue(syntax, type, location, context, isInout)`
* `evalInteger`: `context.evalInteger(expr)`
* `requirePositive`: `context.requirePositive(value, range)`
* `requireIntegral`: `context.requireIntegral(expr)`
* `requireBooleanConvertible`: `context.requireBooleanConvertible(expr)`
* `eval`: `context.eval(expr)`, of which only the diagnostics are kept
* `getEdgeKind`: `SemanticFacts::getEdgeKind(tokenKind)`
* `logicType`: `comp.getLogicType()` -/
structure Engine where
  bind : ExpressionSyntax → ASTContext → Expression × List Diagnostic
  bindLValue : ExpressionSyntax → Ty → SourceLocation → ASTContext → Bool →
    Expression × List Diagnostic
  evalInteger : ASTContext → Expression → Option Int × List Diagnostic
  requirePositive : ASTContext → Option Int → SourceRange → Bool × List Diagnostic
  requireIntegral : ASTContext → Expression → Bool × List Diagnostic
  requireBooleanConvertible : ASTContext → Expression → Bool × List Diagnostic
  eval : ASTContext → Expression → List Diagnostic
  getEdgeKind : TokenKind → EdgeKind
  logicType : Ty

/-- The context `ASTContext context(*parent, LookupLocation::after(*this),
ASTFlags::NonProcedural | ASTFlags::SpecifyBlock)` that every `resolve` builds. -/
def resolveContext (parent : Scope) (indexInScope : Nat) : ASTContext :=
  { scope := parent, lookupLocation := LookupLocation.after indexInScope,
    flags := { NonProcedural := true, SpecifyBlock := true } }

/-! ## Path terminals -/

/-- The lambda `reportErr` of `checkPathTerminal`: the one diagnostic it adds. -/
def checkPathTerminal.reportErr (terminal : ValueSymbol) (isSource : Bool)
    (sourceRange : SourceRange) : Diagnostic :=
  { code := if isSource then DiagCode.InvalidSpecifySource else DiagCode.InvalidSpecifyDest
    range := sourceRange
    args := [DiagArg.text terminal.name]
    notes := [(DiagCode.NoteDeclarationHere, terminal.location)] }

/-- The function `checkPathTerminal`: the returned `Bool` and the diagnostics
added to the context. -/
def checkPathTerminal (terminal : ValueSymbol) (specifyParent : Option Scope)
    (isSource : Bool) (sourceRange : SourceRange) : Except Fault (Bool × List Diagnostic) :=
  -- Type must be integral.
  let type := terminal.type
  if !type.isIntegral then
    if !type.isError then
      .ok (false, [{ code := DiagCode.InvalidSpecifyType, range := sourceRange,
                     args := [DiagArg.text terminal.name, DiagArg.type type], notes := [] }])
    else
      .ok (false, [])
  -- Inputs must be nets (or modport ports) and outputs must
  -- be nets or variables (or modport ports).
  else if terminal.kind != SymbolKind.Net && terminal.kind != SymbolKind.ModportPort &&
      (terminal.kind != SymbolKind.Variable || isSource) then
    .ok (false, [checkPathTerminal.reportErr terminal isSource sourceRange])
  else if terminal.kind == SymbolKind.ModportPort then
    -- Check that the modport port has the correct direction.
    let dir := terminal.direction
    if dir != ArgumentDirection.InOut &&
        ((isSource && dir != ArgumentDirection.In) ||
         (!isSource && dir != ArgumentDirection.Out)) then
      .ok (false, [checkPathTerminal.reportErr terminal isSource sourceRange])
    else
      .ok (true, [])
  else
    match terminal.parentScope with
    | none => .error Fault.assertion
    | some terminalParent =>
      if terminalParent.kind == SymbolKind.InstanceBody &&
          terminalParent.definitionKind == DefinitionKind.Interface then
        .ok (true, [])
      else
        -- If we get here then the terminal must be a member of the module
        -- containing our parent specify block.
        match specifyParent with
        | none => .error Fault.assertion
        | some specifyParentScope =>
          if terminalParent.addr != specifyParentScope.addr then
            .ok (false, [{ code := DiagCode.InvalidSpecifyPath, range := sourceRange,
                           args := [], notes := [] }])
          -- Check that the terminal is connected to a module port and that
          -- the direction is correct.
          else if terminal.portBackrefs.any (fun portRef =>
              let dir := portRef.port.direction
              dir == ArgumentDirection.InOut || (isSource && dir == ArgumentDirection.In) ||
                (!isSource && dir == ArgumentDirection.Out)) then
            .ok (true, [])
          else
            .ok (false, [checkPathTerminal.reportErr terminal isSource sourceRange])

/-- The `switch (expr->kind)` of `bindTerminal`: an element select or range
select is replaced by its `value()`, any other expression is kept. -/
def bindTerminal.selected : Expression → Expression
  | .ElementSelect value _ _ _ => value
  | .RangeSelect value _ _ _ _ => value
  | e => e

/-- The function `bindTerminal`: the returned expression (`none` for
`nullptr`) and the diagnostics added, those of the binder first. -/
def bindTerminal (E : Engine) (syn : ExpressionSyntax) (isSource : Bool)
    (parentParent : Option Scope) (context : ASTContext) :
    Except Fault (Option Expression × List Diagnostic) :=
  let bound := E.bind syn context
  if bound.1.bad then
    .ok (none, bound.2)
  else
    let expr := bindTerminal.selected bound.1
    match expr with
    | .NamedValue symbol _ sourceRange =>
      match checkPathTerminal symbol parentParent isSource sourceRange with
      | .error f => .error f
      | .ok (true, ds) => .ok (some expr, bound.2 ++ ds)
      | .ok (false, ds) => .ok (none, bound.2 ++ ds)
    | _ =>
      let code :=
        if expr.kind == ExpressionKind.ElementSelect || expr.kind == ExpressionKind.RangeSelect
        then DiagCode.SpecifyPathMultiDim
        else DiagCode.InvalidSpecifyPath
      .ok (none, bound.2 ++ [{ code := code, range := syn.sourceRange, args := [], notes := [] }])

/-- The function `bindTerminals`: the accepted terminals in order, and all
diagnostics added. -/
def bindTerminals (E : Engine) (syntaxList : List ExpressionSyntax) (isSource : Bool)
    (parentParent : Option Scope) (context : ASTContext) :
    Except Fault (List Expression × List Diagnostic) :=
  match syntaxList with
  | [] => .ok ([], [])
  | exprSyntax :: rest =>
    match bindTerminal E exprSyntax isSource parentParent context with
    | .error f => .error f
    | .ok (expr, ds) =>
      match bindTerminals E rest isSource parentParent context with
      | .error f => .error f
      | .ok (results, ds2) =>
        match expr with
        | some e => .ok (e :: results, ds ++ ds2)
        | none => .ok (results, ds ++ ds2)

/-! ## Conditions of state-dependent paths -/

/-- The mutable part of `SpecifyConditionVisitor` (`hasError`) and the scope
it compares against. Only a subset of expressions are allowed to be used in
specify path conditions. -/
structure SpecifyConditionVisitor where
  specifyParentScope : Option Scope
  hasError : Bool
  deriving Repr

/-- The method `reportError`. -/
def SpecifyConditionVisitor.reportError (v : SpecifyConditionVisitor)
    (sourceRange : SourceRange) : SpecifyConditionVisitor × List Diagnostic :=
  if !v.hasError then
    ({ v with hasError := true },
     [{ code := DiagCode.SpecifyPathConditionExpr, range := sourceRange, args := [], notes := [] }])
  else
    (v, [])

mutual

/-- The call `expr.visit(visitor)`: the dispatch of `Expression::visit` sends an
`Invalid` node to `visitInvalid` (which does nothing) and every other node to
the template `visit`; `visitExprs` of a node visits its operands in order. -/
def SpecifyConditionVisitor.visit :
    Expression → SpecifyConditionVisitor → SpecifyConditionVisitor × List Diagnostic
  | .Invalid _ _, v => (v, [])
  | .NamedValue sym _ sourceRange, v =>
    -- Specparams are always allowed.
    if sym.kind == SymbolKind.Specparam || v.hasError then
      (v, [])
    -- Other references must be locally defined nets or variables.
    else if (sym.kind != SymbolKind.Net && sym.kind != SymbolKind.Variable) ||
        sym.parentScope.map Scope.addr != v.specifyParentScope.map Scope.addr then
      ({ v with hasError := true },
       [{ code := DiagCode.SpecifyPathBadReference, range := sourceRange,
          args := [DiagArg.text sym.name],
          notes := [(DiagCode.NoteDeclarationHere, sym.location)] }])
    else
      (v, [])
  | .ElementSelect value selector _ _, v =>
    let r1 := SpecifyConditionVisitor.visit value v
    let r2 := SpecifyConditionVisitor.visit selector r1.1
    (r2.1, r1.2 ++ r2.2)
  | .RangeSelect value left right _ _, v =>
    let r1 := SpecifyConditionVisitor.visit value v
    let r2 := SpecifyConditionVisitor.visit left r1.1
    let r3 := SpecifyConditionVisitor.visit right r2.1
    (r3.1, r1.2 ++ r2.2 ++ r3.2)
  | .Call arguments _ _, v => SpecifyConditionVisitor.visitAll arguments v
  | .MinTypMax min typ max _ _, v =>
    let r1 := SpecifyConditionVisitor.visit min v
    let r2 := SpecifyConditionVisitor.visit typ r1.1
    let r3 := SpecifyConditionVisitor.visit max r2.1
    (r3.1, r1.2 ++ r2.2 ++ r3.2)
  | .Concatenation operands _ _, v => SpecifyConditionVisitor.visitAll operands v
  | .Replication count concat _ _, v =>
    let r1 := SpecifyConditionVisitor.visit count v
    let r2 := SpecifyConditionVisitor.visit concat r1.1
    (r2.1, r1.2 ++ r2.2)
  | .ConditionalOp pred left right _ _, v =>
    let r1 := SpecifyConditionVisitor.visit pred v
    let r2 := SpecifyConditionVisitor.visit left r1.1
    let r3 := SpecifyConditionVisitor.visit right r2.1
    (r3.1, r1.2 ++ r2.2 ++ r3.2)
  | .UnaryOp op operand _ sourceRange, v =>
    let r1 := SpecifyConditionVisitor.visit operand v
    match op with
    | .BitwiseNot | .BitwiseAnd | .BitwiseOr | .BitwiseXor
    | .BitwiseNand | .BitwiseNor | .BitwiseXnor | .LogicalNot => r1
    | _ =>
      let r2 := r1.1.reportError sourceRange
      (r2.1, r1.2 ++ r2.2)
  | .BinaryOp op left right _ sourceRange, v =>
    let r1 := SpecifyConditionVisitor.visit left v
    let r2 := SpecifyConditionVisitor.visit right r1.1
    match op with
    | .BinaryAnd | .BinaryOr | .BinaryXor | .BinaryXnor
    | .Equality | .Inequality | .LogicalAnd | .LogicalOr => (r2.1, r1.2 ++ r2.2)
    | _ =>
      let r3 := r2.1.reportError sourceRange
      (r3.1, r1.2 ++ r2.2 ++ r3.2)
  | .Conversion isImplicit operand _ sourceRange, v =>
    let r1 := SpecifyConditionVisitor.visit operand v
    if !isImplicit then
      let r2 := r1.1.reportError sourceRange
      (r2.1, r1.2 ++ r2.2)
    else
      r1
  | .IntegerLiteral _ _, v => (v, [])
  | .RealLiteral _ _, v => (v, [])
  | .Other _ _ _ sourceRange, v => v.reportError sourceRange

/-- Visiting a list of operands from left to right. -/
def SpecifyConditionVisitor.visitAll :
    List Expression → SpecifyConditionVisitor → SpecifyConditionVisitor × List Diagnostic
  | [], v => (v, [])
  | e :: rest, v =>
    let r1 := SpecifyConditionVisitor.visit e v
    let r2 := SpecifyConditionVisitor.visitAll rest r1.1
    (r2.1, r1.2 ++ r2.2)

end

/-! ## Timing paths -/

inductive ConnectionKind where
  | Full | Parallel
  deriving DecidableEq, Repr

inductive Polarity where
  | Unknown | Positive | Negative
  deriving DecidableEq, Repr

/-- A `TimingPathSymbol`: the fields of `Symbol` that the code reads
(`location`, `parentScope`, `indexInScope`, `originatingSyntax`), the fields
set by the constructor, and the mutable fields filled in by `resolve`. -/
structure TimingPathSymbol where
  location : SourceLocation
  parentScope : Option Scope
  indexInScope : Nat
  originatingSyntax : Option TimingPathSyntax
  connectionKind : ConnectionKind
  polarity : Polarity
  edgePolarity : Polarity
  edgeIdentifier : EdgeKind
  isStateDependent : Bool
  isResolved : Bool
  inputs : List Expression
  outputs : List Expression
  conditionExpr : Option Expression
  edgeSourceExpr : Option Expression
  delays : List Expression
  deriving Repr

/-- The factory `TimingPathSymbol::fromSyntax(parent, PathDeclarationSyntax)`. -/
def TimingPathSymbol.fromPathSyntax (E : Engine) (syn : PathDeclarationSyntax) :
    TimingPathSymbol :=
  let polarity :=
    match syn.desc.polarityOperator.kind with
    | .Plus | .PlusEqual => Polarity.Positive
    | .Minus | .MinusEqual => Polarity.Negative
    | _ => Polarity.Unknown
  let connectionKind :=
    if syn.desc.pathOperator.kind == TokenKind.StarArrow then ConnectionKind.Full
    else ConnectionKind.Parallel
  let edgeIdentifier := E.getEdgeKind syn.desc.edgeIdentifier.kind
  let edgePolarity :=
    match syn.desc.suffix with
    | .EdgeSensitivePathSuffix _ polarityOperator _ =>
      match polarityOperator.kind with
      | .Plus | .PlusColon => Polarity.Positive
      | .Minus | .MinusColon => Polarity.Negative
      | _ => Polarity.Unknown
    | _ => Polarity.Unknown
  { location := syn.firstTokenLocation
    parentScope := none
    indexInScope := 0
    originatingSyntax := some (TimingPathSyntax.PathDeclaration syn)
    connectionKind := connectionKind
    polarity := polarity
    edgePolarity := edgePolarity
    edgeIdentifier := edgeIdentifier
    isStateDependent := false
    isResolved := false
    inputs := []
    outputs := []
    conditionExpr := none
    edgeSourceExpr := none
    delays := [] }

/-- The three overloads of `TimingPathSymbol::fromSyntax`. -/
def TimingPathSymbol.fromSyntax (E : Engine) (syn : TimingPathSyntax) : TimingPathSymbol :=
  match syn with
  | .PathDeclaration path => TimingPathSymbol.fromPathSyntax E path
  | .IfNonePathDeclaration path =>
    { TimingPathSymbol.fromPathSyntax E path with
      originatingSyntax := some syn, isStateDependent := true }
  | .ConditionalPathDeclaration _ path =>
    { TimingPathSymbol.fromPathSyntax E path with
      originatingSyntax := some syn, isStateDependent := true }

/-- What `Symbol::setParent(scope, index)` does when the symbol is added to a
scope. -/
def TimingPathSymbol.setParent (self : TimingPathSymbol) (scope : Scope) (index : Nat) :
    TimingPathSymbol :=
  { self with parentScope := some scope, indexInScope := index }

/-- The loop "Bind all delay values" of `TimingPathSymbol::resolve`: the
contents of `delayBuf` and the diagnostics added. -/
def TimingPathSymbol.bindDelays (E : Engine) (context : ASTContext) :
    List ExpressionSyntax → List Expression × List Diagnostic
  | [] => ([], [])
  | delaySyntax :: rest =>
    let bound := E.bind delaySyntax context
    let expr := bound.1
    let more := TimingPathSymbol.bindDelays E context rest
    if !expr.bad then
      if !expr.type.isNumeric then
        (more.1,
         bound.2 ++ [{ code := DiagCode.DelayNotNumeric, range := expr.sourceRange,
                       args := [DiagArg.type expr.type], notes := [] }] ++ more.2)
      else
        (expr :: more.1, bound.2 ++ E.eval context expr ++ more.2)
    else
      (more.1, bound.2 ++ more.2)

/-- The check "input and output sizes match for parallel connections" of
`TimingPathSymbol::resolve`. -/
def TimingPathSymbol.checkParallelWidth (connectionKind : ConnectionKind)
    (inputs outputs : List Expression) (pathOperator : Token) : List Diagnostic :=
  if connectionKind == ConnectionKind.Parallel && inputs.length == 1 && outputs.length == 1 then
    match inputs[0]?, outputs[0]? with
    | some input, some output =>
      if input.type.bitWidth != output.type.bitWidth then
        [{ code := DiagCode.ParallelPathWidth, range := pathOperator.range,
           args := [DiagArg.range input.sourceRange, DiagArg.range output.sourceRange,
                    DiagArg.type input.type, DiagArg.type output.type],
           notes := [] }]
      else
        []
    | _, _ => []
  else
    []

/-- The method `TimingPathSymbol::resolve`: the symbol after the call and the
diagnostics added to the context, in order. -/
def TimingPathSymbol.resolve (E : Engine) (self : TimingPathSymbol) :
    Except Fault (TimingPathSymbol × List Diagnostic) :=
  let self := { self with isResolved := true }
  match self.originatingSyntax, self.parentScope with
  | some syntaxPtr, some parent =>
    let parentParent := parent.getParentScope
    let context : ASTContext := resolveContext parent self.indexInScope
    -- the condition of a conditional path
    let cond : TimingPathSymbol × List Diagnostic :=
      match syntaxPtr with
      | .ConditionalPathDeclaration predicate _ =>
        let bound := E.bind predicate context
        let conv := E.requireBooleanConvertible context bound.1
        let visited :=
          if conv.1 then
            (SpecifyConditionVisitor.visit bound.1
              { specifyParentScope := parentParent, hasError := false }).2
          else []
        ({ self with conditionExpr := some bound.1 }, bound.2 ++ conv.2 ++ visited)
      | _ => (self, [])
    let self := cond.1
    let syn : PathDeclarationSyntax :=
      match syntaxPtr with
      | .PathDeclaration path => path
      | .IfNonePathDeclaration path => path
      | .ConditionalPathDeclaration _ path => path
    match bindTerminals E syn.desc.inputs true parentParent context with
    | .error f => .error f
    | .ok (inputs, dIn) =>
      let self := { self with inputs := inputs }
      let outs : Except Fault (TimingPathSymbol × List Diagnostic) :=
        match syn.desc.suffix with
        | .EdgeSensitivePathSuffix outputs _ expr =>
          match bindTerminals E outputs false parentParent context with
          | .error f => .error f
          | .ok (outs, dOut) =>
            -- This expression is apparently allowed to be anything the user wants.
            let bound := E.bind expr context
            .ok ({ self with outputs := outs, edgeSourceExpr := some bound.1 }, dOut ++ bound.2)
        | .SimplePathSuffix outputs =>
          match bindTerminals E outputs false parentParent context with
          | .error f => .error f
          | .ok (outs, dOut) => .ok ({ self with outputs := outs }, dOut)
      match outs with
      | .error f => .error f
      | .ok (self, dOut) =>
        -- Verify that input and output sizes match for parallel connections.
        let dWidth := TimingPathSymbol.checkParallelWidth self.connectionKind self.inputs
          self.outputs syn.desc.pathOperator
        -- Bind all delay values.
        let delayBuf := TimingPathSymbol.bindDelays E context syn.delays
        .ok ({ self with delays := delayBuf.1 },
             cond.2 ++ dIn ++ dOut ++ dWidth ++ delayBuf.2)
  | _, _ => .error Fault.assertion

/-! ## Pulse styles -/

inductive PulseStyleKind where
  | OnEvent | OnDetect | ShowCancelled | NoShowCancelled
  deriving DecidableEq, Repr

structure PulseStyleSymbol where
  location : SourceLocation
  parentScope : Option Scope
  indexInScope : Nat
  originatingSyntax : Option PulseStyleDeclarationSyntax
  pulseStyleKind : PulseStyleKind
  isResolved : Bool
  terminals : List Expression
  deriving Repr

/-- The method `PulseStyleSymbol::resolve`. -/
def PulseStyleSymbol.resolve (E : Engine) (self : PulseStyleSymbol) :
    Except Fault (PulseStyleSymbol × List Diagnostic) :=
  let self := { self with isResolved := true }
  match self.originatingSyntax, self.parentScope with
  | some syn, some parent =>
    let parentParent := parent.getParentScope
    let context : ASTContext := resolveContext parent self.indexInScope
    match bindTerminals E syn.inputs false parentParent context with
    | .error f => .error f
    | .ok (terminals, ds) => .ok ({ self with terminals := terminals }, ds)
  | _, _ => .error Fault.assertion

/-! ## System timing checks -/

inductive SystemTimingCheckKind where
  | Unknown | Setup | Hold | SetupHold | Recovery | Removal | RecRem
  | Skew | TimeSkew | FullSkew | Period | Width | NoChange
  deriving DecidableEq, Repr

/-- The enumeration `SystemTimingCheckArgDef::ArgKind`. -/
inductive ArgKind where
  | Event | Limit | Notifier | Condition | DelayedRef | EventFlag | RemainFlag | Offset
  deriving DecidableEq, Repr

structure SystemTimingCheckArgDef where
  kind : ArgKind
  requirePositive : Bool := false
  signalRef : Int := -1
  requireEdge : Bool := false
  allowEmpty : Bool := true
  deriving DecidableEq, Repr

structure SystemTimingCheckDef where
  kind : SystemTimingCheckKind
  minArgs : Nat
  args : List SystemTimingCheckArgDef
  deriving DecidableEq, Repr

/-- The table built by `createTimingCheckDefs`, in the order of its return
statement. -/
def createTimingCheckDefs : List (String × SystemTimingCheckDef) :=
  let setup : SystemTimingCheckDef :=
    { kind := .Setup, minArgs := 3,
      args := [{ kind := .Event }, { kind := .Event },
               { kind := .Limit, requirePositive := true }, { kind := .Notifier }] }
  let hold : SystemTimingCheckDef :=
    { kind := .Hold, minArgs := 3,
      args := [{ kind := .Event }, { kind := .Event },
               { kind := .Limit, requirePositive := true }, { kind := .Notifier }] }
  let setupHold : SystemTimingCheckDef :=
    { kind := .SetupHold, minArgs := 4,
      args := [{ kind := .Event }, { kind := .Event }, { kind := .Limit }, { kind := .Limit },
               { kind := .Notifier }, { kind := .Condition }, { kind := .Condition },
               { kind := .DelayedRef, requirePositive := false, signalRef := 0 },
               { kind := .DelayedRef, requirePositive := false, signalRef := 1 }] }
  let recovery : SystemTimingCheckDef :=
    { kind := .Recovery, minArgs := 3,
      args := [{ kind := .Event }, { kind := .Event },
               { kind := .Limit, requirePositive := true }, { kind := .Notifier }] }
  let removal : SystemTimingCheckDef :=
    { kind := .Removal, minArgs := 3,
      args := [{ kind := .Event }, { kind := .Event },
               { kind := .Limit, requirePositive := true }, { kind := .Notifier }] }
  let recRem : SystemTimingCheckDef :=
    { kind := .RecRem, minArgs := 4,
      args := [{ kind := .Event }, { kind := .Event }, { kind := .Limit }, { kind := .Limit },
               { kind := .Notifier }, { kind := .Condition }, { kind := .Condition },
               { kind := .DelayedRef, requirePositive := false, signalRef := 0 },
               { kind := .DelayedRef, requirePositive := false, signalRef := 1 }] }
  let skew : SystemTimingCheckDef :=
    { kind := .Skew, minArgs := 3,
      args := [{ kind := .Event }, { kind := .Event },
               { kind := .Limit, requirePositive := true }, { kind := .Notifier }] }
  let timeSkew : SystemTimingCheckDef :=
    { kind := .TimeSkew, minArgs := 3,
      args := [{ kind := .Event }, { kind := .Event },
               { kind := .Limit, requirePositive := true }, { kind := .Notifier },
               { kind := .EventFlag }, { kind := .RemainFlag }] }
  let fullSkew : SystemTimingCheckDef :=
    { kind := .FullSkew, minArgs := 4,
      args := [{ kind := .Event }, { kind := .Event },
               { kind := .Limit, requirePositive := true },
               { kind := .Limit, requirePositive := true },
               { kind := .Notifier }, { kind := .EventFlag }, { kind := .RemainFlag }] }
  let period : SystemTimingCheckDef :=
    { kind := .Period, minArgs := 2,
      args := [{ kind := .Event, requirePositive := false, signalRef := -1, requireEdge := true },
               { kind := .Limit, requirePositive := true }, { kind := .Notifier }] }
  let width : SystemTimingCheckDef :=
    { kind := .Width, minArgs := 2,
      args := [{ kind := .Event, requirePositive := false, signalRef := -1, requireEdge := true },
               { kind := .Limit, requirePositive := true },
               { kind := .Limit, requirePositive := true, signalRef := -1,
                 requireEdge := false, allowEmpty := false },
               { kind := .Notifier }] }
  let noChange : SystemTimingCheckDef :=
    { kind := .NoChange, minArgs := 4,
      args := [{ kind := .Event }, { kind := .Event }, { kind := .Offset }, { kind := .Offset },
               { kind := .Notifier }] }
  [("$setup", setup), ("$hold", hold),
   ("$setuphold", setupHold), ("$recovery", recovery),
   ("$removal", removal), ("$recrem", recRem),
   ("$skew", skew), ("$timeskew", timeSkew),
   ("$fullskew", fullSkew), ("$period", period),
   ("$width", width), ("$nochange", noChange)]

/-- The static table `SystemTimingCheckDefs`. -/
def SystemTimingCheckDefs : List (String × SystemTimingCheckDef) :=
  createTimingCheckDefs

/-- The lookup `SystemTimingCheckDefs.find(name)`; `none` is `end()`. -/
def SystemTimingCheckDefs.find (name : String) : Option SystemTimingCheckDef :=
  SystemTimingCheckDefs.lookup name

/-- An edge descriptor: the two characters `edges[0]`, `edges[1]`. -/
structure EdgeDescriptor where
  first : Char
  second : Char
  deriving DecidableEq, Repr

/-- Modelled from the spec: the record `SystemTimingCheckSymbol::Arg` is
declared in SpecifySymbols.h, which is not part of the sources at hand. An
argument holds the bound expression (absent for an unbound argument) and, for
an event, "a terminal reference plus an optional edge descriptor and
condition sub-expression". -/
structure Arg where
  expr : Option Expression
  condition : Option Expression
  edge : EdgeKind
  edgeDescriptors : List EdgeDescriptor
  deriving Repr

/-- The default-constructed `Arg()` of `argBuf.emplace_back()`. -/
def Arg.empty : Arg :=
  { expr := none, condition := none, edge := EdgeKind.None, edgeDescriptors := [] }

/-- The constructor `Arg(expr)` of `argBuf.emplace_back(expr)`. -/
def Arg.ofExpr (expr : Expression) : Arg :=
  { expr := some expr, condition := none, edge := EdgeKind.None, edgeDescriptors := [] }

structure SystemTimingCheckSymbol where
  location : SourceLocation
  parentScope : Option Scope
  indexInScope : Nat
  originatingSyntax : Option SystemTimingCheckSyntax
  defn : Option SystemTimingCheckDef
  timingCheckKind : SystemTimingCheckKind
  isResolved : Bool
  args : List Arg
  deriving Repr

/-- The factory `SystemTimingCheckSymbol::fromSyntax`: the new symbol and the
diagnostics added to the parent scope. -/
def SystemTimingCheckSymbol.fromSyntax (syn : SystemTimingCheckSyntax) :
    SystemTimingCheckSymbol × List Diagnostic :=
  let found := SystemTimingCheckDefs.find syn.name.text
  let diags : List Diagnostic :=
    match found with
    | some _ => []
    | none => [{ code := DiagCode.UnknownSystemTimingCheck, range := syn.name.range,
                 args := [DiagArg.text syn.name.text], notes := [] }]
  ({ location := syn.firstTokenLocation
     parentScope := none
     indexInScope := 0
     originatingSyntax := some syn
     defn := found
     timingCheckKind :=
       match found with
       | some d => d.kind
       | none => SystemTimingCheckKind.Unknown
     isResolved := false
     args := [] }, diags)

/-- What `Symbol::setParent(scope, index)` does when the symbol is added to a
scope. -/
def SystemTimingCheckSymbol.setParent (self : SystemTimingCheckSymbol) (scope : Scope)
    (index : Nat) : SystemTimingCheckSymbol :=
  { self with parentScope := some scope, indexInScope := index }

/-- The symbol as it stands in its scope before `resolve`: made by
`fromSyntax` and given its parent and index by `Scope::addMember`. -/
def SystemTimingCheckSymbol.create (syn : SystemTimingCheckSyntax) (parent : Scope)
    (index : Nat) : SystemTimingCheckSymbol :=
  (SystemTimingCheckSymbol.fromSyntax syn).1.setParent parent index

/-- The edge descriptors collected from a control specifier. -/
def SystemTimingCheckSymbol.edgeDescriptorsOf :
    List EdgeDescriptorSyntax → List EdgeDescriptor
  | [] => []
  | descSyntax :: rest =>
    let t1 := descSyntax.t1.text
    let t2 := descSyntax.t2.text
    match t1.toList ++ t2.toList with
    | [c0, c1] => { first := c0, second := c1 } :: SystemTimingCheckSymbol.edgeDescriptorsOf rest
    | _ => SystemTimingCheckSymbol.edgeDescriptorsOf rest

/-- One iteration of the argument loop of `SystemTimingCheckSymbol::resolve`,
for the actual argument `actual` at index `i` with formal `formal`: the entry
appended to `argBuf` and the diagnostics added. -/
def SystemTimingCheckSymbol.resolveArg (E : Engine) (context : ASTContext)
    (parentParent : Option Scope) (d : SystemTimingCheckDef) (syn : SystemTimingCheckSyntax)
    (i : Nat) (formal : SystemTimingCheckArgDef) (actual : TimingCheckArgSyntax)
    (argBuf : List Arg) : Except Fault (Arg × List Diagnostic) :=
  match actual with
  | .EmptyTimingCheckArg sourceRange =>
    if i < d.minArgs || !formal.allowEmpty then
      .ok (Arg.empty, [{ code := DiagCode.EmptyArgNotAllowed, range := sourceRange,
                         args := [], notes := [] }])
    else
      .ok (Arg.empty, [])
  | _ =>
    let isEventArg :=
      match actual with
      | .TimingCheckEventArg _ => true
      | _ => false
    if isEventArg && formal.kind != ArgKind.Event then
      .ok (Arg.empty, [{ code := DiagCode.TimingCheckEventNotAllowed,
                         range := actual.sourceRange, args := [], notes := [] }])
    else
      match formal.kind with
      | .Limit | .EventFlag =>
        -- Constant integral expression, can't be min:typ:max
        match actual with
        | .ExpressionTimingCheckArg exprSyntax _ =>
          let bound := E.bind exprSyntax context
          let expr := bound.1
          let d1 : List Diagnostic :=
            if expr.kind == ExpressionKind.MinTypMax then
              [{ code := DiagCode.MinTypMaxNotAllowed, range := expr.sourceRange,
                 args := [], notes := [] }]
            else []
          let val := E.evalInteger context expr
          let d2 : List Diagnostic :=
            if formal.requirePositive then
              (E.requirePositive context val.1 expr.sourceRange).2
            else []
          .ok (Arg.ofExpr expr, bound.2 ++ d1 ++ val.2 ++ d2)
        | _ => .error Fault.badCast
      | .Condition =>
        -- Non-constant integral expression, can be min:typ:max
        match actual with
        | .ExpressionTimingCheckArg exprSyntax _ =>
          let bound := E.bind exprSyntax context
          .ok (Arg.ofExpr bound.1, bound.2 ++ (E.requireIntegral context bound.1).2)
        | _ => .error Fault.badCast
      | .RemainFlag | .Offset =>
        -- Constant integral expression, can be min:typ:max
        match actual with
        | .ExpressionTimingCheckArg exprSyntax _ =>
          let bound := E.bind exprSyntax context
          .ok (Arg.ofExpr bound.1, bound.2 ++ (E.evalInteger context bound.1).2)
        | _ => .error Fault.badCast
      | .Notifier =>
        -- Needs to be a simple identifier, referencing an integral lvalue
        match actual with
        | .ExpressionTimingCheckArg exprSyntax _ =>
          if exprSyntax.kind != SyntaxKind.IdentifierName then
            .ok (Arg.empty, [{ code := DiagCode.InvalidTimingCheckNotifierArg,
                               range := actual.sourceRange, args := [], notes := [] }])
          else
            let nonContinuous : ASTContext :=
              { context with flags := { context.flags with NonProcedural := false } }
            let bound := E.bindLValue exprSyntax E.logicType exprSyntax.firstTokenLocation
              nonContinuous false
            .ok (Arg.ofExpr bound.1, bound.2)
        | _ => .error Fault.badCast
      | .Event =>
        let pushed : Except Fault (Arg × List Diagnostic) :=
          match actual with
          | .ExpressionTimingCheckArg exprSyntax _ =>
            match bindTerminal E exprSyntax true parentParent context with
            | .error f => .error f
            | .ok (none, ds) => .ok (Arg.empty, ds)
            | .ok (some expr, ds) => .ok (Arg.ofExpr expr, ds)
          | .TimingCheckEventArg eventArg =>
            match bindTerminal E eventArg.terminal true parentParent context with
            | .error f => .error f
            | .ok (expr, ds) =>
              let cond : Option Expression × List Diagnostic :=
                match eventArg.condition with
                | some c =>
                  let bound := E.bind c.expr context
                  (some bound.1, bound.2 ++ (E.requireIntegral context bound.1).2)
                | none => (none, [])
              let edge := E.getEdgeKind eventArg.edge.kind
              let edgeDescriptors : List EdgeDescriptor :=
                match eventArg.controlSpecifier with
                | some spec => SystemTimingCheckSymbol.edgeDescriptorsOf spec.descriptors
                | none => []
              -- `*expr` is evaluated without a null check
              match expr with
              | none => .error Fault.nullDereference
              | some e =>
                .ok ({ expr := some e, condition := cond.1, edge := edge,
                       edgeDescriptors := edgeDescriptors }, ds ++ cond.2)
          | .EmptyTimingCheckArg _ => .error Fault.badCast
        match pushed with
        | .error f => .error f
        | .ok (back, ds) =>
          match back.expr with
          | some backExpr =>
            if formal.requireEdge && back.edge == EdgeKind.None then
              .ok (back, ds ++ [{ code := DiagCode.TimingCheckEventEdgeRequired,
                                  range := backExpr.sourceRange,
                                  args := [DiagArg.text syn.name.text], notes := [] }])
            else
              .ok (back, ds)
          | none => .ok (back, ds)
      | .DelayedRef =>
        if formal.signalRef < 0 then
          .error Fault.assertion
        else
          match argBuf[formal.signalRef.toNat]? with
          | none => .error Fault.outOfRange
          | some signalArg =>
            match signalArg.expr with
            | none => .ok (Arg.empty, [])
            | some signalExpr =>
              -- Integral lvalue, can create implicit nets (handled in SpecifyBlock factory).
              match actual with
              | .ExpressionTimingCheckArg exprSyntax _ =>
                let bound := E.bindLValue exprSyntax signalExpr.type
                  exprSyntax.firstTokenLocation context false
                .ok (Arg.ofExpr bound.1, bound.2)
              | _ => .error Fault.badCast

/-- The argument loop of `SystemTimingCheckSymbol::resolve` from index `i` on:
`actuals` are the actual arguments still to be handled, `argBuf` the entries
pushed so far. Returns the final `argBuf` and the diagnostics added. -/
def SystemTimingCheckSymbol.resolveArgs (E : Engine) (context : ASTContext)
    (parentParent : Option Scope) (d : SystemTimingCheckDef) (syn : SystemTimingCheckSyntax) :
    Nat → List TimingCheckArgSyntax → List Arg → Except Fault (List Arg × List Diagnostic)
  | _, [], argBuf => .ok (argBuf, [])
  | i, actual :: rest, argBuf =>
    match d.args[i]? with
    | none => .error Fault.outOfRange
    | some formal =>
      match SystemTimingCheckSymbol.resolveArg E context parentParent d syn i formal actual
          argBuf with
      | .error f => .error f
      | .ok (arg, ds) =>
        match SystemTimingCheckSymbol.resolveArgs E context parentParent d syn (i + 1) rest
            (argBuf ++ [arg]) with
        | .error f => .error f
        | .ok (result, ds2) => .ok (result, ds ++ ds2)

/-- The method `SystemTimingCheckSymbol::resolve`: the symbol after the call
and the diagnostics added to the context, in order. -/
def SystemTimingCheckSymbol.resolve (E : Engine) (self : SystemTimingCheckSymbol) :
    Except Fault (SystemTimingCheckSymbol × List Diagnostic) :=
  let self := { self with isResolved := true }
  match self.defn with
  | none => .ok (self, [])
  | some d =>
    match self.originatingSyntax, self.parentScope with
    | some syn, some parent =>
      let parentParent := parent.getParentScope
      let context : ASTContext := resolveContext parent self.indexInScope
      let actualArgs := syn.args
      let formalArgs := d.args
      if actualArgs.length < d.minArgs then
        .ok (self, [{ code := DiagCode.TooFewArguments, range := syn.sourceRange,
                      args := [DiagArg.text syn.name.text, DiagArg.num d.minArgs,
                               DiagArg.num actualArgs.length],
                      notes := [] }])
      else if actualArgs.length > formalArgs.length then
        .ok (self, [{ code := DiagCode.TooManyArguments, range := syn.sourceRange,
                      args := [DiagArg.text syn.name.text, DiagArg.num formalArgs.length,
                               DiagArg.num actualArgs.length],
                      notes := [] }])
      else
        match SystemTimingCheckSymbol.resolveArgs E context parentParent d syn 0 actualArgs
            [] with
        | .error f => .error f
        | .ok (argBuf, ds) => .ok ({ self with args := argBuf }, ds)
    | _, _ => .error Fault.assertion

/-! ## A small design used to run the definitions

A module body `m` (scope 1) with a specify block (scope 2) in it. `clk`,
`data` and `bus` are nets of `m` connected to input ports, `q` is a net
connected to an output port, `inner` a net connected to no port, `notif` and
`label` are variables of `m`, `g` is a variable of the compilation unit. -/

namespace Example

def moduleBody : Scope := Scope.mk 1 SymbolKind.InstanceBody DefinitionKind.Module none

def specifyBlock : Scope :=
  Scope.mk 2 SymbolKind.SpecifyBlock DefinitionKind.Module (some moduleBody)

/-- The compilation unit scope, outside of every module. -/
def compilationUnit : Scope :=
  Scope.mk 7 SymbolKind.CompilationUnit DefinitionKind.Module none

/-- The body of an interface instance. -/
def interfaceBody : Scope := Scope.mk 8 SymbolKind.InstanceBody DefinitionKind.Interface none

def logic1 : Ty := { isIntegral := true, isError := false, isNumeric := true, bitWidth := 1 }

def int32 : Ty := { isIntegral := true, isError := false, isNumeric := true, bitWidth := 32 }

def stringTy : Ty := { isIntegral := false, isError := false, isNumeric := false, bitWidth := 0 }

def errorTy : Ty := { isIntegral := false, isError := true, isNumeric := false, bitWidth := 0 }

def inputPort : PortBackref := { port := { direction := ArgumentDirection.In } }

def outputPort : PortBackref := { port := { direction := ArgumentDirection.Out } }

def clk : ValueSymbol :=
  { kind := SymbolKind.Net, name := "clk", location := 10, type := logic1,
    direction := ArgumentDirection.In, parentScope := some moduleBody,
    portBackrefs := [inputPort] }

def data : ValueSymbol :=
  { kind := SymbolKind.Net, name := "data", location := 11, type := logic1,
    direction := ArgumentDirection.In, parentScope := some moduleBody,
    portBackrefs := [inputPort] }

def q : ValueSymbol :=
  { kind := SymbolKind.Net, name := "q", location := 12, type := logic1,
    direction := ArgumentDirection.Out, parentScope := some moduleBody,
    portBackrefs := [outputPort] }

def notif : ValueSymbol :=
  { kind := SymbolKind.Variable, name := "notif", location := 13, type := logic1,
    direction := ArgumentDirection.In, parentScope := some moduleBody, portBackrefs := [] }

/-- A variable declared in the compilation unit, visible by its plain name
inside the module. -/
def unitVar : ValueSymbol :=
  { kind := SymbolKind.Variable, name := "g", location := 2, type := logic1,
    direction := ArgumentDirection.In, parentScope := some compilationUnit,
    portBackrefs := [] }

/-- A variable of type `string` of the module. -/
def label : ValueSymbol :=
  { kind := SymbolKind.Variable, name := "label", location := 14, type := stringTy,
    direction := ArgumentDirection.In, parentScope := some moduleBody, portBackrefs := [] }

/-- A value whose declared type failed to resolve. -/
def broken : ValueSymbol :=
  { kind := SymbolKind.Net, name := "broken", location := 15, type := errorTy,
    direction := ArgumentDirection.In, parentScope := some moduleBody, portBackrefs := [] }

/-- A parameter of the module. -/
def depth : ValueSymbol :=
  { kind := SymbolKind.Parameter, name := "depth", location := 16, type := int32,
    direction := ArgumentDirection.In, parentScope := some moduleBody, portBackrefs := [] }

/-- A net of the module that is connected to no port. -/
def inner : ValueSymbol :=
  { kind := SymbolKind.Net, name := "inner", location := 17, type := logic1,
    direction := ArgumentDirection.In, parentScope := some moduleBody, portBackrefs := [] }

/-- An output port of a modport. -/
def modportOut : ValueSymbol :=
  { kind := SymbolKind.ModportPort, name := "mo", location := 18, type := logic1,
    direction := ArgumentDirection.Out, parentScope := some interfaceBody,
    portBackrefs := [] }

/-- A packed array `bus` of the module, connected to an input port. -/
def bus : ValueSymbol :=
  { kind := SymbolKind.Net, name := "bus", location := 19, type := int32,
    direction := ArgumentDirection.In, parentScope := some moduleBody,
    portBackrefs := [inputPort] }

def name (text : String) (start : Nat) : ExpressionSyntax :=
  { kind := SyntaxKind.IdentifierName, text := text,
    sourceRange := { start := start, stop := start + text.length },
    firstTokenLocation := start }

def literal (text : String) (start : Nat) : ExpressionSyntax :=
  { kind := SyntaxKind.IntegerLiteralExpression, text := text,
    sourceRange := { start := start, stop := start + text.length },
    firstTokenLocation := start }

/-- A binder for the example design: names resolve to the symbols above,
`5` is an integer literal, `bus[5]` and `bus[5][5]` are element selects,
everything else is unknown and gives an invalid expression with one
diagnostic. -/
def bind (syn : ExpressionSyntax) (_context : ASTContext) : Expression × List Diagnostic :=
  if syn.text = "clk" then (Expression.NamedValue clk logic1 syn.sourceRange, [])
  else if syn.text = "data" then (Expression.NamedValue data logic1 syn.sourceRange, [])
  else if syn.text = "q" then (Expression.NamedValue q logic1 syn.sourceRange, [])
  else if syn.text = "notif" then (Expression.NamedValue notif logic1 syn.sourceRange, [])
  else if syn.text = "g" then (Expression.NamedValue unitVar logic1 syn.sourceRange, [])
  else if syn.text = "label" then (Expression.NamedValue label stringTy syn.sourceRange, [])
  else if syn.text = "inner" then (Expression.NamedValue inner logic1 syn.sourceRange, [])
  else if syn.text = "bus" then (Expression.NamedValue bus int32 syn.sourceRange, [])
  else if syn.text = "5" then (Expression.IntegerLiteral int32 syn.sourceRange, [])
  else if syn.text = "bus[5]" then
    (Expression.ElementSelect
      (Expression.NamedValue bus int32 { start := syn.sourceRange.start,
                                         stop := syn.sourceRange.start + 3 })
      (Expression.IntegerLiteral int32 { start := syn.sourceRange.start + 4,
                                         stop := syn.sourceRange.start + 5 })
      logic1 syn.sourceRange, [])
  else if syn.text = "bus[5][5]" then
    (Expression.ElementSelect
      (Expression.ElementSelect
        (Expression.NamedValue bus int32 { start := syn.sourceRange.start,
                                           stop := syn.sourceRange.start + 3 })
        (Expression.IntegerLiteral int32 { start := syn.sourceRange.start + 4,
                                           stop := syn.sourceRange.start + 5 })
        logic1 { start := syn.sourceRange.start, stop := syn.sourceRange.start + 6 })
      (Expression.IntegerLiteral int32 { start := syn.sourceRange.start + 7,
                                         stop := syn.sourceRange.start + 8 })
      logic1 syn.sourceRange, [])
  else
    (Expression.Invalid errorTy syn.sourceRange,
     [{ code := DiagCode.External 0, range := syn.sourceRange, args := [], notes := [] }])

def engine : Engine :=
  { bind := bind
    bindLValue := fun syn _type _location context _isInout => bind syn context
    evalInteger := fun _context expr =>
      match expr with
      | .IntegerLiteral _ _ => (some 5, [])
      | _ => (none, [{ code := DiagCode.External 1, range := expr.sourceRange,
                       args := [], notes := [] }])
    requirePositive := fun _context value range =>
      match value with
      | some v =>
        if 0 < v then (true, [])
        else (false, [{ code := DiagCode.External 2, range := range, args := [], notes := [] }])
      | none => (false, [])
    requireIntegral := fun _context expr =>
      if expr.type.isIntegral then (true, [])
      else (false, [{ code := DiagCode.External 3, range := expr.sourceRange,
                      args := [], notes := [] }])
    requireBooleanConvertible := fun _context expr =>
      if expr.bad then (false, [])
      else if expr.type.isIntegral then (true, [])
      else (false, [{ code := DiagCode.External 4, range := expr.sourceRange,
                      args := [], notes := [] }])
    eval := fun _context _expr => []
    getEdgeKind := fun k =>
      match k with
      | .PosEdgeKeyword => EdgeKind.PosEdge
      | .NegEdgeKeyword => EdgeKind.NegEdge
      | .EdgeKeyword => EdgeKind.BothEdges
      | _ => EdgeKind.None
    logicType := logic1 }

/-- The schema of `$setup`, as in the table. -/
def setupDef : SystemTimingCheckDef :=
  { kind := .Setup, minArgs := 3,
    args := [{ kind := .Event }, { kind := .Event },
             { kind := .Limit, requirePositive := true }, { kind := .Notifier }] }

def token (kind : TokenKind) (text : String) (start : Nat) : Token :=
  { kind := kind, text := text, range := { start := start, stop := start + text.length } }

/-- The event argument `posedge clk`. -/
def posedgeClk : TimingCheckArgSyntax :=
  TimingCheckArgSyntax.TimingCheckEventArg
    { edge := token TokenKind.PosEdgeKeyword "posedge" 7, controlSpecifier := none,
      terminal := name "clk" 15, condition := none,
      sourceRange := { start := 7, stop := 18 } }

def exprArg (e : ExpressionSyntax) : TimingCheckArgSyntax :=
  TimingCheckArgSyntax.ExpressionTimingCheckArg e e.sourceRange

/-- The check `$setup(posedge clk, data)`: one argument short. -/
def setupTwoArgs : SystemTimingCheckSyntax :=
  { name := token TokenKind.Unknown "$setup" 0,
    args := [posedgeClk, exprArg (name "data" 20)],
    sourceRange := { start := 0, stop := 26 },
    firstTokenLocation := 0 }

/-- The check `$setup(posedge clk, data, 5, notif)`. -/
def setupFourArgs : SystemTimingCheckSyntax :=
  { name := token TokenKind.Unknown "$setup" 0,
    args := [posedgeClk, exprArg (name "data" 20), exprArg (literal "5" 26),
             exprArg (name "notif" 29)],
    sourceRange := { start := 0, stop := 36 },
    firstTokenLocation := 0 }

/-- The check `$setup(posedge clk, data, 5, notif, notif)`: one argument too
many. -/
def setupFiveArgs : SystemTimingCheckSyntax :=
  { name := token TokenKind.Unknown "$setup" 0,
    args := [posedgeClk, exprArg (name "data" 20), exprArg (literal "5" 26),
             exprArg (name "notif" 29), exprArg (name "notif" 36)],
    sourceRange := { start := 0, stop := 43 },
    firstTokenLocation := 0 }

end Example

namespace Example

/-- The path declaration `(notif => q) = 5;`: its source is a variable. -/
def variableSourcePathSyntax : PathDeclarationSyntax :=
  { desc := { edgeIdentifier := token TokenKind.Unknown "" 0,
              inputs := [name "notif" 1],
              polarityOperator := token TokenKind.Unknown "" 7,
              pathOperator := token TokenKind.EqualsArrow "=>" 7,
              suffix := PathSuffixSyntax.SimplePathSuffix [name "q" 10] },
    delays := [literal "5" 15],
    firstTokenLocation := 0 }

/-- The symbol of `(notif => q) = 5;` as it stands in the specify block
before `resolve`. -/
def variableSourcePath : TimingPathSymbol :=
  (TimingPathSymbol.fromSyntax engine
    (TimingPathSyntax.PathDeclaration variableSourcePathSyntax)).setParent specifyBlock 0

/-- The symbol of `(notif => q) = 5;` after `resolve`: no input, one output,
one delay. -/
def variableSourcePathResolved : TimingPathSymbol :=
  { variableSourcePath with
    isResolved := true
    inputs := []
    outputs := [Expression.NamedValue q logic1 { start := 10, stop := 11 }]
    delays := [Expression.IntegerLiteral int32 { start := 15, stop := 16 }] }

/-- The diagnostic for the variable `notif` used as a path source. -/
def notifAsSource : Diagnostic :=
  { code := DiagCode.InvalidSpecifySource, range := { start := 1, stop := 6 },
    args := [DiagArg.text "notif"], notes := [(DiagCode.NoteDeclarationHere, 13)] }

end Example

namespace Example

/-- The schema of `$width`, as in the table. -/
def widthDef : SystemTimingCheckDef :=
  { kind := .Width, minArgs := 2,
    args := [{ kind := .Event, requirePositive := false, signalRef := -1, requireEdge := true },
             { kind := .Limit, requirePositive := true },
             { kind := .Limit, requirePositive := true, signalRef := -1,
               requireEdge := false, allowEmpty := false },
             { kind := .Notifier }] }

/-- The check `$width(posedge clk, 5, , notif)`: its third argument is
empty. -/
def widthEmptyThird : SystemTimingCheckSyntax :=
  { name := token TokenKind.Unknown "$width" 0,
    args := [posedgeClk, exprArg (literal "5" 20),
             TimingCheckArgSyntax.EmptyTimingCheckArg { start := 22, stop := 22 },
             exprArg (name "notif" 24)],
    sourceRange := { start := 0, stop := 30 },
    firstTokenLocation := 0 }

/-- The check `$width(clk, 5)`: its event has no edge. -/
def widthNoEdge : SystemTimingCheckSyntax :=
  { name := token TokenKind.Unknown "$width" 0,
    args := [exprArg (name "clk" 7), exprArg (literal "5" 12)],
    sourceRange := { start := 0, stop := 14 },
    firstTokenLocation := 0 }

/-- The check `$setup(posedge clk, data, 5, )`: its fourth argument is empty,
which the schema allows. -/
def setupEmptyNotifier : SystemTimingCheckSyntax :=
  { name := token TokenKind.Unknown "$setup" 0,
    args := [posedgeClk, exprArg (name "data" 20), exprArg (literal "5" 26),
             TimingCheckArgSyntax.EmptyTimingCheckArg { start := 28, stop := 28 }],
    sourceRange := { start := 0, stop := 29 },
    firstTokenLocation := 0 }

/-- The bound event `posedge clk`. -/
def posedgeClkArg : Arg :=
  { expr := some (Expression.NamedValue clk logic1 { start := 15, stop := 18 }),
    condition := none, edge := EdgeKind.PosEdge, edgeDescriptors := [] }

end Example

namespace Example

/-- A variable of the module that drives an output port. -/
def qreg : ValueSymbol :=
  { kind := SymbolKind.Variable, name := "qreg", location := 20, type := logic1,
    direction := ArgumentDirection.Out, parentScope := some moduleBody,
    portBackrefs := [outputPort] }

end Example

namespace Example

/-- The syntax of a select expression such as `bus[5]`. -/
def selectSyntax (text : String) (start : Nat) : ExpressionSyntax :=
  { kind := SyntaxKind.ElementSelectExpression, text := text,
    sourceRange := { start := start, stop := start + text.length },
    firstTokenLocation := start }

end Example

/-- The direction rule in the words of the specification: a direction is
compatible when it is `InOut`, or `In` for a source terminal, or `Out` for a
destination terminal. The code spells this test out twice, once negated. -/
def specDirectionCompatible (isSource : Bool) : ArgumentDirection → Bool
  | .InOut => true
  | .In => isSource
  | .Out => !isSource
  | .Ref => false

/-- The `outputs` list of a path suffix, of either kind. -/
def PathSuffixSyntax.outputs : PathSuffixSyntax → List ExpressionSyntax
  | .SimplePathSuffix outputs => outputs
  | .EdgeSensitivePathSuffix outputs _ _ => outputs

/-- The path declaration inside the syntax of a timing path: what
`syntaxPtr->as<PathDeclarationSyntax>()` is applied to in `resolve`. -/
def TimingPathSyntax.path : TimingPathSyntax → PathDeclarationSyntax
  | .PathDeclaration path => path
  | .IfNonePathDeclaration path => path
  | .ConditionalPathDeclaration _ path => path

namespace Example

/-- The path declaration `(clk => q) = (5, label, nothing);`: the second
delay is a `string` variable, the third does not bind. -/
def mixedDelaysPathSyntax : PathDeclarationSyntax :=
  { desc := { edgeIdentifier := token TokenKind.Unknown "" 0,
              inputs := [name "clk" 1],
              polarityOperator := token TokenKind.Unknown "" 5,
              pathOperator := token TokenKind.EqualsArrow "=>" 5,
              suffix := PathSuffixSyntax.SimplePathSuffix [name "q" 8] },
    delays := [literal "5" 14, name "label" 17, name "nothing" 24],
    firstTokenLocation := 0 }

/-- The symbol of `(clk => q) = (5, label, nothing);` before `resolve`. -/
def mixedDelaysPath : TimingPathSymbol :=
  (TimingPathSymbol.fromSyntax engine
    (TimingPathSyntax.PathDeclaration mixedDelaysPathSyntax)).setParent specifyBlock 0

end Example

namespace Example

/-- The symbol of `(clk => q) = (5, label, nothing);` after `resolve`: of
the three delays only `5` is kept. -/
def mixedDelaysPathResolved : TimingPathSymbol :=
  { mixedDelaysPath with
    isResolved := true
    inputs := [Expression.NamedValue clk logic1 { start := 1, stop := 4 }]
    outputs := [Expression.NamedValue q logic1 { start := 8, stop := 9 }]
    delays := [Expression.IntegerLiteral int32 { start := 14, stop := 15 }] }

/-- The diagnostics of resolving `(clk => q) = (5, label, nothing);`: one
`DelayNotNumeric` for `label`, and what the binder says about `nothing`. -/
def mixedDelaysDiagnostics : List Diagnostic :=
  [{ code := DiagCode.DelayNotNumeric, range := { start := 17, stop := 22 },
     args := [DiagArg.type stringTy], notes := [] },
   { code := DiagCode.External 0, range := { start := 24, stop := 31 },
     args := [], notes := [] }]

end Example

namespace Example

/-- The check `$setup(posedge clk, data, 5, 5)`: its notifier is a literal. -/
def setupLiteralNotifier : SystemTimingCheckSyntax :=
  { name := token TokenKind.Unknown "$setup" 0,
    args := [posedgeClk, exprArg (name "data" 20), exprArg (literal "5" 26),
             exprArg (literal "5" 29)],
    sourceRange := { start := 0, stop := 31 },
    firstTokenLocation := 0 }

end Example

namespace Example

/-- The check `$settle(posedge clk, data)`: no such timing check exists. -/
def unknownCheck : SystemTimingCheckSyntax :=
  { name := token TokenKind.Unknown "$settle" 0,
    args := [posedgeClk, exprArg (name "data" 20)],
    sourceRange := { start := 0, stop := 26 },
    firstTokenLocation := 0 }

end Example

namespace Example

/-- The symbol of `pulsestyle_onevent q;` as it stands in the specify block
before `resolve`. -/
def pulseStyle : PulseStyleSymbol :=
  { location := 0, parentScope := some specifyBlock, indexInScope := 3,
    originatingSyntax := some { keyword := token TokenKind.Unknown "pulsestyle_onevent" 0,
                                inputs := [name "q" 19], firstTokenLocation := 0 },
    pulseStyleKind := PulseStyleKind.OnEvent, isResolved := false, terminals := [] }

end Example

/-! ## File name pattern globbing

A shallow embedding of `source/text/Glob.cpp`. Strings are lists of
characters. The file system (`std::filesystem`) is a parameter. -/

/-- The function `matches`: whether the pattern matches the whole of `str`.
The `while` loop and the recursive call both go to the rest of the pattern. -/
def Glob.matches : List Char → List Char → Bool
  | str, [] =>
    -- Empty pattern matches empty string.
    str.isEmpty
  | str, p :: pattern =>
    if p = '*' then
      -- Simple case: if pattern is just '*' it matches anything.
      if pattern.isEmpty then
        true
      else
        (List.range str.length).any (fun i => Glob.matches (str.drop i) pattern)
    else
      match str with
      -- If pattern char isn't '*' then it must consume one character.
      | [] => false
      | c :: rest =>
        -- '?' matches any character, otherwise we need exact match.
        if c != p && p != '?' then false else Glob.matches rest pattern

namespace Glob

inductive GlobMode where
  | Files | Directories
  deriving DecidableEq, Repr

inductive GlobRank where
  | Directory | WildcardName | ExactName
  deriving DecidableEq, Repr

/-- What Glob.cpp uses of `std::filesystem`, for a type `Path` of paths.

* `isEmpty`: `path.empty()`; `dot`: the path `"."`
* `append`: `path /= name`
* `filename`: `narrow(p.filename().native())`
* `entries`: the paths `entry.path()` of `fs::directory_iterator(path,
  follow_directory_symlink | skip_permission_denied, ec)`, none on error
* `isRegularFile`, `isDirectory`: `fs::is_regular_file(path, ec)` and
  `fs::is_directory(path, ec)`, which is also what `entry.is_regular_file(ec)`
  and `entry.is_directory(ec)` answer for `path = entry.path()`
* `preferredSeparator`: `fs::path::preferred_separator` -/
structure FileSystem (Path : Type) where
  isEmpty : Path → Bool
  dot : Path
  append : Path → List Char → Path
  filename : Path → List Char
  entries : Path → List Path
  isRegularFile : Path → Bool
  isDirectory : Path → Bool
  preferredSeparator : Char

variable {Path : Type}

/-- The function `iterDirectory`: `results` with the entries of the wanted
kind appended. -/
def iterDirectory (fs : FileSystem Path) (path : Path) (results : List Path)
    (mode : GlobMode) : List Path :=
  results ++
    (fs.entries (if fs.isEmpty path then fs.dot else path)).filter (fun entry =>
      (mode == GlobMode.Files && fs.isRegularFile entry) ||
        (mode == GlobMode.Directories && fs.isDirectory entry))

/-- The function `iterDirectoriesRecursive`; `depth` bounds the nesting of
directories that is followed (the C++ recursion has no bound of its own). -/
def iterDirectoriesRecursive (fs : FileSystem Path) :
    Nat → Path → List Path → List Path
  | 0, _, results => results
  | depth + 1, path, results =>
    let localPaths := iterDirectory fs path [] GlobMode.Directories
    localPaths.foldl (fun results p => iterDirectoriesRecursive fs depth p results ++ [p]) results

/-- The function `globDir`. -/
def globDir (fs : FileSystem Path) (path : Path) (pattern : List Char) (results : List Path)
    (mode : GlobMode) : List Path :=
  let localPaths := iterDirectory fs path [] mode
  results ++ localPaths.filter (fun p => Glob.matches (fs.filename p) pattern)

/-- The body of `svGlobInternal` as a walk over the characters of the
pattern: `subPattern` holds the characters of the current segment read so
far (`pattern.substr(0, i)`), `hasWildcards` the flag of the `for` loop. An
empty `subPattern` is the top of the `while` loop. A recursive call of
`svGlobInternal` is a call with empty `subPattern`. Returns the rank and the
new `results`. -/
def svGlobInternal.scan (fs : FileSystem Path) (depth : Nat) (mode : GlobMode) :
    List Char → List Char → Bool → Path → List Path → GlobRank × List Path
  | [], subPattern, hasWildcards, currPath, results =>
    if subPattern.isEmpty then
      -- If we reach this point, we either had an empty pattern to
      -- begin with or we consumed the whole pattern and it had a trailing
      -- directory separator.
      if mode == GlobMode.Files then
        (GlobRank.Directory, iterDirectory fs currPath results GlobMode.Files)
      else
        (GlobRank.Directory, results ++ [fs.append currPath []])
    -- We didn't find a directory separator, so we're going to consume
    -- the remainder of the pattern.
    else if hasWildcards then
      (GlobRank.WildcardName, globDir fs currPath subPattern results mode)
    else
      -- Check for an exact match and add the target if we find it.
      let currPath := fs.append currPath subPattern
      let currPath := if mode == GlobMode.Directories then fs.append currPath [] else currPath
      if (mode == GlobMode.Files && fs.isRegularFile currPath) ||
          (mode == GlobMode.Directories && fs.isDirectory currPath) then
        (GlobRank.ExactName, results ++ [currPath])
      else
        (GlobRank.ExactName, results)
  | c :: rest, subPattern, hasWildcards, currPath, results =>
    let step : GlobRank × List Path :=
      let hasWildcards := hasWildcards || (c == '?' || c == '*')
      if c == fs.preferredSeparator then
        -- If this directory entry had wildcards we need to expand them
        -- and recursively search within each expanded directory.
        if hasWildcards then
          let dirs := globDir fs currPath subPattern [] GlobMode.Directories
          dirs.foldl (fun acc dir => svGlobInternal.scan fs depth mode rest [] false dir acc.2)
            (GlobRank.Directory, results)
        else
          -- Otherwise just record this directory and move on to the next.
          svGlobInternal.scan fs depth mode rest [] false (fs.append currPath subPattern)
            results
      else
        svGlobInternal.scan fs depth mode rest (subPattern ++ [c]) hasWildcards currPath
          results
    if subPattern.isEmpty then
      match rest with
      | c2 :: c3 :: rest3 =>
        -- The '...' pattern only applies at the start of a segment,
        -- and means to recursively pull all directories.
        if c == '.' && c2 == '.' && c3 == '.' then
          let dirs := iterDirectoriesRecursive fs depth currPath [] ++ [currPath]
          dirs.foldl (fun acc dir => svGlobInternal.scan fs depth mode rest3 [] false dir acc.2)
            (GlobRank.Directory, results)
        else
          step
      | _ => step
    else
      step

/-- The function `svGlobInternal`: the rank and the new `results`. -/
def svGlobInternal (fs : FileSystem Path) (depth : Nat) (basePath : Path)
    (pattern : List Char) (mode : GlobMode) (results : List Path) : GlobRank × List Path :=
  svGlobInternal.scan fs depth mode pattern [] false basePath results

/-- What `svGlob` uses besides the file system.

* `parseEnvVar`: `OS::parseEnvVar(ptr, end)` on the characters that follow a
  `$`: the text it returns and the number of characters it moves `ptr` by
* `hasRootPath`, `rootPath`, `relativePath`, `native`: the like-named members
  of `fs::path(widen(patternStr)).lexically_normal()` for the expanded
  pattern `patternStr` -/
structure PatternLib (Path : Type) where
  parseEnvVar : List Char → List Char × Nat
  hasRootPath : List Char → Bool
  rootPath : List Char → Path
  relativePath : List Char → List Char
  native : List Char → List Char

/-- The loop of `svGlob` that expands environment variable references;
`skip` counts the characters still to pass over because `parseEnvVar` has
consumed them. -/
def svGlob.expand (lib : PatternLib Path) : Nat → List Char → List Char
  | _, [] => []
  | skip + 1, _ :: rest => svGlob.expand lib skip rest
  | 0, c :: rest =>
    if c == '$' && !rest.isEmpty then
      (lib.parseEnvVar rest).1 ++ svGlob.expand lib (lib.parseEnvVar rest).2 rest
    else
      c :: svGlob.expand lib 0 rest

/-- The function `svGlob`. -/
def svGlob (fs : FileSystem Path) (lib : PatternLib Path) (depth : Nat) (basePath : Path)
    (pattern : List Char) (mode : GlobMode) (results : List Path) : GlobRank × List Path :=
  let patternStr := svGlob.expand lib 0 pattern
  if lib.hasRootPath patternStr then
    svGlobInternal fs depth (lib.rootPath patternStr) (lib.relativePath patternStr) mode results
  else
    svGlobInternal fs depth basePath (lib.native patternStr) mode results

end Glob

namespace Example

/-- The regular files of the example tree. -/
def files : List (List String) :=
  [["tests", "test.sv"], ["tests", "test2.sv"], ["tests", "test3.sv"],
   ["tests", "system", "system.svh"], ["tests", "library", "pkg.sv"]]

/-- The directories of the example tree. -/
def directories : List (List String) :=
  [["tests"], ["tests", "system"], ["tests", "library"]]

/-- A path without the empty last component that stands for a trailing
separator. -/
def trimmed (path : List String) : List String :=
  if path.getLast? = some "" then path.dropLast else path

/-- The example tree as a file system over paths given by their components:
`tests` holds `test.sv`, `test2.sv`, `test3.sv` and the directories `system`
(with `system.svh`) and `library` (with `pkg.sv`). -/
def fileSystem : Glob.FileSystem (List String) :=
  { isEmpty := fun path => path.isEmpty
    dot := ["."]
    append := fun path name =>
      if name.isEmpty then
        if path.isEmpty || path.getLast? = some "" then path else path ++ [""]
      else trimmed path ++ [String.mk name]
    filename := fun path => (path.getLast?.getD "").toList
    entries := fun path =>
      (files ++ directories).filter (fun entry =>
        entry.dropLast = trimmed path && !entry.dropLast.isEmpty)
    isRegularFile := fun path => files.contains path
    isDirectory := fun path => directories.contains (trimmed path)
    preferredSeparator := '/' }

/-- A pattern library for patterns without environment variables and without
a root: the pattern is taken as it is. -/
def patternLib : Glob.PatternLib (List String) :=
  { parseEnvVar := fun _ => ([], 0)
    hasRootPath := fun _ => false
    rootPath := fun _ => []
    relativePath := fun pattern => pattern
    native := fun pattern => pattern }

end Example

namespace Glob

/-- The wildcard semantics in the words of the claims about `matches`: the
empty pattern matches only the empty string, `*` stands for any sequence of
characters including the empty one, `?` for exactly one arbitrary character,
and every other pattern character for itself. -/
inductive WildcardMatches : List Char → List Char → Prop where
  | empty : WildcardMatches [] []
  | star (skipped rest pattern : List Char) :
      WildcardMatches rest pattern → WildcardMatches (skipped ++ rest) ('*' :: pattern)
  | question (c : Char) (rest pattern : List Char) :
      WildcardMatches rest pattern → WildcardMatches (c :: rest) ('?' :: pattern)
  | literal (c : Char) (rest pattern : List Char) :
      c ≠ '*' → c ≠ '?' → WildcardMatches rest pattern →
      WildcardMatches (c :: rest) (c :: pattern)

/-- The last path segment of a pattern, in the words of the claim about the
rank: the characters after the last separator, the whole pattern when it has
no separator. -/
def lastSegment (separator : Char) : List Char → List Char
  | [] => []
  | c :: rest =>
    if separator ∈ rest then lastSegment separator rest
    else if c = separator then rest
    else c :: rest

/-- The part of a pattern up to and including its last separator: the
segments that name directories. Empty when the pattern has no separator. -/
def directoryPart (separator : Char) : List Char → List Char
  | [] => []
  | c :: rest =>
    if separator ∈ rest then c :: directoryPart separator rest
    else if c = separator then [c]
    else []

/-- Whether a piece of a pattern contains `*` or `?`. -/
def hasWildcard (segment : List Char) : Bool :=
  segment.any (fun c => c == '*' || c == '?')

/-- The rank that the claim gives for a last segment: `WildcardName` when it
contains `*` or `?`, `ExactName` when it is non-empty without a wildcard,
`Directory` when it is empty. -/
def specRank (segment : List Char) : GlobRank :=
  if hasWildcard segment then GlobRank.WildcardName
  else if !segment.isEmpty then GlobRank.ExactName
  else GlobRank.Directory

/-- A segment without the groups of three dots it starts with. -/
def stripDots : List Char → List Char
  | c1 :: c2 :: c3 :: rest =>
    if c1 == '.' && c2 == '.' && c3 == '.' then stripDots rest else c1 :: c2 :: c3 :: rest
  | segment => segment

end Glob

namespace Glob

/-- What the rank returned by the walk of `svGlobInternal` can be, for the
pattern still to be read, the part of the current segment read so far and the
wildcard flag: either the rank of the last segment (taken without its
leading groups of three dots when it is read from its start), or
`Directory` when a directory segment has a wildcard. -/
def rankExplained (separator : Char) (pattern subPattern : List Char) (hasWildcards : Bool)
    (rank : GlobRank) : Prop :=
  rank =
      (if subPattern = [] ∨ separator ∈ pattern then
         specRank (stripDots (lastSegment separator pattern))
       else if hasWildcards || hasWildcard pattern then GlobRank.WildcardName
       else GlobRank.ExactName) ∨
    (rank = GlobRank.Directory ∧ separator ∈ pattern ∧
      (hasWildcards = true ∨ hasWildcard (directoryPart separator pattern) = true))

end Glob

namespace Glob

/-- The pattern that `svGlob` hands to `svGlobInternal`: the expanded and
normalized pattern, relative to its root when it has one. -/
def svGlob.normalized {Path : Type} (lib : PatternLib Path) (pattern : List Char) :
    List Char :=
  if lib.hasRootPath (svGlob.expand lib 0 pattern) then
    lib.relativePath (svGlob.expand lib 0 pattern)
  else
    lib.native (svGlob.expand lib 0 pattern)

end Glob

/-! ## Declaration order within a scope (`Symbol.h`) -/

/-- The type `SymbolIndex` of `Symbol.h`: an unsigned number of 32 bits. -/
abbrev SymbolIndex := Nat

/-- The fields of a `Symbol` that `Symbol.h` declares and that place it in
its scope: `parentScope` holds the address of the parent scope (`none` for a
null pointer), `indexInScope` starts as 0. -/
structure Symbol where
  kind : SymbolKind
  name : String
  location : SourceLocation
  parentScope : Option Nat
  indexInScope : SymbolIndex
  deriving DecidableEq, Repr

namespace Symbol

def getParentScope (self : Symbol) : Option Nat :=
  self.parentScope

def getIndex (self : Symbol) : SymbolIndex :=
  self.indexInScope

def setIndex (self : Symbol) (index : SymbolIndex) : Symbol :=
  { self with indexInScope := index }

/-- The overload `setParent(const Scope& scope)`. -/
def setParent (self : Symbol) (scope : Nat) : Symbol :=
  { self with parentScope := some scope }

/-- The overload `setParent(const Scope& scope, SymbolIndex index)`. -/
def setParentWithIndex (self : Symbol) (scope : Nat) (index : SymbolIndex) : Symbol :=
  { (self.setParent scope) with indexInScope := index }

end Symbol

/-- Modelled from the spec: the members of a `Scope` in the order of its
sibling chain; the class `Scope` is not part of `Symbol.h`. `addr` is the
address of the scope, the value that `Symbol.parentScope` holds. -/
structure ScopeMembers where
  addr : Nat
  members : List Symbol
  deriving Repr

/-- Modelled from the spec: `Scope::addMember`, whose code is not part of
`Symbol.h`. It "appends a symbol to the scope's sibling chain and assigns it
the next sequential index", through the `setParent(scope, index)` that
`Symbol.h` gives to its friend `Scope`. The index is a `SymbolIndex`, so it
is taken modulo `2 ^ 32`. -/
def ScopeMembers.addMember (scope : ScopeMembers) (symbol : Symbol) : ScopeMembers :=
  { scope with
    members := scope.members ++
      [symbol.setParentWithIndex scope.addr (scope.members.length % 2 ^ 32)] }

/-- Modelled from the spec: `Symbol::isDeclaredBefore(const Symbol&)`, which
`Symbol.h` declares and does not define. For two symbols of one scope the
answer is the strict order of their indices ("the index defines the
declared-before relation"). What is answered for symbols of different scopes
or without a scope is not described; it is left to `acrossScopes`. -/
def Symbol.isDeclaredBefore (acrossScopes : Symbol → Symbol → Option Bool)
    (self target : Symbol) : Option Bool :=
  match self.getParentScope, target.getParentScope with
  | some a, some b =>
    if a = b then some (decide (self.getIndex < target.getIndex))
    else acrossScopes self target
  | _, _ => acrossScopes self target

namespace Example

def symbolA : Symbol :=
  { kind := SymbolKind.Variable, name := "A", location := 10, parentScope := none,
    indexInScope := 0 }

def symbolB : Symbol :=
  { kind := SymbolKind.Net, name := "B", location := 20, parentScope := none,
    indexInScope := 0 }

def symbolC : Symbol :=
  { kind := SymbolKind.Parameter, name := "C", location := 30, parentScope := none,
    indexInScope := 0 }

/-- Leaves every question about symbols of different scopes open. -/
def acrossScopes : Symbol → Symbol → Option Bool :=
  fun _ _ => none

end Example

/-! ## Constant evaluation of open ranges and replications
(`OperatorExpressions.h`) -/

/-- Modelled from the spec: a four-state bit, whose type is not part of
`OperatorExpressions.h`. `x` is unknown, `z` is high impedance. -/
inductive logic_t where
  | zero | one | x | z
  deriving DecidableEq, Repr

namespace logic_t

def isUnknown : logic_t → Bool
  | x => true
  | z => true
  | _ => false

/-- Modelled from the spec: the conjunction of two three-state results; a
false side decides, otherwise an unknown side makes the result unknown. -/
def and : logic_t → logic_t → logic_t
  | zero, _ => zero
  | _, zero => zero
  | one, one => one
  | _, _ => x

end logic_t

/-- Modelled from the spec: a four-state integer, whose type is not part of
`OperatorExpressions.h`. `bits` starts with the least significant bit. -/
structure SVInt where
  signFlag : Bool
  bits : List logic_t
  deriving DecidableEq, Repr

namespace SVInt

def hasUnknown (self : SVInt) : Bool :=
  self.bits.any logic_t.isUnknown

/-- The number that the bits spell when read as unsigned; a bit that is not
`one` counts as zero. -/
def magnitude : List logic_t → Nat
  | [] => 0
  | b :: rest => (if b = logic_t.one then 1 else 0) + 2 * magnitude rest

/-- The value of a fully known integer, in two's complement when signed. -/
def toInt (self : SVInt) : Int :=
  if self.signFlag && self.bits.getLast? == some logic_t.one then
    (magnitude self.bits : Int) - 2 ^ self.bits.length
  else
    (magnitude self.bits : Int)

/-- The integer of `width` bits that holds `n` modulo `2 ^ width`. -/
def fromNat (width n : Nat) (signFlag : Bool) : SVInt :=
  { signFlag := signFlag,
    bits := (List.range width).map
      (fun i => if n / 2 ^ i % 2 = 1 then logic_t.one else logic_t.zero) }

/-- The single-bit value that carries a three-state result. -/
def ofLogic (b : logic_t) : SVInt :=
  { signFlag := false, bits := [b] }

/-- Modelled from the spec: `>=` under four-state comparison semantics, where
an unknown bit in either side makes the result unknown. -/
def ge (a b : SVInt) : logic_t :=
  if a.hasUnknown || b.hasUnknown then logic_t.x
  else if b.toInt ≤ a.toInt then logic_t.one
  else logic_t.zero

/-- Modelled from the spec: `<=` under four-state comparison semantics. -/
def le (a b : SVInt) : logic_t :=
  if a.hasUnknown || b.hasUnknown then logic_t.x
  else if a.toInt ≤ b.toInt then logic_t.one
  else logic_t.zero

/-- Copies of the bits of `self`, `count` times. -/
def replicate (self : SVInt) (count : Nat) : SVInt :=
  { signFlag := false, bits := (List.replicate count self.bits).flatten }

end SVInt

/-- Modelled from the spec: the result of a constant evaluation, whose type is
not part of `OperatorExpressions.h`. `bad` is an evaluation failure,
`elements` an aggregate value. -/
inductive ConstantValue where
  | bad
  | integer (value : SVInt)
  | elements (values : List SVInt)
  deriving DecidableEq, Repr

/-- Modelled from the spec: of the mutable evaluation context, the
diagnostics recorded on it. -/
structure EvalContext where
  diagnostics : List Diagnostic
  deriving DecidableEq, Repr

def EvalContext.addDiag (context : EvalContext) (code : DiagCode) (range : SourceRange) :
    EvalContext :=
  { context with
    diagnostics := context.diagnostics ++ [{ code := code, range := range, args := [],
                                             notes := [] }] }

/-- The class `OpenRangeExpression` of `OperatorExpressions.h`. -/
structure OpenRangeExpression where
  type : Ty
  left : Expression
  right : Expression
  sourceRange : SourceRange

/-- Modelled from the spec: `OpenRangeExpression::checkInside`, which
`OperatorExpressions.h` declares and does not define. It "returns a
three-state (true/false/unknown) membership result by comparing the target
value against both bounds under four-state comparison semantics". `eval` is
`Expression::eval`; a bound or a value that is not an integer gives `bad`. -/
def OpenRangeExpression.checkInside
    (eval : Expression → EvalContext → ConstantValue × EvalContext)
    (self : OpenRangeExpression) (context : EvalContext) (val : ConstantValue) :
    ConstantValue × EvalContext :=
  match eval self.left context with
  | (cvl, context) =>
    match eval self.right context with
    | (cvr, context) =>
      match cvl, cvr, val with
      | ConstantValue.integer lo, ConstantValue.integer hi, ConstantValue.integer v =>
        (ConstantValue.integer (SVInt.ofLogic (logic_t.and (v.ge lo) (v.le hi))), context)
      | _, _, _ => (ConstantValue.bad, context)

/-- The class `ReplicationExpression` of `OperatorExpressions.h`. -/
structure ReplicationExpression where
  type : Ty
  count : Expression
  concat : Expression
  sourceRange : SourceRange

/-- Modelled from the spec: the code of the diagnostic that records a
replication count that cannot be used; the spec gives it no name. -/
def ReplicationExpression.badCount : DiagCode :=
  DiagCode.External 0

/-- Modelled from the spec: `ReplicationExpression::evalImpl`, which
`OperatorExpressions.h` declares and does not define. It "evaluates its count
operand as a non-negative integer constant and expands `count` copies of the
concatenation operand, with `count == 0` yielding an explicitly empty
aggregate (not an error) and a negative/unknown count producing an evaluation
failure recorded on the context". `eval` is `Expression::eval`; an operand
whose own evaluation failed gives `bad` with nothing added. -/
def ReplicationExpression.evalImpl
    (eval : Expression → EvalContext → ConstantValue × EvalContext)
    (self : ReplicationExpression) (context : EvalContext) : ConstantValue × EvalContext :=
  match eval self.count context with
  | (ConstantValue.integer n, context) =>
    if n.hasUnknown || decide (n.toInt < 0) then
      (ConstantValue.bad, context.addDiag ReplicationExpression.badCount self.count.sourceRange)
    else if n.toInt = 0 then
      (ConstantValue.elements [], context)
    else
      match eval self.concat context with
      | (ConstantValue.integer value, context) =>
        (ConstantValue.integer (value.replicate n.toInt.toNat), context)
      | (_, context) => (ConstantValue.bad, context)
  | (_, context) => (ConstantValue.bad, context)

namespace Example

def intTy : Ty :=
  { isIntegral := true, isError := false, isNumeric := true, bitWidth := 8 }

/-- An integer literal at source position `start`. -/
def literalAt (start : Nat) : Expression :=
  Expression.IntegerLiteral intTy { start := start, stop := start + 1 }

/-- The values of the literals of the example, by the position they start at:
`2` at 100, `5` at 110, `0` at 120, `-1` at 130, `4'b0x11` at 140, `3` at 150,
`2'b10` at 160. -/
def constants : List (Nat × ConstantValue) :=
  [(100, ConstantValue.integer (SVInt.fromNat 8 2 true)),
   (110, ConstantValue.integer (SVInt.fromNat 8 5 true)),
   (120, ConstantValue.integer (SVInt.fromNat 8 0 true)),
   (130, ConstantValue.integer (SVInt.fromNat 8 255 true)),
   (140, ConstantValue.integer
     { signFlag := false, bits := [logic_t.one, logic_t.one, logic_t.x, logic_t.zero] }),
   (150, ConstantValue.integer (SVInt.fromNat 8 3 true)),
   (160, ConstantValue.integer (SVInt.fromNat 2 2 false))]

/-- An evaluator that knows the literals of `constants`; anything else fails
with a diagnostic of the evaluator. -/
def evalConstant (e : Expression) (context : EvalContext) : ConstantValue × EvalContext :=
  match constants.lookup e.sourceRange.start with
  | some v => (v, context)
  | none => (ConstantValue.bad, context.addDiag (DiagCode.External 9) e.sourceRange)

/-- The range `[2:5]`. -/
def openRange : OpenRangeExpression :=
  { type := intTy, left := literalAt 100, right := literalAt 110,
    sourceRange := { start := 99, stop := 112 } }

def replication (countAt : Nat) : ReplicationExpression :=
  { type := intTy, count := literalAt countAt, concat := literalAt 160,
    sourceRange := { start := countAt - 1, stop := 170 } }

def emptyContext : EvalContext :=
  { diagnostics := [] }

end Example

namespace Glob

/-- The `for` loop of the star case of `matches` with an early `return true`:
`run` is the recursive call on a tail, `none` when it did not come back. -/
def firstTail (run : List Char → Option Bool) (str : List Char) : List Nat → Option Bool
  | [] => some false
  | i :: more =>
    match run (str.drop i) with
    | none => none
    | some true => some true
    | some false => firstTail run str more

/-- The function `matches` with a bound on how deep loop iterations and
recursive calls may nest: every turn of the `while` loop and every recursive
call takes one unit of `fuel`, and `none` means the bound was reached. -/
def matchesFuel : Nat → List Char → List Char → Option Bool
  | 0, _, _ => none
  | fuel + 1, str, pattern =>
    match pattern with
    -- Empty pattern matches empty string.
    | [] => some str.isEmpty
    | p :: rest =>
      if p = '*' then
        -- Simple case: if pattern is just '*' it matches anything.
        if rest.isEmpty then
          some true
        else
          firstTail (fun tail => matchesFuel fuel tail rest) str (List.range str.length)
      else
        match str with
        -- If pattern char isn't '*' then it must consume one character.
        | [] => some false
        | c :: tail =>
          -- '?' matches any character, otherwise we need exact match.
          if c != p && p != '?' then some false else matchesFuel fuel tail rest

/-- A pattern in which no `*` is directly followed by another `*`. -/
def noAdjacentStars : List Char → Bool
  | a :: b :: rest => !(a == '*' && b == '*') && noAdjacentStars (b :: rest)
  | _ => true

/-- The match of a pattern without `*`, in the words of the claim: equal
lengths, and at every position the characters are equal or the pattern
character is `?`. -/
def PositionwiseMatches (s p : List Char) : Prop :=
  s.length = p.length ∧
    ∀ (i : Nat) (c q : Char), s[i]? = some c → p[i]? = some q → c = q ∨ q = '?'

end Glob

namespace SpecifyConditionVisitor

/-- The references a path condition may make, in the words of the claim: a
specparam, or a net or variable declared directly in the scope that contains
the specify block. -/
def allowedReference (scope : Option Scope) (sym : ValueSymbol) : Bool :=
  sym.kind == SymbolKind.Specparam ||
    ((sym.kind == SymbolKind.Net || sym.kind == SymbolKind.Variable) &&
      sym.parentScope.map Scope.addr == scope.map Scope.addr)

/-- The unary operators a path condition may use: `~`, `!` and the reduction
operators. -/
def allowedUnary : UnaryOperator → Bool
  | .BitwiseNot | .LogicalNot => true
  | .BitwiseAnd | .BitwiseOr | .BitwiseXor | .BitwiseNand | .BitwiseNor | .BitwiseXnor => true
  | _ => false

/-- The binary operators a path condition may use: `&`, `|`, `^`, `~^`, `==`,
`!=`, `&&` and `||`. -/
def allowedBinary : BinaryOperator → Bool
  | .BinaryAnd | .BinaryOr | .BinaryXor | .BinaryXnor => true
  | .Equality | .Inequality | .LogicalAnd | .LogicalOr => true
  | _ => false

mutual

/-- A condition "built only from" what the claim lists: integer and real
literals, allowed references, implicit conversions, element and range selects, calls,
min:typ:max, concatenation, replication, the conditional operator, and the
allowed unary and binary operators. `invalidPasses` says whether an invalid
node counts as allowed; the list of the claim does not name it. -/
def allowedWith (invalidPasses : Bool) (scope : Option Scope) : Expression → Bool
  | .Invalid _ _ => invalidPasses
  | .IntegerLiteral _ _ => true
  | .RealLiteral _ _ => true
  | .NamedValue sym _ _ => allowedReference scope sym
  | .UnaryOp op operand _ _ => allowedWith invalidPasses scope operand && allowedUnary op
  | .BinaryOp op left right _ _ =>
    allowedWith invalidPasses scope left && allowedWith invalidPasses scope right &&
      allowedBinary op
  | .ConditionalOp pred left right _ _ =>
    allowedWith invalidPasses scope pred && allowedWith invalidPasses scope left &&
      allowedWith invalidPasses scope right
  | .ElementSelect value selector _ _ =>
    allowedWith invalidPasses scope value && allowedWith invalidPasses scope selector
  | .RangeSelect value left right _ _ =>
    allowedWith invalidPasses scope value && allowedWith invalidPasses scope left &&
      allowedWith invalidPasses scope right
  | .Call arguments _ _ => allowedAllWith invalidPasses scope arguments
  | .Conversion isImplicit operand _ _ => allowedWith invalidPasses scope operand && isImplicit
  | .MinTypMax min typ max _ _ =>
    allowedWith invalidPasses scope min && allowedWith invalidPasses scope typ &&
      allowedWith invalidPasses scope max
  | .Concatenation operands _ _ => allowedAllWith invalidPasses scope operands
  | .Replication count concat _ _ =>
    allowedWith invalidPasses scope count && allowedWith invalidPasses scope concat
  | .Other _ _ _ _ => false

def allowedAllWith (invalidPasses : Bool) (scope : Option Scope) : List Expression → Bool
  | [] => true
  | e :: rest => allowedWith invalidPasses scope e && allowedAllWith invalidPasses scope rest

end

/-- The diagnostic for a reference that is not allowed. -/
def badReference (sym : ValueSymbol) (sourceRange : SourceRange) : Diagnostic :=
  { code := DiagCode.SpecifyPathBadReference, range := sourceRange,
    args := [DiagArg.text sym.name],
    notes := [(DiagCode.NoteDeclarationHere, sym.location)] }

/-- The diagnostic for an expression kind, operator or conversion that is not
allowed. -/
def conditionExpr (sourceRange : SourceRange) : Diagnostic :=
  { code := DiagCode.SpecifyPathConditionExpr, range := sourceRange, args := [], notes := [] }

mutual

/-- Every offence of a condition against the rules of the claim, in the order
of the traversal (the operands of a node before the node itself): a
`SpecifyPathBadReference` for a reference that is not allowed, a
`SpecifyPathConditionExpr` for any other expression kind, for a unary or
binary operator that is not allowed and for an explicit conversion. An
invalid node is passed over. -/
def offences (scope : Option Scope) : Expression → List Diagnostic
  | .Invalid _ _ => []
  | .IntegerLiteral _ _ => []
  | .RealLiteral _ _ => []
  | .NamedValue sym _ sourceRange =>
    if allowedReference scope sym then [] else [badReference sym sourceRange]
  | .UnaryOp op operand _ sourceRange =>
    offences scope operand ++ (if allowedUnary op then [] else [conditionExpr sourceRange])
  | .BinaryOp op left right _ sourceRange =>
    offences scope left ++ offences scope right ++
      (if allowedBinary op then [] else [conditionExpr sourceRange])
  | .ConditionalOp pred left right _ _ =>
    offences scope pred ++ offences scope left ++ offences scope right
  | .ElementSelect value selector _ _ => offences scope value ++ offences scope selector
  | .RangeSelect value left right _ _ =>
    offences scope value ++ offences scope left ++ offences scope right
  | .Call arguments _ _ => offencesAll scope arguments
  | .Conversion isImplicit operand _ sourceRange =>
    offences scope operand ++ (if isImplicit then [] else [conditionExpr sourceRange])
  | .MinTypMax min typ max _ _ => offences scope min ++ offences scope typ ++ offences scope max
  | .Concatenation operands _ _ => offencesAll scope operands
  | .Replication count concat _ _ => offences scope count ++ offences scope concat
  | .Other _ _ _ sourceRange => [conditionExpr sourceRange]

def offencesAll (scope : Option Scope) : List Expression → List Diagnostic
  | [] => []
  | e :: rest => offences scope e ++ offencesAll scope rest

end

/-- A visitor step that has the offences `found` before it: it reports the
first of them unless an error was reported earlier, and remembers that there
was an error. -/
def reports (found : List Diagnostic) (v : SpecifyConditionVisitor) :
    SpecifyConditionVisitor × List Diagnostic :=
  ({ v with hasError := v.hasError || !found.isEmpty },
   if v.hasError then [] else found.take 1)

/-- A visitor that has not reported anything yet. -/
def fresh (scope : Option Scope) : SpecifyConditionVisitor :=
  { specifyParentScope := scope, hasError := false }

end SpecifyConditionVisitor
namespace Example

/-- The bound condition `clk & (data == notif)`. -/
def condition : Expression :=
  Expression.BinaryOp BinaryOperator.BinaryAnd
    (Expression.NamedValue clk logic1 { start := 4, stop := 7 })
    (Expression.BinaryOp BinaryOperator.Equality
      (Expression.NamedValue data logic1 { start := 11, stop := 15 })
      (Expression.NamedValue notif logic1 { start := 19, stop := 24 })
      logic1 { start := 11, stop := 24 })
    logic1 { start := 4, stop := 25 }

/-- The bound condition `g + clk`: `g` is declared outside the module, and
`+` is not an operator of path conditions. -/
def badCondition : Expression :=
  Expression.BinaryOp BinaryOperator.Add
    (Expression.NamedValue unitVar logic1 { start := 4, stop := 5 })
    (Expression.NamedValue clk logic1 { start := 8, stop := 11 })
    logic1 { start := 4, stop := 11 }

/-- A concatenation `{clk, ?}` whose second operand is an invalid node. -/
def invalidCondition : Expression :=
  Expression.Concatenation
    [Expression.NamedValue clk logic1 { start := 5, stop := 8 },
     Expression.Invalid errorTy { start := 10, stop := 11 }]
    logic1 { start := 4, stop := 12 }

end Example

/-- The diagnostics that `TimingPathSymbol::resolve` adds for the condition of
a conditional path: those of binding the predicate, those of
`requireBooleanConvertible`, and, when that succeeds, those of the traversal
by a `SpecifyConditionVisitor`. Other paths have no condition. -/
def TimingPathSymbol.conditionDiagnostics (E : Engine) (context : ASTContext)
    (parentParent : Option Scope) : TimingPathSyntax → List Diagnostic
  | .ConditionalPathDeclaration predicate _ =>
    (E.bind predicate context).2 ++
      (E.requireBooleanConvertible context (E.bind predicate context).1).2 ++
      (if (E.requireBooleanConvertible context (E.bind predicate context).1).1 then
         (SpecifyConditionVisitor.visit (E.bind predicate context).1
           { specifyParentScope := parentParent, hasError := false }).2
       else [])
  | _ => []

/-- The diagnostics that `TimingPathSymbol::resolve` adds when it binds the
edge source expression of an edge-sensitive path suffix. -/
def TimingPathSymbol.edgeSourceDiagnostics (E : Engine) (context : ASTContext) :
    PathSuffixSyntax → List Diagnostic
  | .EdgeSensitivePathSuffix _ _ expr => (E.bind expr context).2
  | .SimplePathSuffix _ => []

namespace Example

/-- The path declaration `(bus => q) = 5;`: a parallel connection from a
terminal of 32 bits to a terminal of 1 bit. -/
def widthMismatchPathSyntax : PathDeclarationSyntax :=
  { desc := { edgeIdentifier := token TokenKind.Unknown "" 0,
              inputs := [name "bus" 1],
              polarityOperator := token TokenKind.Unknown "" 5,
              pathOperator := token TokenKind.EqualsArrow "=>" 5,
              suffix := PathSuffixSyntax.SimplePathSuffix [name "q" 8] },
    delays := [literal "5" 13],
    firstTokenLocation := 0 }

/-- The symbol of `(bus => q) = 5;` before `resolve`. -/
def widthMismatchPath : TimingPathSymbol :=
  (TimingPathSymbol.fromSyntax engine
    (TimingPathSyntax.PathDeclaration widthMismatchPathSyntax)).setParent specifyBlock 0

/-- The path declaration `(bus *> q) = 5;`: the same terminals in a full
connection. -/
def fullPathSyntax : PathDeclarationSyntax :=
  { desc := { edgeIdentifier := token TokenKind.Unknown "" 0,
              inputs := [name "bus" 1],
              polarityOperator := token TokenKind.Unknown "" 5,
              pathOperator := token TokenKind.StarArrow "*>" 5,
              suffix := PathSuffixSyntax.SimplePathSuffix [name "q" 8] },
    delays := [literal "5" 13],
    firstTokenLocation := 0 }

/-- The symbol of `(bus *> q) = 5;` before `resolve`. -/
def fullPath : TimingPathSymbol :=
  (TimingPathSymbol.fromSyntax engine
    (TimingPathSyntax.PathDeclaration fullPathSyntax)).setParent specifyBlock 0

end Example

/-- The condition of the claim on the back-references of one schema: every
`DelayedRef` formal argument has a `signalRef` that is not negative, smaller
than the position of the argument itself, and the position of an `Event`
argument. -/
def SystemTimingCheckDef.backReferencesOk (d : SystemTimingCheckDef) : Bool :=
  d.args.enum.all (fun p =>
    p.2.kind != ArgKind.DelayedRef ||
      (decide (0 ≤ p.2.signalRef) && decide (p.2.signalRef.toNat < p.1) &&
        (d.args[p.2.signalRef.toNat]?).map SystemTimingCheckArgDef.kind == some ArgKind.Event))

namespace Example

/-- An actual argument `dclk` of a timing check. -/
def delayedArg : TimingCheckArgSyntax :=
  exprArg (name "clk" 60)

end Example

namespace Example

/-- The schema of `$setuphold`, as in the table. -/
def setupHoldDef : SystemTimingCheckDef :=
  { kind := .SetupHold, minArgs := 4,
    args := [{ kind := .Event }, { kind := .Event }, { kind := .Limit }, { kind := .Limit },
             { kind := .Notifier }, { kind := .Condition }, { kind := .Condition },
             { kind := .DelayedRef, requirePositive := false, signalRef := 0 },
             { kind := .DelayedRef, requirePositive := false, signalRef := 1 }] }

end Example

/-- What the argument loop needs of the terminal of an actual argument to get
past it: a terminal written as a plain expression must bind without a fault,
and a terminal written in event form must be accepted by `bindTerminal`. -/
def TimingCheckArgSyntax.terminalBinds (E : Engine) (parentParent : Option Scope)
    (context : ASTContext) : TimingCheckArgSyntax → Prop
  | .ExpressionTimingCheckArg exprSyntax _ =>
    ∃ r : Option Expression × List Diagnostic,
      bindTerminal E exprSyntax true parentParent context = .ok r
  | .TimingCheckEventArg eventArg =>
    ∃ (e : Expression) (ds : List Diagnostic),
      bindTerminal E eventArg.terminal true parentParent context = .ok (some e, ds)
  | .EmptyTimingCheckArg _ => True
namespace Example

/-- The event argument `posedge notif`: `notif` is a variable, which
`bindTerminal` rejects as a source terminal. -/
def posedgeNotif : TimingCheckArgSyntax :=
  TimingCheckArgSyntax.TimingCheckEventArg
    { edge := token TokenKind.PosEdgeKeyword "posedge" 7, controlSpecifier := none,
      terminal := name "notif" 15, condition := none,
      sourceRange := { start := 7, stop := 20 } }

/-- The check `$setup(posedge notif, data, 5)`. -/
def setupRejectedEvent : SystemTimingCheckSyntax :=
  { name := token TokenKind.Unknown "$setup" 0,
    args := [posedgeNotif, exprArg (name "data" 22), exprArg (literal "5" 28)],
    sourceRange := { start := 0, stop := 30 },
    firstTokenLocation := 0 }

/-- The check `$setup(notif, data, 5)`: the same terminal written as a plain
expression. -/
def setupRejectedExpression : SystemTimingCheckSyntax :=
  { name := token TokenKind.Unknown "$setup" 0,
    args := [exprArg (name "notif" 15), exprArg (name "data" 22), exprArg (literal "5" 28)],
    sourceRange := { start := 0, stop := 30 },
    firstTokenLocation := 0 }

/-- The diagnostic for the variable `notif` at position 15 used as a source
terminal. -/
def notifRejected : Diagnostic :=
  { code := DiagCode.InvalidSpecifySource, range := { start := 15, stop := 20 },
    args := [DiagArg.text "notif"], notes := [(DiagCode.NoteDeclarationHere, 13)] }

end Example

/-! ## The tidy check `NoOldAlwaysSyntax`

A shallow embedding of `tools/tidy/src/style/NoOldAlwaysSyntax.cpp`, whose
declarations live in the C++ namespace `no_old_always_syntax`. Pointers to
symbols and expressions are addresses; a null pointer is `none`. -/

namespace NoOldAlwaysSyntax

/-- An `AssignmentExpression` as far as the check reads it: `addr` is the
address of the node, `leftSymbol` is `expr.left().getSymbolReference()`. -/
structure AssignmentExpression where
  addr : Nat
  leftSymbol : Option Nat
  deriving DecidableEq, Repr

/-- A `VariableDeclStatement`: `symbol` is the address of `stmt.symbol`. -/
structure VariableDeclStatement where
  symbol : Nat
  deriving DecidableEq, Repr

/-- One call of a `handle` method of `AssignmentLookup`. The traversal of
`ASTVisitor<AssignmentLookup, true, true>` is declared in
ASTHelperVisitors.h, which is not part of the sources at hand; a body is
given here by the calls that its traversal makes, in visit order. -/
inductive Visited where
  | assignment (expr : AssignmentExpression)
  | variableDecl (stmt : VariableDeclStatement)
  deriving DecidableEq, Repr

/-- The two vectors of `AssignmentLookup`. Looks for assignments and variable
declarations to determine whether non local assignments are made. -/
structure AssignmentLookup where
  localVariables : List (Option Nat)
  assignments : List AssignmentExpression
  deriving DecidableEq, Repr

namespace AssignmentLookup

/-- The method `handle(ast::AssignmentExpression const& expr)`. -/
def handleAssignment (self : AssignmentLookup) (expr : AssignmentExpression) :
    AssignmentLookup :=
  { self with assignments := self.assignments ++ [expr] }

/-- The method `handle(ast::VariableDeclStatement const& stmt)`. -/
def handleVariableDecl (self : AssignmentLookup) (stmt : VariableDeclStatement) :
    AssignmentLookup :=
  { self with localVariables := self.localVariables ++ [some stmt.symbol] }

/-- The traversal of a body: the `handle` calls in visit order. -/
def visit (self : AssignmentLookup) : List Visited → AssignmentLookup
  | [] => self
  | Visited.assignment expr :: rest => (self.handleAssignment expr).visit rest
  | Visited.variableDecl stmt :: rest => (self.handleVariableDecl stmt).visit rest

/-- The lambda `is_not_local` of `nonLocalAssignments`. -/
def isNotLocal (self : AssignmentLookup) (expr : AssignmentExpression) : Bool :=
  !self.localVariables.contains expr.leftSymbol

/-- The method `nonLocalAssignments`. -/
def nonLocalAssignments (self : AssignmentLookup) : List AssignmentExpression :=
  self.assignments.filter self.isNotLocal

end AssignmentLookup

inductive ProceduralBlockKind where
  | Initial | Final | Always | AlwaysComb | AlwaysLatch | AlwaysFF
  deriving DecidableEq, Repr

/-- A `ProceduralBlockSymbol` as far as the check reads it; `body` stands for
`symbol.getBody()`. -/
structure ProceduralBlockSymbol where
  location : SourceLocation
  procedureKind : ProceduralBlockKind
  isFromAssertion : Bool
  body : List Visited
  deriving DecidableEq, Repr

/-- The diagnostic `diags.add(diag::NoOldAlwaysSyntax, location)`. -/
structure TidyDiagnostic where
  location : SourceLocation
  deriving DecidableEq, Repr

/-- The method `MainVisitor::handle(const ast::ProceduralBlockSymbol&)`: the
diagnostics after the call. `skip` is the test made by the macro
`NEEDS_SKIP_SYMBOL`, which is defined outside of this file. -/
def MainVisitor.handle (skip : ProceduralBlockSymbol → Bool) (diags : List TidyDiagnostic)
    (symbol : ProceduralBlockSymbol) : List TidyDiagnostic :=
  if skip symbol then diags
  else if symbol.isFromAssertion then diags
  else if symbol.procedureKind == ProceduralBlockKind.Always then
    -- There are still legit uses of always_comb (e.g. for formal verification).
    let lookup := AssignmentLookup.visit { localVariables := [], assignments := [] } symbol.body
    if !lookup.nonLocalAssignments.isEmpty then
      diags ++ [{ location := symbol.location }]
    else diags
  else diags

/-- The assignments of a body, in visit order. -/
def assignmentsOf : List Visited → List AssignmentExpression
  | [] => []
  | Visited.assignment expr :: rest => expr :: assignmentsOf rest
  | Visited.variableDecl _ :: rest => assignmentsOf rest

/-- The variables declared inside a body. -/
def declaredIn : List Visited → List Nat
  | [] => []
  | Visited.assignment _ :: rest => declaredIn rest
  | Visited.variableDecl stmt :: rest => stmt.symbol :: declaredIn rest

/-- An assignment "whose target symbol is not a variable declared inside that
body": its target is no symbol at all, or a symbol that is not among the
variables declared in the body. -/
def targetsOutside (body : List Visited) (expr : AssignmentExpression) : Bool :=
  match expr.leftSymbol with
  | none => true
  | some symbol => !(declaredIn body).contains symbol

end NoOldAlwaysSyntax

namespace Example

/-- The body of `always begin int i; i = 1; q = i; end`: `i` lives at address
5, `q` at address 9. -/
def alwaysBody : List NoOldAlwaysSyntax.Visited :=
  [NoOldAlwaysSyntax.Visited.variableDecl { symbol := 5 },
   NoOldAlwaysSyntax.Visited.assignment { addr := 100, leftSymbol := some 5 },
   NoOldAlwaysSyntax.Visited.assignment { addr := 101, leftSymbol := some 9 }]

/-- The block `always begin int i; i = 1; q = i; end`. -/
def alwaysBlock : NoOldAlwaysSyntax.ProceduralBlockSymbol :=
  { location := 40, procedureKind := NoOldAlwaysSyntax.ProceduralBlockKind.Always,
    isFromAssertion := false, body := alwaysBody }

/-- The block `always begin i = 1; int i; end` with the declaration visited
after the assignment: it assigns only to its own variable. -/
def localOnlyBlock : NoOldAlwaysSyntax.ProceduralBlockSymbol :=
  { location := 60, procedureKind := NoOldAlwaysSyntax.ProceduralBlockKind.Always,
    isFromAssertion := false,
    body := [NoOldAlwaysSyntax.Visited.assignment { addr := 102, leftSymbol := some 5 },
             NoOldAlwaysSyntax.Visited.variableDecl { symbol := 5 }] }

/-- No symbol is skipped. -/
def skipNothing : NoOldAlwaysSyntax.ProceduralBlockSymbol → Bool :=
  fun _ => false

end Example

/-- Modelled from the spec: the guard in front of `resolve` that the accessors
of a `TimingPathSymbol` hold; they are declared in SpecifySymbols.h, which is
not part of the sources at hand, and `resolve` itself is private and tests no
flag. A timing path is "resolved exactly once, idempotently guarded by an
isResolved flag, the first time any consumer asks for [its] semantic
content": a request on a resolved symbol reads the fields as they are, and a
request on an unresolved symbol runs `resolve` first. The result is the symbol
the accessor reads from and the diagnostics the request added. -/
def TimingPathSymbol.ensureResolved (E : Engine) (self : TimingPathSymbol) :
    Except Fault (TimingPathSymbol × List Diagnostic) :=
  if self.isResolved then .ok (self, []) else TimingPathSymbol.resolve E self

namespace Example

/-- The event argument `posedge notif`, written in the fourth position of a
timing check. -/
def notifierEvent : TimingCheckArgSyntax :=
  TimingCheckArgSyntax.TimingCheckEventArg
    { edge := token TokenKind.PosEdgeKeyword "posedge" 29, controlSpecifier := none,
      terminal := name "notif" 37, condition := none,
      sourceRange := { start := 29, stop := 42 } }

/-- The check `$setup(posedge clk, data, 5, posedge notif)`: its notifier is
written in event form. -/
def setupEventNotifier : SystemTimingCheckSyntax :=
  { name := token TokenKind.Unknown "$setup" 0,
    args := [posedgeClk, exprArg (name "data" 20), exprArg (literal "5" 26), notifierEvent],
    sourceRange := { start := 0, stop := 43 },
    firstTokenLocation := 0 }

end Example

namespace Example

/-- The check `$width(notif, 5)`: its event has no edge, and its terminal is
a variable, which `bindTerminal` rejects as a source. -/
def widthRejected : SystemTimingCheckSyntax :=
  { name := token TokenKind.Unknown "$width" 0,
    args := [exprArg (name "notif" 7), exprArg (literal "5" 14)],
    sourceRange := { start := 0, stop := 16 },
    firstTokenLocation := 0 }

end Example

/-- What the argument loop needs of the terminal of an actual argument when
`*expr` on line 824 only binds a reference: in either form the binding of the
terminal must not stop at a failed assertion. -/
def TimingCheckArgSyntax.terminalReturns (E : Engine) (parentParent : Option Scope)
    (context : ASTContext) : TimingCheckArgSyntax → Prop
  | .ExpressionTimingCheckArg exprSyntax _ =>
    ∃ r : Option Expression × List Diagnostic,
      bindTerminal E exprSyntax true parentParent context = .ok r
  | .TimingCheckEventArg eventArg =>
    ∃ r : Option Expression × List Diagnostic,
      bindTerminal E eventArg.terminal true parentParent context = .ok r
  | .EmptyTimingCheckArg _ => True

/-- One iteration of the argument loop of `SystemTimingCheckSymbol::resolve`
as the compiled code runs it. It is `resolveArg` except at the one place where
`resolveArg` marks undefined behaviour: for an event written in event form
whose terminal `bindTerminal` rejects, `argBuf.emplace_back(*expr, condition,
edge, ...)` binds the reference `*expr` without reading through it, so the
entry pushed holds a null `expr` together with the condition, the edge and the
edge descriptors of the event; the test `argBuf.back().expr` that follows then
adds no diagnostic. -/
def SystemTimingCheckSymbol.resolveArgBound (E : Engine) (context : ASTContext)
    (parentParent : Option Scope) (d : SystemTimingCheckDef) (syn : SystemTimingCheckSyntax)
    (i : Nat) (formal : SystemTimingCheckArgDef) (actual : TimingCheckArgSyntax)
    (argBuf : List Arg) : Except Fault (Arg × List Diagnostic) :=
  match actual with
  | .TimingCheckEventArg eventArg =>
    if formal.kind == ArgKind.Event then
      match bindTerminal E eventArg.terminal true parentParent context with
      | .ok (none, ds) =>
        let cond : Option Expression × List Diagnostic :=
          match eventArg.condition with
          | some c =>
            let bound := E.bind c.expr context
            (some bound.1, bound.2 ++ (E.requireIntegral context bound.1).2)
          | none => (none, [])
        let edge := E.getEdgeKind eventArg.edge.kind
        let edgeDescriptors : List EdgeDescriptor :=
          match eventArg.controlSpecifier with
          | some spec => SystemTimingCheckSymbol.edgeDescriptorsOf spec.descriptors
          | none => []
        .ok ({ expr := none, condition := cond.1, edge := edge,
               edgeDescriptors := edgeDescriptors }, ds ++ cond.2)
      | _ => SystemTimingCheckSymbol.resolveArg E context parentParent d syn i formal actual
          argBuf
    else
      SystemTimingCheckSymbol.resolveArg E context parentParent d syn i formal actual argBuf
  | _ => SystemTimingCheckSymbol.resolveArg E context parentParent d syn i formal actual argBuf

/-- The argument loop of `SystemTimingCheckSymbol::resolve` with the
iteration `resolveArgBound`. -/
def SystemTimingCheckSymbol.resolveArgsBound (E : Engine) (context : ASTContext)
    (parentParent : Option Scope) (d : SystemTimingCheckDef) (syn : SystemTimingCheckSyntax) :
    Nat → List TimingCheckArgSyntax → List Arg → Except Fault (List Arg × List Diagnostic)
  | _, [], argBuf => .ok (argBuf, [])
  | i, actual :: rest, argBuf =>
    match d.args[i]? with
    | none => .error Fault.outOfRange
    | some formal =>
      match SystemTimingCheckSymbol.resolveArgBound E context parentParent d syn i formal actual
          argBuf with
      | .error f => .error f
      | .ok (arg, ds) =>
        match SystemTimingCheckSymbol.resolveArgsBound E context parentParent d syn (i + 1) rest
            (argBuf ++ [arg]) with
        | .error f => .error f
        | .ok (result, ds2) => .ok (result, ds ++ ds2)

/-- The method `SystemTimingCheckSymbol::resolve` with the argument loop
`resolveArgsBound`; everything before the loop is as in `resolve`. -/
def SystemTimingCheckSymbol.resolveBound (E : Engine) (self : SystemTimingCheckSymbol) :
    Except Fault (SystemTimingCheckSymbol × List Diagnostic) :=
  let self := { self with isResolved := true }
  match self.defn with
  | none => .ok (self, [])
  | some d =>
    match self.originatingSyntax, self.parentScope with
    | some syn, some parent =>
      let parentParent := parent.getParentScope
      let context : ASTContext := resolveContext parent self.indexInScope
      let actualArgs := syn.args
      let formalArgs := d.args
      if actualArgs.length < d.minArgs then
        .ok (self, [{ code := DiagCode.TooFewArguments, range := syn.sourceRange,
                      args := [DiagArg.text syn.name.text, DiagArg.num d.minArgs,
                               DiagArg.num actualArgs.length],
                      notes := [] }])
      else if actualArgs.length > formalArgs.length then
        .ok (self, [{ code := DiagCode.TooManyArguments, range := syn.sourceRange,
                      args := [DiagArg.text syn.name.text, DiagArg.num formalArgs.length,
                               DiagArg.num actualArgs.length],
                      notes := [] }])
      else
        match SystemTimingCheckSymbol.resolveArgsBound E context parentParent d syn 0
            actualArgs [] with
        | .error f => .error f
        | .ok (argBuf, ds) => .ok ({ self with args := argBuf }, ds)
    | _, _ => .error Fault.assertion

/-- The shape that the argument loop has for any iteration `step`: used to
state once what holds for `resolveArgs` and for `resolveArgsBound`. -/
def SystemTimingCheckSymbol.argumentLoop
    (step : Nat → SystemTimingCheckArgDef → TimingCheckArgSyntax → List Arg →
      Except Fault (Arg × List Diagnostic))
    (d : SystemTimingCheckDef) :
    Nat → List TimingCheckArgSyntax → List Arg → Except Fault (List Arg × List Diagnostic)
  | _, [], argBuf => .ok (argBuf, [])
  | i, actual :: rest, argBuf =>
    match d.args[i]? with
    | none => .error Fault.outOfRange
    | some formal =>
      match step i formal actual argBuf with
      | .error f => .error f
      | .ok (arg, ds) =>
        match SystemTimingCheckSymbol.argumentLoop step d (i + 1) rest (argBuf ++ [arg]) with
        | .error f => .error f
        | .ok (result, ds2) => .ok (result, ds ++ ds2)

/-! ## Theorems -/

/-- When the originating syntax and parent are present, the definition is
known and fewer actual arguments than `minArgs` are given, `resolve` only sets
`isResolved` and adds the one `TooFewArguments` diagnostic. -/
theorem SystemTimingCheckSymbol.resolve_of_too_few (E : Engine)
    (self : SystemTimingCheckSymbol) (d : SystemTimingCheckDef)
    (syn : SystemTimingCheckSyntax) (parent : Scope)
    (hdef : self.defn = some d) (hsyn : self.originatingSyntax = some syn)
    (hparent : self.parentScope = some parent) (hfew : syn.args.length < d.minArgs) :
    SystemTimingCheckSymbol.resolve E self =
      .ok ({ self with isResolved := true },
           [{ code := DiagCode.TooFewArguments, range := syn.sourceRange,
              args := [DiagArg.text syn.name.text, DiagArg.num d.minArgs,
                       DiagArg.num syn.args.length],
              notes := [] }]) := by
  simp [SystemTimingCheckSymbol.resolve, hdef, hsyn, hparent, hfew]

/-- When the definition is known, the syntax and parent are present, the
count is not below `minArgs` and more actual arguments than formal ones are
given, `resolve` only sets `isResolved` and adds the one `TooManyArguments`
diagnostic. -/
theorem SystemTimingCheckSymbol.resolve_of_too_many (E : Engine)
    (self : SystemTimingCheckSymbol) (d : SystemTimingCheckDef)
    (syn : SystemTimingCheckSyntax) (parent : Scope)
    (hdef : self.defn = some d) (hsyn : self.originatingSyntax = some syn)
    (hparent : self.parentScope = some parent) (hmin : d.minArgs ≤ syn.args.length)
    (hmany : d.args.length < syn.args.length) :
    SystemTimingCheckSymbol.resolve E self =
      .ok ({ self with isResolved := true },
           [{ code := DiagCode.TooManyArguments, range := syn.sourceRange,
              args := [DiagArg.text syn.name.text, DiagArg.num d.args.length,
                       DiagArg.num syn.args.length],
              notes := [] }]) := by
  have h1 : ¬ syn.args.length < d.minArgs := by omega
  simp [SystemTimingCheckSymbol.resolve, hdef, hsyn, hparent, h1, hmany]

/-- Every schema of the table has at most as many required arguments as
formal arguments. -/
theorem SystemTimingCheckDefs.minArgs_le (name : String) (d : SystemTimingCheckDef)
    (h : SystemTimingCheckDefs.find name = some d) : d.minArgs ≤ d.args.length := by
  simp only [SystemTimingCheckDefs.find, SystemTimingCheckDefs, createTimingCheckDefs,
    List.lookup] at h
  repeat' split at h
  all_goals first
    | (cases h; decide)
    | (exact absurd h (by simp))

/-- The fields of a symbol made by `create` for a name found in the table. -/
theorem SystemTimingCheckSymbol.create_fields (syn : SystemTimingCheckSyntax)
    (parent : Scope) (index : Nat) :
    (SystemTimingCheckSymbol.create syn parent index).defn =
        SystemTimingCheckDefs.find syn.name.text ∧
      (SystemTimingCheckSymbol.create syn parent index).originatingSyntax = some syn ∧
      (SystemTimingCheckSymbol.create syn parent index).parentScope = some parent ∧
      (SystemTimingCheckSymbol.create syn parent index).indexInScope = index ∧
      (SystemTimingCheckSymbol.create syn parent index).args = [] ∧
      (SystemTimingCheckSymbol.create syn parent index).isResolved = false :=
  ⟨rfl, rfl, rfl, rfl, rfl, rfl⟩

/-- C1: for a timing check whose name is in the schema table and which is
given fewer actual arguments than the minimum of its schema, `resolve` adds
exactly one diagnostic, `TooFewArguments`, and leaves the argument list
empty; the outcome is the same whatever the binder is, so no argument is
bound. -/
theorem SystemTimingCheckSymbol.resolve_too_few_arguments (E : Engine)
    (syn : SystemTimingCheckSyntax) (d : SystemTimingCheckDef) (parent : Scope) (index : Nat)
    (hname : SystemTimingCheckDefs.find syn.name.text = some d)
    (hfew : syn.args.length < d.minArgs) :
    SystemTimingCheckSymbol.resolve E (SystemTimingCheckSymbol.create syn parent index) =
        .ok ({ SystemTimingCheckSymbol.create syn parent index with isResolved := true },
             [{ code := DiagCode.TooFewArguments, range := syn.sourceRange,
                args := [DiagArg.text syn.name.text, DiagArg.num d.minArgs,
                         DiagArg.num syn.args.length],
                notes := [] }]) ∧
      ({ SystemTimingCheckSymbol.create syn parent index with isResolved := true } :
        SystemTimingCheckSymbol).args = [] ∧
      ∀ E2 : Engine,
        SystemTimingCheckSymbol.resolve E2 (SystemTimingCheckSymbol.create syn parent index) =
          SystemTimingCheckSymbol.resolve E (SystemTimingCheckSymbol.create syn parent index) := by
  have key : ∀ E1 : Engine,
      SystemTimingCheckSymbol.resolve E1 (SystemTimingCheckSymbol.create syn parent index) =
        .ok ({ SystemTimingCheckSymbol.create syn parent index with isResolved := true },
             [{ code := DiagCode.TooFewArguments, range := syn.sourceRange,
                args := [DiagArg.text syn.name.text, DiagArg.num d.minArgs,
                         DiagArg.num syn.args.length],
                notes := [] }]) := fun E1 =>
    SystemTimingCheckSymbol.resolve_of_too_few E1 _ d syn parent
      (by rw [(SystemTimingCheckSymbol.create_fields syn parent index).1, hname]) rfl rfl hfew
  exact ⟨key E, rfl, fun E2 => by rw [key E2, key E]⟩

/-- C1, run on `$setup(posedge clk, data)`: two arguments where three are
required. -/
theorem SystemTimingCheckSymbol.resolve_too_few_arguments_witness :
    SystemTimingCheckDefs.find Example.setupTwoArgs.name.text = some Example.setupDef ∧
      Example.setupTwoArgs.args.length < Example.setupDef.minArgs ∧
      SystemTimingCheckSymbol.resolve Example.engine
          (SystemTimingCheckSymbol.create Example.setupTwoArgs Example.specifyBlock 0) =
        .ok ({ SystemTimingCheckSymbol.create Example.setupTwoArgs Example.specifyBlock 0 with
               isResolved := true },
             [{ code := DiagCode.TooFewArguments, range := { start := 0, stop := 26 },
                args := [DiagArg.text "$setup", DiagArg.num 3, DiagArg.num 2],
                notes := [] }]) :=
  ⟨by decide, by decide,
   (SystemTimingCheckSymbol.resolve_too_few_arguments Example.engine Example.setupTwoArgs
      Example.setupDef Example.specifyBlock 0 (by decide) (by decide)).1⟩

/-- C3: for a timing check whose name is in the schema table and which is
given more actual arguments than its schema has formal arguments, `resolve`
adds exactly one diagnostic, `TooManyArguments`, and leaves the argument list
empty; the outcome is the same whatever the binder is, so no argument is
bound. -/
theorem SystemTimingCheckSymbol.resolve_too_many_arguments (E : Engine)
    (syn : SystemTimingCheckSyntax) (d : SystemTimingCheckDef) (parent : Scope) (index : Nat)
    (hname : SystemTimingCheckDefs.find syn.name.text = some d)
    (hmany : d.args.length < syn.args.length) :
    SystemTimingCheckSymbol.resolve E (SystemTimingCheckSymbol.create syn parent index) =
        .ok ({ SystemTimingCheckSymbol.create syn parent index with isResolved := true },
             [{ code := DiagCode.TooManyArguments, range := syn.sourceRange,
                args := [DiagArg.text syn.name.text, DiagArg.num d.args.length,
                         DiagArg.num syn.args.length],
                notes := [] }]) ∧
      ({ SystemTimingCheckSymbol.create syn parent index with isResolved := true } :
        SystemTimingCheckSymbol).args = [] ∧
      ∀ E2 : Engine,
        SystemTimingCheckSymbol.resolve E2 (SystemTimingCheckSymbol.create syn parent index) =
          SystemTimingCheckSymbol.resolve E (SystemTimingCheckSymbol.create syn parent index) := by
  have hle := SystemTimingCheckDefs.minArgs_le _ d hname
  have key : ∀ E1 : Engine,
      SystemTimingCheckSymbol.resolve E1 (SystemTimingCheckSymbol.create syn parent index) =
        .ok ({ SystemTimingCheckSymbol.create syn parent index with isResolved := true },
             [{ code := DiagCode.TooManyArguments, range := syn.sourceRange,
                args := [DiagArg.text syn.name.text, DiagArg.num d.args.length,
                         DiagArg.num syn.args.length],
                notes := [] }]) := fun E1 =>
    SystemTimingCheckSymbol.resolve_of_too_many E1 _ d syn parent
      (by rw [(SystemTimingCheckSymbol.create_fields syn parent index).1, hname]) rfl rfl
      (by omega) hmany
  exact ⟨key E, rfl, fun E2 => by rw [key E2, key E]⟩

/-- C3, run on `$setup(posedge clk, data, 5, notif, notif)`: five arguments
where the schema has four. -/
theorem SystemTimingCheckSymbol.resolve_too_many_arguments_witness :
    SystemTimingCheckDefs.find Example.setupFiveArgs.name.text = some Example.setupDef ∧
      Example.setupDef.args.length < Example.setupFiveArgs.args.length ∧
      SystemTimingCheckSymbol.resolve Example.engine
          (SystemTimingCheckSymbol.create Example.setupFiveArgs Example.specifyBlock 0) =
        .ok ({ SystemTimingCheckSymbol.create Example.setupFiveArgs Example.specifyBlock 0 with
               isResolved := true },
             [{ code := DiagCode.TooManyArguments, range := { start := 0, stop := 43 },
                args := [DiagArg.text "$setup", DiagArg.num 4, DiagArg.num 5],
                notes := [] }]) :=
  ⟨by decide, by decide,
   (SystemTimingCheckSymbol.resolve_too_many_arguments Example.engine Example.setupFiveArgs
      Example.setupDef Example.specifyBlock 0 (by decide) (by decide)).1⟩

/-- One turn of the argument loop: when the formal at `i` exists and the
iteration pushes `arg` with diagnostics `ds`, the loop goes on with the next
index and the remaining actual arguments. -/
theorem SystemTimingCheckSymbol.resolveArgs_step (E : Engine) (context : ASTContext)
    (parentParent : Option Scope) (d : SystemTimingCheckDef) (syn : SystemTimingCheckSyntax)
    (i : Nat) (formal : SystemTimingCheckArgDef) (actual : TimingCheckArgSyntax)
    (rest : List TimingCheckArgSyntax) (argBuf : List Arg) (arg : Arg) (ds : List Diagnostic)
    (hformal : d.args[i]? = some formal)
    (hstep : SystemTimingCheckSymbol.resolveArg E context parentParent d syn i formal actual
      argBuf = .ok (arg, ds)) :
    SystemTimingCheckSymbol.resolveArgs E context parentParent d syn i (actual :: rest) argBuf =
      Except.map (fun p => (p.1, ds ++ p.2))
        (SystemTimingCheckSymbol.resolveArgs E context parentParent d syn (i + 1) rest
          (argBuf ++ [arg])) := by
  rw [SystemTimingCheckSymbol.resolveArgs]
  simp only [hformal, hstep]
  cases SystemTimingCheckSymbol.resolveArgs E context parentParent d syn (i + 1) rest
    (argBuf ++ [arg]) <;> rfl

/-- The argument loop pushes exactly one entry for each actual argument. -/
theorem SystemTimingCheckSymbol.resolveArgs_length (E : Engine) (context : ASTContext)
    (parentParent : Option Scope) (d : SystemTimingCheckDef) (syn : SystemTimingCheckSyntax)
    (actuals : List TimingCheckArgSyntax) :
    ∀ (i : Nat) (argBuf result : List Arg) (ds : List Diagnostic),
      SystemTimingCheckSymbol.resolveArgs E context parentParent d syn i actuals argBuf =
        .ok (result, ds) →
      result.length = argBuf.length + actuals.length := by
  induction actuals with
  | nil =>
    intro i argBuf result ds h
    simp [SystemTimingCheckSymbol.resolveArgs] at h
    simp [h.1]
  | cons actual rest ih =>
    intro i argBuf result ds h
    rw [SystemTimingCheckSymbol.resolveArgs] at h
    cases hf : d.args[i]? with
    | none => simp [hf] at h
    | some formal =>
      simp only [hf] at h
      cases hstep : SystemTimingCheckSymbol.resolveArg E context parentParent d syn i formal
          actual argBuf with
      | error f => simp [hstep] at h
      | ok r =>
        obtain ⟨arg, ds1⟩ := r
        simp only [hstep] at h
        cases hrest : SystemTimingCheckSymbol.resolveArgs E context parentParent d syn (i + 1)
            rest (argBuf ++ [arg]) with
        | error f => simp [hrest] at h
        | ok r2 =>
          obtain ⟨res2, ds2⟩ := r2
          simp only [hrest, Except.ok.injEq, Prod.mk.injEq] at h
          have := ih (i + 1) (argBuf ++ [arg]) res2 ds2 hrest
          rw [← h.1, this]
          simp
          omega

/-- The iteration for an empty actual argument. -/
theorem SystemTimingCheckSymbol.resolveArg_empty (E : Engine) (context : ASTContext)
    (parentParent : Option Scope) (d : SystemTimingCheckDef) (syn : SystemTimingCheckSyntax)
    (i : Nat) (formal : SystemTimingCheckArgDef) (r : SourceRange) (argBuf : List Arg) :
    SystemTimingCheckSymbol.resolveArg E context parentParent d syn i formal
        (TimingCheckArgSyntax.EmptyTimingCheckArg r) argBuf =
      .ok (Arg.empty,
           if i < d.minArgs ∨ formal.allowEmpty = false then
             [{ code := DiagCode.EmptyArgNotAllowed, range := r, args := [], notes := [] }]
           else []) := by
  by_cases h : i < d.minArgs ∨ formal.allowEmpty = false
  · rcases h with h | h <;> simp [SystemTimingCheckSymbol.resolveArg, h]
  · have h1 : ¬ i < d.minArgs := fun hc => h (Or.inl hc)
    have h2 : formal.allowEmpty = true := by
      cases hb : formal.allowEmpty
      · exact absurd (Or.inr hb) h
      · rfl
    simp [SystemTimingCheckSymbol.resolveArg, h1, h2]

/-- The iteration for an event written as a plain expression whose terminal
is accepted, where the schema requires an edge. -/
theorem SystemTimingCheckSymbol.resolveArg_edge_required (E : Engine) (context : ASTContext)
    (parentParent : Option Scope) (d : SystemTimingCheckDef) (syn : SystemTimingCheckSyntax)
    (i : Nat) (formal : SystemTimingCheckArgDef) (exprSyntax : ExpressionSyntax)
    (r : SourceRange) (argBuf : List Arg) (e : Expression) (ds : List Diagnostic)
    (hkind : formal.kind = ArgKind.Event) (hedge : formal.requireEdge = true)
    (hbind : bindTerminal E exprSyntax true parentParent context = .ok (some e, ds)) :
    SystemTimingCheckSymbol.resolveArg E context parentParent d syn i formal
        (TimingCheckArgSyntax.ExpressionTimingCheckArg exprSyntax r) argBuf =
      .ok (Arg.ofExpr e,
           ds ++ [{ code := DiagCode.TimingCheckEventEdgeRequired, range := e.sourceRange,
                    args := [DiagArg.text syn.name.text], notes := [] }]) := by
  simp [SystemTimingCheckSymbol.resolveArg, hkind, hedge, hbind, Arg.ofExpr]
/-- The iteration for an event written in event form whose terminal is
accepted and whose edge token gives no edge, where the schema requires an
edge. -/
theorem SystemTimingCheckSymbol.resolveArg_event_edge_required (E : Engine)
    (context : ASTContext) (parentParent : Option Scope) (d : SystemTimingCheckDef)
    (syn : SystemTimingCheckSyntax) (i : Nat) (formal : SystemTimingCheckArgDef)
    (eventArg : TimingCheckEventArgSyntax) (argBuf : List Arg) (e : Expression)
    (ds : List Diagnostic)
    (hkind : formal.kind = ArgKind.Event) (hedge : formal.requireEdge = true)
    (hbind : bindTerminal E eventArg.terminal true parentParent context = .ok (some e, ds))
    (hnone : E.getEdgeKind eventArg.edge.kind = EdgeKind.None) :
    SystemTimingCheckSymbol.resolveArg E context parentParent d syn i formal
        (TimingCheckArgSyntax.TimingCheckEventArg eventArg) argBuf =
      .ok ({ expr := some e,
             condition := eventArg.condition.map (fun c => (E.bind c.expr context).1),
             edge := EdgeKind.None,
             edgeDescriptors :=
               match eventArg.controlSpecifier with
               | some spec => SystemTimingCheckSymbol.edgeDescriptorsOf spec.descriptors
               | none => [] },
           ds ++
             (match eventArg.condition with
              | some c =>
                (E.bind c.expr context).2 ++
                  (E.requireIntegral context (E.bind c.expr context).1).2
              | none => []) ++
             [{ code := DiagCode.TimingCheckEventEdgeRequired, range := e.sourceRange,
                args := [DiagArg.text syn.name.text], notes := [] }]) := by
  cases hc : eventArg.condition <;>
    simp [SystemTimingCheckSymbol.resolveArg, hkind, hedge, hbind, hnone, hc]
/-- C5, as the claim states it, fails for two of its four schema errors. In
`$width(posedge clk, 5, , notif)` the third argument is empty although the
schema does not allow it: one `EmptyArgNotAllowed` is added, yet resolution
goes on and the argument list gets four entries. In `$width(clk, 5)` the
event has no edge although the schema requires one: one
`TimingCheckEventEdgeRequired` is added, yet the argument list gets two
entries. In neither case does the argument list stay empty. -/
theorem SystemTimingCheckSymbol.resolve_schema_errors_counterexample :
    SystemTimingCheckSymbol.resolve Example.engine
        (SystemTimingCheckSymbol.create Example.widthEmptyThird Example.specifyBlock 0) =
      .ok ({ SystemTimingCheckSymbol.create Example.widthEmptyThird Example.specifyBlock 0 with
             isResolved := true,
             args := [Example.posedgeClkArg,
                      Arg.ofExpr (Expression.IntegerLiteral Example.int32
                        { start := 20, stop := 21 }),
                      Arg.empty,
                      Arg.ofExpr (Expression.NamedValue Example.notif Example.logic1
                        { start := 24, stop := 29 })] },
           [{ code := DiagCode.EmptyArgNotAllowed, range := { start := 22, stop := 22 },
              args := [], notes := [] }]) ∧
      SystemTimingCheckSymbol.resolve Example.engine
        (SystemTimingCheckSymbol.create Example.widthNoEdge Example.specifyBlock 0) =
      .ok ({ SystemTimingCheckSymbol.create Example.widthNoEdge Example.specifyBlock 0 with
             isResolved := true,
             args := [Arg.ofExpr (Expression.NamedValue Example.clk Example.logic1
                        { start := 7, stop := 10 }),
                      Arg.ofExpr (Expression.IntegerLiteral Example.int32
                        { start := 12, stop := 13 })] },
           [{ code := DiagCode.TimingCheckEventEdgeRequired, range := { start := 7, stop := 10 },
              args := [DiagArg.text "$width"], notes := [] }]) :=
  ⟨rfl, rfl⟩

/-- C5, amended. For a symbol with a known schema `d`:
too few or too many arguments add one diagnostic and abandon resolution, the
argument list being left as it was (empty). An empty argument the schema does
not allow adds one diagnostic, but resolution is not abandoned: the loop
pushes an unbound entry and goes on with the next argument. An event without
an edge (written as a plain expression, or in event form with an edge token
that gives no edge) where the schema requires one, and whose terminal
`bindTerminal` accepts, adds one `TimingCheckEventEdgeRequired` after the
diagnostics of the terminal, and resolution is not abandoned either: the loop
pushes the bound entry and goes on. An event written as a plain expression
whose terminal `bindTerminal` rejects gets only the diagnostics of the
terminal and no edge diagnostic, whether or not the schema requires an edge:
the loop pushes an unbound entry and goes on. Whenever `resolve` returns with
the argument count within bounds the argument list has one entry for each
actual argument. -/
theorem SystemTimingCheckSymbol.resolve_schema_errors (E : Engine)
    (self : SystemTimingCheckSymbol) (d : SystemTimingCheckDef)
    (syn : SystemTimingCheckSyntax) (parent : Scope)
    (hdef : self.defn = some d) (hsyn : self.originatingSyntax = some syn)
    (hparent : self.parentScope = some parent) :
    (syn.args.length < d.minArgs →
      SystemTimingCheckSymbol.resolve E self =
        .ok ({ self with isResolved := true },
             [{ code := DiagCode.TooFewArguments, range := syn.sourceRange,
                args := [DiagArg.text syn.name.text, DiagArg.num d.minArgs,
                         DiagArg.num syn.args.length],
                notes := [] }])) ∧
    (d.minArgs ≤ syn.args.length → d.args.length < syn.args.length →
      SystemTimingCheckSymbol.resolve E self =
        .ok ({ self with isResolved := true },
             [{ code := DiagCode.TooManyArguments, range := syn.sourceRange,
                args := [DiagArg.text syn.name.text, DiagArg.num d.args.length,
                         DiagArg.num syn.args.length],
                notes := [] }])) ∧
    (∀ (i : Nat) (formal : SystemTimingCheckArgDef) (r : SourceRange)
        (rest : List TimingCheckArgSyntax) (argBuf : List Arg),
      d.args[i]? = some formal → (i < d.minArgs ∨ formal.allowEmpty = false) →
      SystemTimingCheckSymbol.resolveArgs E (resolveContext parent self.indexInScope)
          parent.getParentScope d syn i (TimingCheckArgSyntax.EmptyTimingCheckArg r :: rest)
          argBuf =
        Except.map
          (fun p => (p.1, [{ code := DiagCode.EmptyArgNotAllowed, range := r, args := [],
                             notes := [] }] ++ p.2))
          (SystemTimingCheckSymbol.resolveArgs E (resolveContext parent self.indexInScope)
            parent.getParentScope d syn (i + 1) rest (argBuf ++ [Arg.empty]))) ∧
    (∀ (i : Nat) (formal : SystemTimingCheckArgDef) (exprSyntax : ExpressionSyntax)
        (r : SourceRange) (rest : List TimingCheckArgSyntax) (argBuf : List Arg)
        (e : Expression) (ds : List Diagnostic),
      d.args[i]? = some formal → formal.kind = ArgKind.Event → formal.requireEdge = true →
      bindTerminal E exprSyntax true parent.getParentScope
        (resolveContext parent self.indexInScope) = .ok (some e, ds) →
      SystemTimingCheckSymbol.resolveArgs E (resolveContext parent self.indexInScope)
          parent.getParentScope d syn i
          (TimingCheckArgSyntax.ExpressionTimingCheckArg exprSyntax r :: rest) argBuf =
        Except.map
          (fun p => (p.1, (ds ++ [{ code := DiagCode.TimingCheckEventEdgeRequired,
                                    range := e.sourceRange,
                                    args := [DiagArg.text syn.name.text], notes := [] }]) ++ p.2))
          (SystemTimingCheckSymbol.resolveArgs E (resolveContext parent self.indexInScope)
            parent.getParentScope d syn (i + 1) rest (argBuf ++ [Arg.ofExpr e]))) ∧
    (∀ (i : Nat) (formal : SystemTimingCheckArgDef) (eventArg : TimingCheckEventArgSyntax)
        (rest : List TimingCheckArgSyntax) (argBuf : List Arg)
        (e : Expression) (ds : List Diagnostic),
      d.args[i]? = some formal → formal.kind = ArgKind.Event → formal.requireEdge = true →
      bindTerminal E eventArg.terminal true parent.getParentScope
        (resolveContext parent self.indexInScope) = .ok (some e, ds) →
      E.getEdgeKind eventArg.edge.kind = EdgeKind.None →
      SystemTimingCheckSymbol.resolveArgs E (resolveContext parent self.indexInScope)
          parent.getParentScope d syn i
          (TimingCheckArgSyntax.TimingCheckEventArg eventArg :: rest) argBuf =
        Except.map
          (fun p => (p.1,
            (ds ++
              (match eventArg.condition with
               | some c =>
                 (E.bind c.expr (resolveContext parent self.indexInScope)).2 ++
                   (E.requireIntegral (resolveContext parent self.indexInScope)
                     (E.bind c.expr (resolveContext parent self.indexInScope)).1).2
               | none => []) ++
              [{ code := DiagCode.TimingCheckEventEdgeRequired, range := e.sourceRange,
                 args := [DiagArg.text syn.name.text], notes := [] }]) ++ p.2))
          (SystemTimingCheckSymbol.resolveArgs E (resolveContext parent self.indexInScope)
            parent.getParentScope d syn (i + 1) rest
            (argBuf ++
              [{ expr := some e,
                 condition := eventArg.condition.map
                   (fun c => (E.bind c.expr (resolveContext parent self.indexInScope)).1),
                 edge := EdgeKind.None,
                 edgeDescriptors :=
                   match eventArg.controlSpecifier with
                   | some spec => SystemTimingCheckSymbol.edgeDescriptorsOf spec.descriptors
                   | none => [] }]))) ∧
    (d.minArgs ≤ syn.args.length → syn.args.length ≤ d.args.length →
      ∀ (after : SystemTimingCheckSymbol) (ds : List Diagnostic),
        SystemTimingCheckSymbol.resolve E self = .ok (after, ds) →
        after.args.length = syn.args.length) ∧
    (∀ (i : Nat) (formal : SystemTimingCheckArgDef) (exprSyntax : ExpressionSyntax)
        (r : SourceRange) (rest : List TimingCheckArgSyntax) (argBuf : List Arg)
        (ds : List Diagnostic),
      d.args[i]? = some formal → formal.kind = ArgKind.Event →
      bindTerminal E exprSyntax true parent.getParentScope
        (resolveContext parent self.indexInScope) = .ok (none, ds) →
      SystemTimingCheckSymbol.resolveArgs E (resolveContext parent self.indexInScope)
          parent.getParentScope d syn i
          (TimingCheckArgSyntax.ExpressionTimingCheckArg exprSyntax r :: rest) argBuf =
        Except.map (fun p => (p.1, ds ++ p.2))
          (SystemTimingCheckSymbol.resolveArgs E (resolveContext parent self.indexInScope)
            parent.getParentScope d syn (i + 1) rest (argBuf ++ [Arg.empty]))) := by
  refine ⟨?_, ?_, ?_, ?_, ?_, ?_, ?_⟩
  · exact SystemTimingCheckSymbol.resolve_of_too_few E self d syn parent hdef hsyn hparent
  · exact SystemTimingCheckSymbol.resolve_of_too_many E self d syn parent hdef hsyn hparent
  · intro i formal r rest argBuf hformal hcond
    have hstep := SystemTimingCheckSymbol.resolveArg_empty E
      (resolveContext parent self.indexInScope) parent.getParentScope d syn i formal r argBuf
    rw [if_pos hcond] at hstep
    exact SystemTimingCheckSymbol.resolveArgs_step E _ _ d syn i formal _ rest argBuf _ _
      hformal hstep
  · intro i formal exprSyntax r rest argBuf e ds hformal hkind hedge hbind
    exact SystemTimingCheckSymbol.resolveArgs_step E _ _ d syn i formal _ rest argBuf _ _
      hformal
      (SystemTimingCheckSymbol.resolveArg_edge_required E _ _ d syn i formal exprSyntax r
        argBuf e ds hkind hedge hbind)
  · intro i formal eventArg rest argBuf e ds hformal hkind hedge hbind hnone
    exact SystemTimingCheckSymbol.resolveArgs_step E _ _ d syn i formal _ rest argBuf _ _
      hformal
      (SystemTimingCheckSymbol.resolveArg_event_edge_required E _ _ d syn i formal eventArg
        argBuf e ds hkind hedge hbind hnone)
  · intro hmin hmax after ds h
    have h1 : ¬ syn.args.length < d.minArgs := by omega
    have h2 : ¬ d.args.length < syn.args.length := by omega
    simp only [SystemTimingCheckSymbol.resolve, hdef, hsyn, hparent, h1, h2, if_false] at h
    cases hloop : SystemTimingCheckSymbol.resolveArgs E
        (resolveContext parent self.indexInScope) parent.getParentScope d syn 0 syn.args [] with
    | error f => simp [hloop] at h
    | ok res =>
      obtain ⟨argBuf, ds2⟩ := res
      simp only [hloop, Except.ok.injEq, Prod.mk.injEq] at h
      have hlen := SystemTimingCheckSymbol.resolveArgs_length E _ _ d syn syn.args 0 [] argBuf
        ds2 hloop
      rw [← h.1]
      simpa using hlen
  · intro i formal exprSyntax r rest argBuf ds hformal hkind hbind
    have hstep : SystemTimingCheckSymbol.resolveArg E (resolveContext parent self.indexInScope)
        parent.getParentScope d syn i formal
        (TimingCheckArgSyntax.ExpressionTimingCheckArg exprSyntax r) argBuf =
        .ok (Arg.empty, ds) := by
      simp [SystemTimingCheckSymbol.resolveArg, hkind, hbind, Arg.empty]
    exact SystemTimingCheckSymbol.resolveArgs_step E _ _ d syn i formal _ rest argBuf _ _
      hformal hstep

/-- C5 amended, run on `$width(posedge clk, 5, , notif)` at its empty third
argument: the loop adds `EmptyArgNotAllowed`, pushes an unbound entry and
goes on with `notif`; and on `$width(notif, 5)`, whose event has no edge and
a terminal that is rejected: the loop adds only `InvalidSpecifySource`,
pushes an unbound entry and goes on with `5`, so the check ends with two
entries and no `TimingCheckEventEdgeRequired`. -/
theorem SystemTimingCheckSymbol.resolve_schema_errors_witness :
    SystemTimingCheckSymbol.resolveArgs Example.engine (resolveContext Example.specifyBlock 0)
        Example.specifyBlock.getParentScope Example.widthDef Example.widthEmptyThird 2
        [TimingCheckArgSyntax.EmptyTimingCheckArg { start := 22, stop := 22 },
         Example.exprArg (Example.name "notif" 24)]
        [Example.posedgeClkArg,
         Arg.ofExpr (Expression.IntegerLiteral Example.int32 { start := 20, stop := 21 })] =
      Except.map
        (fun p => (p.1, [{ code := DiagCode.EmptyArgNotAllowed,
                           range := { start := 22, stop := 22 }, args := [],
                           notes := [] }] ++ p.2))
        (SystemTimingCheckSymbol.resolveArgs Example.engine
          (resolveContext Example.specifyBlock 0) Example.specifyBlock.getParentScope
          Example.widthDef Example.widthEmptyThird (2 + 1)
          [Example.exprArg (Example.name "notif" 24)]
          ([Example.posedgeClkArg,
            Arg.ofExpr (Expression.IntegerLiteral Example.int32 { start := 20, stop := 21 })]
            ++ [Arg.empty])) ∧
    SystemTimingCheckSymbol.resolveArgs Example.engine (resolveContext Example.specifyBlock 0)
        Example.specifyBlock.getParentScope Example.widthDef Example.widthRejected 0
        [Example.exprArg (Example.name "notif" 7), Example.exprArg (Example.literal "5" 14)]
        [] =
      Except.map
        (fun p => (p.1,
          [{ code := DiagCode.InvalidSpecifySource, range := { start := 7, stop := 12 },
             args := [DiagArg.text "notif"],
             notes := [(DiagCode.NoteDeclarationHere, 13)] }] ++ p.2))
        (SystemTimingCheckSymbol.resolveArgs Example.engine
          (resolveContext Example.specifyBlock 0) Example.specifyBlock.getParentScope
          Example.widthDef Example.widthRejected (0 + 1)
          [Example.exprArg (Example.literal "5" 14)] ([] ++ [Arg.empty])) ∧
    SystemTimingCheckSymbol.resolve Example.engine
        (SystemTimingCheckSymbol.create Example.widthRejected Example.specifyBlock 0) =
      .ok ({ SystemTimingCheckSymbol.create Example.widthRejected Example.specifyBlock 0 with
             isResolved := true,
             args := [Arg.empty,
                      Arg.ofExpr (Expression.IntegerLiteral Example.int32
                        { start := 14, stop := 15 })] },
           [{ code := DiagCode.InvalidSpecifySource, range := { start := 7, stop := 12 },
              args := [DiagArg.text "notif"],
              notes := [(DiagCode.NoteDeclarationHere, 13)] }]) :=
  ⟨(SystemTimingCheckSymbol.resolve_schema_errors Example.engine
      (SystemTimingCheckSymbol.create Example.widthEmptyThird Example.specifyBlock 0)
      Example.widthDef Example.widthEmptyThird Example.specifyBlock (by decide) rfl rfl).2.2.1
      2 { kind := .Limit, requirePositive := true, signalRef := -1, requireEdge := false,
          allowEmpty := false }
      { start := 22, stop := 22 } [Example.exprArg (Example.name "notif" 24)]
      [Example.posedgeClkArg,
       Arg.ofExpr (Expression.IntegerLiteral Example.int32 { start := 20, stop := 21 })]
      rfl (Or.inr rfl),
   (SystemTimingCheckSymbol.resolve_schema_errors Example.engine
      (SystemTimingCheckSymbol.create Example.widthRejected Example.specifyBlock 0)
      Example.widthDef Example.widthRejected Example.specifyBlock (by decide) rfl
      rfl).2.2.2.2.2.2
      0 { kind := .Event, requirePositive := false, signalRef := -1, requireEdge := true }
      (Example.name "notif" 7) (Example.name "notif" 7).sourceRange
      [Example.exprArg (Example.literal "5" 14)] []
      [{ code := DiagCode.InvalidSpecifySource, range := { start := 7, stop := 12 },
         args := [DiagArg.text "notif"],
         notes := [(DiagCode.NoteDeclarationHere, 13)] }]
      rfl rfl rfl,
   rfl⟩

/-- C7: `checkPathTerminal` returns false for every terminal whose type is
not integral, whatever its kind, direction, parent, ports, the specify parent
and `isSource` are; it adds exactly one `InvalidSpecifyType` diagnostic when
the type is not the error type and none when it is. -/
theorem checkPathTerminal_type_not_integral (terminal : ValueSymbol)
    (specifyParent : Option Scope) (isSource : Bool) (sourceRange : SourceRange)
    (h : terminal.type.isIntegral = false) :
    checkPathTerminal terminal specifyParent isSource sourceRange =
      .ok (false,
           if terminal.type.isError = true then []
           else [{ code := DiagCode.InvalidSpecifyType, range := sourceRange,
                   args := [DiagArg.text terminal.name, DiagArg.type terminal.type],
                   notes := [] }]) := by
  cases he : terminal.type.isError <;> simp [checkPathTerminal, h, he]

/-- C7, run on the `string` variable `label` (one diagnostic) and on a value
of the error type (none). -/
theorem checkPathTerminal_type_not_integral_witness :
    Example.label.type.isIntegral = false ∧
      checkPathTerminal Example.label (some Example.moduleBody) false { start := 4, stop := 9 } =
        .ok (false,
             [{ code := DiagCode.InvalidSpecifyType, range := { start := 4, stop := 9 },
                args := [DiagArg.text "label", DiagArg.type Example.stringTy],
                notes := [] }]) ∧
      checkPathTerminal Example.broken (some Example.moduleBody) true { start := 4, stop := 10 } =
        .ok (false, []) :=
  ⟨rfl,
   checkPathTerminal_type_not_integral Example.label (some Example.moduleBody) false
     { start := 4, stop := 9 } rfl,
   rfl⟩

/-- C8: for a terminal of integral type, `checkPathTerminal` returns false
when the kind is none of `Net`, `Variable`, `ModportPort`, and when it is
`Variable` and the terminal is a source; the one diagnostic added is
`InvalidSpecifySource` for a source and `InvalidSpecifyDest` for a
destination. A `Variable` used as a destination passes the kind check: it
is treated exactly like a `Net`, and it is accepted when it is a member of
the module of the specify block connected to an `Out` or `InOut` port. -/
theorem checkPathTerminal_kind (terminal : ValueSymbol) (specifyParent : Option Scope)
    (isSource : Bool) (sourceRange : SourceRange)
    (hint : terminal.type.isIntegral = true) :
    (((terminal.kind ≠ SymbolKind.Net ∧ terminal.kind ≠ SymbolKind.Variable ∧
          terminal.kind ≠ SymbolKind.ModportPort) ∨
        (terminal.kind = SymbolKind.Variable ∧ isSource = true)) →
      checkPathTerminal terminal specifyParent isSource sourceRange =
        .ok (false,
             [{ code := if isSource = true then DiagCode.InvalidSpecifySource
                        else DiagCode.InvalidSpecifyDest,
                range := sourceRange,
                args := [DiagArg.text terminal.name],
                notes := [(DiagCode.NoteDeclarationHere, terminal.location)] }])) ∧
    (terminal.kind = SymbolKind.Variable → isSource = false →
      checkPathTerminal terminal specifyParent isSource sourceRange =
        checkPathTerminal { terminal with kind := SymbolKind.Net } specifyParent isSource
          sourceRange) ∧
    (terminal.kind = SymbolKind.Variable → isSource = false →
      ∀ (p s : Scope), terminal.parentScope = some p → specifyParent = some s →
        ¬ (p.kind = SymbolKind.InstanceBody ∧ p.definitionKind = DefinitionKind.Interface) →
        p.addr = s.addr →
        (∃ ref ∈ terminal.portBackrefs,
          ref.port.direction = ArgumentDirection.Out ∨
            ref.port.direction = ArgumentDirection.InOut) →
        checkPathTerminal terminal specifyParent isSource sourceRange = .ok (true, [])) := by
  refine ⟨?_, ?_, ?_⟩
  · rintro (⟨h1, h2, h3⟩ | ⟨h1, h2⟩)
    · cases isSource <;>
        simp [checkPathTerminal, checkPathTerminal.reportErr, hint, h1, h2, h3]
    · subst h2
      simp [checkPathTerminal, checkPathTerminal.reportErr, hint, h1]
  · intro hk hs
    subst hs
    simp [checkPathTerminal, checkPathTerminal.reportErr, hint, hk]
  · intro hk hs p s hp hsp hnot haddr hex
    subst hs
    obtain ⟨ref, href, hdir⟩ := hex
    have hnot2 : (p.kind == SymbolKind.InstanceBody &&
        p.definitionKind == DefinitionKind.Interface) = false := by
      cases hb : (p.kind == SymbolKind.InstanceBody &&
        p.definitionKind == DefinitionKind.Interface)
      · rfl
      · exfalso
        apply hnot
        simpa using hb
    simp only [checkPathTerminal, hint, hk, hp, hsp, haddr]
    simp [hnot2]
    exact ⟨ref, href, fun hn => hdir.resolve_right hn⟩
/-- C8, run on the example design: the parameter `depth` and the variable
`notif` are rejected as sources with `InvalidSpecifySource`, the parameter is
rejected as a destination with `InvalidSpecifyDest`, and the variable `qreg`,
which drives an output port, is accepted as a destination. -/
theorem checkPathTerminal_kind_witness :
    Example.depth.type.isIntegral = true ∧
      checkPathTerminal Example.depth (some Example.moduleBody) true { start := 1, stop := 6 } =
        .ok (false,
             [{ code := DiagCode.InvalidSpecifySource, range := { start := 1, stop := 6 },
                args := [DiagArg.text "depth"],
                notes := [(DiagCode.NoteDeclarationHere, 16)] }]) ∧
      checkPathTerminal Example.notif (some Example.moduleBody) true { start := 1, stop := 6 } =
        .ok (false,
             [{ code := DiagCode.InvalidSpecifySource, range := { start := 1, stop := 6 },
                args := [DiagArg.text "notif"],
                notes := [(DiagCode.NoteDeclarationHere, 13)] }]) ∧
      checkPathTerminal Example.depth (some Example.moduleBody) false { start := 1, stop := 6 } =
        .ok (false,
             [{ code := DiagCode.InvalidSpecifyDest, range := { start := 1, stop := 6 },
                args := [DiagArg.text "depth"],
                notes := [(DiagCode.NoteDeclarationHere, 16)] }]) ∧
      checkPathTerminal Example.qreg (some Example.moduleBody) false { start := 1, stop := 5 } =
        .ok (true, []) :=
  ⟨rfl,
   (checkPathTerminal_kind Example.depth (some Example.moduleBody) true { start := 1, stop := 6 }
      rfl).1 (Or.inl ⟨by decide, by decide, by decide⟩),
   (checkPathTerminal_kind Example.notif (some Example.moduleBody) true { start := 1, stop := 6 }
      rfl).1 (Or.inr ⟨rfl, rfl⟩),
   (checkPathTerminal_kind Example.depth (some Example.moduleBody) false
      { start := 1, stop := 6 } rfl).1 (Or.inl ⟨by decide, by decide, by decide⟩),
   (checkPathTerminal_kind Example.qreg (some Example.moduleBody) false { start := 1, stop := 5 }
      rfl).2.2 rfl rfl Example.moduleBody Example.moduleBody rfl rfl (by decide) rfl
      ⟨Example.outputPort, List.mem_cons_self _ _, Or.inl rfl⟩⟩

/-- The two direction tests written out in `checkPathTerminal` are one rule:
the test of the port loop is `specDirectionCompatible`, the test on a modport
port is its negation. -/
theorem checkPathTerminal_direction_tests (isSource : Bool) (dir : ArgumentDirection) :
    (dir == ArgumentDirection.InOut || (isSource && dir == ArgumentDirection.In) ||
        (!isSource && dir == ArgumentDirection.Out)) = specDirectionCompatible isSource dir ∧
      (dir != ArgumentDirection.InOut &&
        ((isSource && dir != ArgumentDirection.In) ||
          (!isSource && dir != ArgumentDirection.Out))) =
        !specDirectionCompatible isSource dir := by
  cases isSource <;> cases dir <;> decide

/-- C9, as the claim states it, fails for the variable `g` of the compilation
unit used as a destination: it is integral and passes the kind check, it is
rejected, and the diagnostic is `InvalidSpecifyPath`, neither
`InvalidSpecifySource` nor `InvalidSpecifyDest`. -/
theorem checkPathTerminal_direction_counterexample :
    Example.unitVar.type.isIntegral = true ∧
      Example.unitVar.kind = SymbolKind.Variable ∧
      checkPathTerminal Example.unitVar (some Example.moduleBody) false
          { start := 9, stop := 10 } =
        .ok (false,
             [{ code := DiagCode.InvalidSpecifyPath, range := { start := 9, stop := 10 },
                args := [], notes := [] }]) :=
  ⟨rfl, rfl, rfl⟩

/-- C9, amended. For an integral terminal that passes the kind check, with
direction compatibility decided by the one rule `specDirectionCompatible`:
a modport port is accepted iff its own direction is compatible; a net or
variable that is a member of the module containing the specify block is
accepted iff at least one port connected to it has a compatible direction,
so one connected to no port is rejected; each of these rejections adds
`InvalidSpecifySource` or `InvalidSpecifyDest` according to `isSource`. A
net or variable whose parent is neither an interface body nor the module
containing the specify block is rejected with `InvalidSpecifyPath` instead. -/
theorem checkPathTerminal_direction (terminal : ValueSymbol) (specifyParent : Option Scope)
    (isSource : Bool) (sourceRange : SourceRange)
    (hint : terminal.type.isIntegral = true)
    (hkind : terminal.kind = SymbolKind.Net ∨ terminal.kind = SymbolKind.ModportPort ∨
      (terminal.kind = SymbolKind.Variable ∧ isSource = false)) :
    (terminal.kind = SymbolKind.ModportPort →
      checkPathTerminal terminal specifyParent isSource sourceRange =
        .ok (specDirectionCompatible isSource terminal.direction,
             if specDirectionCompatible isSource terminal.direction = true then []
             else [{ code := if isSource = true then DiagCode.InvalidSpecifySource
                             else DiagCode.InvalidSpecifyDest,
                     range := sourceRange,
                     args := [DiagArg.text terminal.name],
                     notes := [(DiagCode.NoteDeclarationHere, terminal.location)] }])) ∧
    (terminal.kind ≠ SymbolKind.ModportPort →
      ∀ (p s : Scope), terminal.parentScope = some p → specifyParent = some s →
        ¬ (p.kind = SymbolKind.InstanceBody ∧ p.definitionKind = DefinitionKind.Interface) →
        p.addr = s.addr →
        checkPathTerminal terminal specifyParent isSource sourceRange =
          .ok (terminal.portBackrefs.any
                 (fun ref => specDirectionCompatible isSource ref.port.direction),
               if terminal.portBackrefs.any
                    (fun ref => specDirectionCompatible isSource ref.port.direction) = true
               then []
               else [{ code := if isSource = true then DiagCode.InvalidSpecifySource
                               else DiagCode.InvalidSpecifyDest,
                       range := sourceRange,
                       args := [DiagArg.text terminal.name],
                       notes := [(DiagCode.NoteDeclarationHere, terminal.location)] }])) ∧
    (terminal.kind ≠ SymbolKind.ModportPort → terminal.portBackrefs = [] →
      ∀ (p s : Scope), terminal.parentScope = some p → specifyParent = some s →
        ¬ (p.kind = SymbolKind.InstanceBody ∧ p.definitionKind = DefinitionKind.Interface) →
        p.addr = s.addr →
        checkPathTerminal terminal specifyParent isSource sourceRange =
          .ok (false,
               [{ code := if isSource = true then DiagCode.InvalidSpecifySource
                          else DiagCode.InvalidSpecifyDest,
                  range := sourceRange,
                  args := [DiagArg.text terminal.name],
                  notes := [(DiagCode.NoteDeclarationHere, terminal.location)] }])) ∧
    (terminal.kind ≠ SymbolKind.ModportPort →
      ∀ (p s : Scope), terminal.parentScope = some p → specifyParent = some s →
        ¬ (p.kind = SymbolKind.InstanceBody ∧ p.definitionKind = DefinitionKind.Interface) →
        p.addr ≠ s.addr →
        checkPathTerminal terminal specifyParent isSource sourceRange =
          .ok (false,
               [{ code := DiagCode.InvalidSpecifyPath, range := sourceRange,
                  args := [], notes := [] }])) := by
  have hpass : (terminal.kind != SymbolKind.Net && terminal.kind != SymbolKind.ModportPort &&
      (terminal.kind != SymbolKind.Variable || isSource)) = false := by
    rcases hkind with h | h | ⟨h, hs⟩
    · simp [h]
    · simp [h]
    · simp [h, hs]
  have hmember : terminal.kind ≠ SymbolKind.ModportPort →
      ∀ (p s : Scope), terminal.parentScope = some p → specifyParent = some s →
        ¬ (p.kind = SymbolKind.InstanceBody ∧ p.definitionKind = DefinitionKind.Interface) →
        p.addr = s.addr →
        checkPathTerminal terminal specifyParent isSource sourceRange =
          .ok (terminal.portBackrefs.any
                 (fun ref => specDirectionCompatible isSource ref.port.direction),
               if terminal.portBackrefs.any
                    (fun ref => specDirectionCompatible isSource ref.port.direction) = true
               then []
               else [{ code := if isSource = true then DiagCode.InvalidSpecifySource
                               else DiagCode.InvalidSpecifyDest,
                       range := sourceRange,
                       args := [DiagArg.text terminal.name],
                       notes := [(DiagCode.NoteDeclarationHere, terminal.location)] }]) := by
    intro hk p s hp hsp hnot haddr
    have hk2 : (terminal.kind == SymbolKind.ModportPort) = false := by simpa using hk
    have hnot2 : (p.kind == SymbolKind.InstanceBody &&
        p.definitionKind == DefinitionKind.Interface) = false := by
      cases hb : (p.kind == SymbolKind.InstanceBody &&
        p.definitionKind == DefinitionKind.Interface)
      · rfl
      · exact absurd (by simpa using hb) hnot
    have hfun : (fun (portRef : PortBackref) =>
        portRef.port.direction == ArgumentDirection.InOut ||
          (isSource && portRef.port.direction == ArgumentDirection.In) ||
          (!isSource && portRef.port.direction == ArgumentDirection.Out)) =
        (fun ref => specDirectionCompatible isSource ref.port.direction) := by
      funext ref
      exact (checkPathTerminal_direction_tests isSource ref.port.direction).1
    unfold checkPathTerminal
    simp only [hint, hpass, hk2, hp, hsp, hnot2, haddr, hfun]
    cases hany : terminal.portBackrefs.any
      (fun ref => specDirectionCompatible isSource ref.port.direction) <;>
      cases isSource <;> simp [checkPathTerminal.reportErr]
  refine ⟨?_, hmember, ?_, ?_⟩
  · intro hk
    have hk1 : (terminal.kind == SymbolKind.ModportPort) = true := by simp [hk]
    unfold checkPathTerminal
    simp only [hint, hpass, hk1, (checkPathTerminal_direction_tests isSource
      terminal.direction).2]
    cases hc : specDirectionCompatible isSource terminal.direction <;>
      cases isSource <;> simp [checkPathTerminal.reportErr]
  · intro hk hempty p s hp hsp hnot haddr
    rw [hmember hk p s hp hsp hnot haddr, hempty]
    simp
  · intro hk p s hp hsp hnot haddr
    have hk2 : (terminal.kind == SymbolKind.ModportPort) = false := by simpa using hk
    have hnot2 : (p.kind == SymbolKind.InstanceBody &&
        p.definitionKind == DefinitionKind.Interface) = false := by
      cases hb : (p.kind == SymbolKind.InstanceBody &&
        p.definitionKind == DefinitionKind.Interface)
      · rfl
      · exact absurd (by simpa using hb) hnot
    have haddr2 : (p.addr != s.addr) = true := by simpa using haddr
    unfold checkPathTerminal
    simp only [hint, hpass, hk2, hp, hsp, hnot2, haddr2]
    simp
/-- C9 amended, run on the example design: the modport output port `mo` is
accepted as a destination and rejected as a source, the net `inner`, which
is connected to no port, is rejected, the net `clk`, connected to an input
port, is accepted as a source. -/
theorem checkPathTerminal_direction_witness :
    checkPathTerminal Example.modportOut (some Example.moduleBody) false
        { start := 1, stop := 3 } = .ok (true, []) ∧
      checkPathTerminal Example.modportOut (some Example.moduleBody) true
        { start := 1, stop := 3 } =
        .ok (false,
             [{ code := DiagCode.InvalidSpecifySource, range := { start := 1, stop := 3 },
                args := [DiagArg.text "mo"],
                notes := [(DiagCode.NoteDeclarationHere, 18)] }]) ∧
      checkPathTerminal Example.inner (some Example.moduleBody) true
        { start := 1, stop := 6 } =
        .ok (false,
             [{ code := DiagCode.InvalidSpecifySource, range := { start := 1, stop := 6 },
                args := [DiagArg.text "inner"],
                notes := [(DiagCode.NoteDeclarationHere, 17)] }]) ∧
      checkPathTerminal Example.clk (some Example.moduleBody) true
        { start := 1, stop := 4 } = .ok (true, []) :=
  ⟨(checkPathTerminal_direction Example.modportOut (some Example.moduleBody) false
      { start := 1, stop := 3 } rfl (Or.inr (Or.inl rfl))).1 rfl,
   (checkPathTerminal_direction Example.modportOut (some Example.moduleBody) true
      { start := 1, stop := 3 } rfl (Or.inr (Or.inl rfl))).1 rfl,
   (checkPathTerminal_direction Example.inner (some Example.moduleBody) true
      { start := 1, stop := 6 } rfl (Or.inl rfl)).2.2.1 (by decide) rfl
      Example.moduleBody Example.moduleBody rfl rfl (by decide) rfl,
   (checkPathTerminal_direction Example.clk (some Example.moduleBody) true
      { start := 1, stop := 4 } rfl (Or.inl rfl)).2.1 (by decide)
      Example.moduleBody Example.moduleBody rfl rfl (by decide) rfl⟩

/-- C10: `bindTerminal` on the expression `bound` that the binder returns for
the terminal, with `selected bound` the value selected from when `bound` is
an element or range select and `bound` itself otherwise.
A badly bound expression gives null and nothing but the diagnostics of the
binder. A successfully bound expression for which `selected bound` is not a
named value gives null and exactly one more diagnostic:
`SpecifyPathMultiDim` when `selected bound` is again a select (a select
nested inside a select), `InvalidSpecifyPath` for every other shape.
An expression is returned only when `bound` is not bad, `selected bound` is
a named value whose symbol passes `checkPathTerminal`, and then the named
value is what is returned. -/
theorem bindTerminal_shapes (E : Engine) (syn : ExpressionSyntax) (isSource : Bool)
    (parentParent : Option Scope) (context : ASTContext) :
    ((E.bind syn context).1.bad = true →
      bindTerminal E syn isSource parentParent context = .ok (none, (E.bind syn context).2)) ∧
    ((E.bind syn context).1.bad = false →
      (bindTerminal.selected (E.bind syn context).1).kind ≠ ExpressionKind.NamedValue →
      bindTerminal E syn isSource parentParent context =
        .ok (none,
             (E.bind syn context).2 ++
               [{ code :=
                    if (bindTerminal.selected (E.bind syn context).1).kind =
                          ExpressionKind.ElementSelect ∨
                        (bindTerminal.selected (E.bind syn context).1).kind =
                          ExpressionKind.RangeSelect
                    then DiagCode.SpecifyPathMultiDim
                    else DiagCode.InvalidSpecifyPath,
                  range := syn.sourceRange, args := [], notes := [] }])) ∧
    (∀ (e : Expression) (ds : List Diagnostic),
      bindTerminal E syn isSource parentParent context = .ok (some e, ds) →
      (E.bind syn context).1.bad = false ∧
        e = bindTerminal.selected (E.bind syn context).1 ∧
        ∃ (symbol : ValueSymbol) (type : Ty) (range : SourceRange) (cds : List Diagnostic),
          e = Expression.NamedValue symbol type range ∧
            checkPathTerminal symbol parentParent isSource range = .ok (true, cds) ∧
            ds = (E.bind syn context).2 ++ cds) ∧
    (∀ bound : Expression,
      (bound.kind ≠ ExpressionKind.ElementSelect → bound.kind ≠ ExpressionKind.RangeSelect →
        bindTerminal.selected bound = bound) ∧
      (∀ (value selector : Expression) (t : Ty) (r : SourceRange),
        bound = Expression.ElementSelect value selector t r →
        bindTerminal.selected bound = value) ∧
      (∀ (value left right : Expression) (t : Ty) (r : SourceRange),
        bound = Expression.RangeSelect value left right t r →
        bindTerminal.selected bound = value)) := by
  refine ⟨?_, ?_, ?_, ?_⟩
  · intro hb
    simp [bindTerminal, hb]
  · intro hb hk
    unfold bindTerminal
    simp only [hb]
    cases hsel : bindTerminal.selected (E.bind syn context).1 <;>
      simp_all [Expression.kind]
  · intro e ds h
    unfold bindTerminal at h
    cases hb : (E.bind syn context).1.bad
    · simp only [hb] at h
      refine ⟨rfl, ?_⟩
      cases hsel : bindTerminal.selected (E.bind syn context).1 <;>
        simp only [hsel] at h <;> try (simp at h; done)
      rename_i symbol type range
      cases hc : checkPathTerminal symbol parentParent isSource range with
      | error f => simp [hc] at h
      | ok r =>
        obtain ⟨b, cds⟩ := r
        cases b
        · simp [hc] at h
        · simp [hc] at h
          exact ⟨h.1.symm, symbol, type, range, cds, h.1.symm, hc, h.2.symm⟩
    · simp [hb] at h
  · intro bound
    refine ⟨?_, ?_, ?_⟩
    · intro h1 h2
      cases bound <;> simp_all [bindTerminal.selected, Expression.kind]
    · intro value selector t r hbound
      subst hbound
      rfl
    · intro value left right t r hbound
      subst hbound
      rfl
/-- C10, run on the example design as source terminals: `bus[5][5]` is a
select nested inside a select, `5` is a literal, `nothing` does not bind, and
`bus[5]` is accepted, the named value `bus` being returned. -/
theorem bindTerminal_shapes_witness :
    bindTerminal Example.engine (Example.selectSyntax "bus[5][5]" 1) true
        (some Example.moduleBody) (resolveContext Example.specifyBlock 0) =
        .ok (none,
             [{ code := DiagCode.SpecifyPathMultiDim, range := { start := 1, stop := 10 },
                args := [], notes := [] }]) ∧
      bindTerminal Example.engine (Example.literal "5" 1) true
        (some Example.moduleBody) (resolveContext Example.specifyBlock 0) =
        .ok (none,
             [{ code := DiagCode.InvalidSpecifyPath, range := { start := 1, stop := 2 },
                args := [], notes := [] }]) ∧
      bindTerminal Example.engine (Example.name "nothing" 1) true
        (some Example.moduleBody) (resolveContext Example.specifyBlock 0) =
        .ok (none,
             [{ code := DiagCode.External 0, range := { start := 1, stop := 8 },
                args := [], notes := [] }]) ∧
      bindTerminal Example.engine (Example.selectSyntax "bus[5]" 1) true
        (some Example.moduleBody) (resolveContext Example.specifyBlock 0) =
        .ok (some (Expression.NamedValue Example.bus Example.int32 { start := 1, stop := 4 }),
             []) :=
  ⟨(bindTerminal_shapes Example.engine (Example.selectSyntax "bus[5][5]" 1) true
      (some Example.moduleBody) (resolveContext Example.specifyBlock 0)).2.1 rfl (by decide),
   (bindTerminal_shapes Example.engine (Example.literal "5" 1) true
      (some Example.moduleBody) (resolveContext Example.specifyBlock 0)).2.1 rfl (by decide),
   (bindTerminal_shapes Example.engine (Example.name "nothing" 1) true
      (some Example.moduleBody) (resolveContext Example.specifyBlock 0)).1 rfl,
   rfl⟩

/-- The argument loop over `xs ++ ys` is the loop over `xs` followed by the
loop over `ys` from the index and buffer reached. -/
theorem SystemTimingCheckSymbol.resolveArgs_append (E : Engine) (context : ASTContext)
    (parentParent : Option Scope) (d : SystemTimingCheckDef) (syn : SystemTimingCheckSyntax)
    (xs ys : List TimingCheckArgSyntax) :
    ∀ (i : Nat) (argBuf : List Arg),
      SystemTimingCheckSymbol.resolveArgs E context parentParent d syn i (xs ++ ys) argBuf =
        match SystemTimingCheckSymbol.resolveArgs E context parentParent d syn i xs argBuf with
        | .error f => .error f
        | .ok (buf, ds) =>
          Except.map (fun p => (p.1, ds ++ p.2))
            (SystemTimingCheckSymbol.resolveArgs E context parentParent d syn (i + xs.length) ys
              buf) := by
  induction xs with
  | nil =>
    intro i argBuf
    simp only [List.nil_append, SystemTimingCheckSymbol.resolveArgs, List.length_nil,
      Nat.add_zero]
    cases SystemTimingCheckSymbol.resolveArgs E context parentParent d syn i ys argBuf with
    | error f => rfl
    | ok p => simp [Except.map]
  | cons x xs ih =>
    intro i argBuf
    simp only [List.cons_append, SystemTimingCheckSymbol.resolveArgs]
    cases hf : d.args[i]? with
    | none => rfl
    | some formal =>
      simp only []
      cases hstep : SystemTimingCheckSymbol.resolveArg E context parentParent d syn i formal x
          argBuf with
      | error f => rfl
      | ok r =>
        obtain ⟨arg, ds1⟩ := r
        simp only [List.append_eq]
        rw [ih (i + 1) (argBuf ++ [arg])]
        cases hxs : SystemTimingCheckSymbol.resolveArgs E context parentParent d syn (i + 1) xs
            (argBuf ++ [arg]) with
        | error f => rfl
        | ok r2 =>
          obtain ⟨buf, ds2⟩ := r2
          simp only [List.length_cons]
          have hidx : i + 1 + xs.length = i + (xs.length + 1) := by omega
          rw [hidx]
          cases SystemTimingCheckSymbol.resolveArgs E context parentParent d syn
              (i + (xs.length + 1)) ys buf with
          | error f => rfl
          | ok r3 => simp [Except.map, List.append_assoc]

/-- C6: in the argument loop, at an empty actual argument in position `i`
whose formal argument is `formal`, an unbound entry is pushed and the
diagnostics added are exactly one `EmptyArgNotAllowed` when `i` is below the
minimum argument count or `formal.allowEmpty` is false, and none otherwise;
the loop then goes on with the next argument. So the diagnostics of the
whole loop are those of the arguments before `i`, then this one diagnostic or
nothing, then those of the arguments after `i`. -/
theorem SystemTimingCheckSymbol.resolve_empty_argument (E : Engine) (context : ASTContext)
    (parentParent : Option Scope) (d : SystemTimingCheckDef) (syn : SystemTimingCheckSyntax)
    (i : Nat) (formal : SystemTimingCheckArgDef) (r : SourceRange)
    (rest : List TimingCheckArgSyntax) (argBuf : List Arg)
    (hformal : d.args[i]? = some formal) :
    SystemTimingCheckSymbol.resolveArg E context parentParent d syn i formal
        (TimingCheckArgSyntax.EmptyTimingCheckArg r) argBuf =
      .ok (Arg.empty,
           if i < d.minArgs ∨ formal.allowEmpty = false then
             [{ code := DiagCode.EmptyArgNotAllowed, range := r, args := [], notes := [] }]
           else []) ∧
    SystemTimingCheckSymbol.resolveArgs E context parentParent d syn i
        (TimingCheckArgSyntax.EmptyTimingCheckArg r :: rest) argBuf =
      Except.map
        (fun p => (p.1,
          (if i < d.minArgs ∨ formal.allowEmpty = false then
             [{ code := DiagCode.EmptyArgNotAllowed, range := r, args := [], notes := [] }]
           else []) ++ p.2))
        (SystemTimingCheckSymbol.resolveArgs E context parentParent d syn (i + 1) rest
          (argBuf ++ [Arg.empty])) ∧
    (∀ (before : List TimingCheckArgSyntax) (buf : List Arg) (dsBefore : List Diagnostic),
      before.length = i →
      SystemTimingCheckSymbol.resolveArgs E context parentParent d syn 0 before [] =
        .ok (buf, dsBefore) →
      SystemTimingCheckSymbol.resolveArgs E context parentParent d syn 0
          (before ++ TimingCheckArgSyntax.EmptyTimingCheckArg r :: rest) [] =
        Except.map
          (fun p => (p.1,
            dsBefore ++
              ((if i < d.minArgs ∨ formal.allowEmpty = false then
                  [{ code := DiagCode.EmptyArgNotAllowed, range := r, args := [], notes := [] }]
                else []) ++ p.2)))
          (SystemTimingCheckSymbol.resolveArgs E context parentParent d syn (i + 1) rest
            (buf ++ [Arg.empty]))) := by
  have hstep := SystemTimingCheckSymbol.resolveArg_empty E context parentParent d syn i formal
    r
  refine ⟨hstep argBuf, SystemTimingCheckSymbol.resolveArgs_step E context parentParent d syn i
    formal _ rest argBuf _ _ hformal (hstep argBuf), ?_⟩
  intro before buf dsBefore hlen hbefore
  rw [SystemTimingCheckSymbol.resolveArgs_append, hbefore]
  simp only [hlen, Nat.zero_add]
  rw [SystemTimingCheckSymbol.resolveArgs_step E context parentParent d syn i formal _ rest buf
    _ _ hformal (hstep buf)]
  cases SystemTimingCheckSymbol.resolveArgs E context parentParent d syn (i + 1) rest
      (buf ++ [Arg.empty]) with
  | error f => rfl
  | ok p => simp [Except.map]

/-- C6, run on the whole of two checks: the empty third argument of
`$width(posedge clk, 5, , notif)` (formal with `allowEmpty = false`) gets the
diagnostic, the empty fourth argument of `$setup(posedge clk, data, 5, )`
(not below the minimum, `allowEmpty = true`) gets none. -/
theorem SystemTimingCheckSymbol.resolve_empty_argument_witness :
    Example.widthDef.args[2]? =
        some { kind := .Limit, requirePositive := true, signalRef := -1, requireEdge := false,
               allowEmpty := false } ∧
      (SystemTimingCheckSymbol.resolveArg Example.engine (resolveContext Example.specifyBlock 0)
          Example.specifyBlock.getParentScope Example.widthDef Example.widthEmptyThird 2
          { kind := .Limit, requirePositive := true, signalRef := -1, requireEdge := false,
            allowEmpty := false }
          (TimingCheckArgSyntax.EmptyTimingCheckArg { start := 22, stop := 22 })
          [Example.posedgeClkArg,
           Arg.ofExpr (Expression.IntegerLiteral Example.int32 { start := 20, stop := 21 })] =
        .ok (Arg.empty,
             [{ code := DiagCode.EmptyArgNotAllowed, range := { start := 22, stop := 22 },
                args := [], notes := [] }])) ∧
      (SystemTimingCheckSymbol.resolve Example.engine
          (SystemTimingCheckSymbol.create Example.setupEmptyNotifier Example.specifyBlock 0) =
        .ok ({ SystemTimingCheckSymbol.create Example.setupEmptyNotifier Example.specifyBlock 0
               with
               isResolved := true,
               args := [Example.posedgeClkArg,
                        Arg.ofExpr (Expression.NamedValue Example.data Example.logic1
                          { start := 20, stop := 24 }),
                        Arg.ofExpr (Expression.IntegerLiteral Example.int32
                          { start := 26, stop := 27 }),
                        Arg.empty] },
             [])) :=
  ⟨rfl,
   (SystemTimingCheckSymbol.resolve_empty_argument Example.engine
      (resolveContext Example.specifyBlock 0) Example.specifyBlock.getParentScope
      Example.widthDef Example.widthEmptyThird 2
      { kind := .Limit, requirePositive := true, signalRef := -1, requireEdge := false,
        allowEmpty := false }
      { start := 22, stop := 22 } [Example.exprArg (Example.name "notif" 24)]
      [Example.posedgeClkArg,
       Arg.ofExpr (Expression.IntegerLiteral Example.int32 { start := 20, stop := 21 })]
      rfl).1,
   rfl⟩

/-- The delay loop in closed form: the buffer holds, in source order, the
bound delays that are not bad and have a numeric type; each delay adds the
diagnostics of its binding, followed by one `DelayNotNumeric` when it bound
well but is not numeric, by the diagnostics of its evaluation when it is
kept, and by nothing when it is bad. -/
theorem TimingPathSymbol.bindDelays_eq (E : Engine) (context : ASTContext)
    (delays : List ExpressionSyntax) :
    TimingPathSymbol.bindDelays E context delays =
      ((delays.map (fun s => (E.bind s context).1)).filter
         (fun e => !e.bad && e.type.isNumeric),
       delays.flatMap (fun s =>
         (E.bind s context).2 ++
           (if (E.bind s context).1.bad = true then []
            else if (E.bind s context).1.type.isNumeric = false then
              [{ code := DiagCode.DelayNotNumeric,
                 range := (E.bind s context).1.sourceRange,
                 args := [DiagArg.type (E.bind s context).1.type], notes := [] }]
            else E.eval context (E.bind s context).1))) := by
  induction delays with
  | nil => rfl
  | cons s rest ih =>
    rw [TimingPathSymbol.bindDelays]
    simp only [ih]
    cases hb : (E.bind s context).1.bad <;> cases hn : (E.bind s context).1.type.isNumeric <;>
      simp [hb, hn, List.filter]

/-- C11: for a timing path whose terminals bind without a fault,
`TimingPathSymbol::resolve` returns, and after it the `delays` list is
exactly the sequence, in source order, of the delay expressions that bound
successfully and have a numeric type. The diagnostics end with those of the
delay loop: for each delay those of its binding, then exactly one
`DelayNotNumeric` if it bound successfully but is not numeric (it is then
absent from the list), nothing more if it is badly bound (absent as well),
and those of its evaluation if it is kept. No delay, whatever it is, makes
`resolve` abort. -/
theorem TimingPathSymbol.resolve_delays (E : Engine) (self : TimingPathSymbol)
    (syntaxPtr : TimingPathSyntax) (parent : Scope)
    (ins outs : List Expression) (dIn dOut : List Diagnostic)
    (hs : self.originatingSyntax = some syntaxPtr) (hp : self.parentScope = some parent)
    (hin : bindTerminals E syntaxPtr.path.desc.inputs true parent.getParentScope
      (resolveContext parent self.indexInScope) = .ok (ins, dIn))
    (hout : bindTerminals E syntaxPtr.path.desc.suffix.outputs false parent.getParentScope
      (resolveContext parent self.indexInScope) = .ok (outs, dOut)) :
    (TimingPathSymbol.resolve E self).isOk = true ∧
    ∀ (after : TimingPathSymbol) (ds : List Diagnostic),
      TimingPathSymbol.resolve E self = .ok (after, ds) →
      after.delays =
          (syntaxPtr.path.delays.map
            (fun s => (E.bind s (resolveContext parent self.indexInScope)).1)).filter
            (fun e => !e.bad && e.type.isNumeric) ∧
        syntaxPtr.path.delays.flatMap (fun s =>
          (E.bind s (resolveContext parent self.indexInScope)).2 ++
            (if (E.bind s (resolveContext parent self.indexInScope)).1.bad = true then []
             else if (E.bind s (resolveContext parent self.indexInScope)).1.type.isNumeric
                 = false then
               [{ code := DiagCode.DelayNotNumeric,
                  range := (E.bind s (resolveContext parent self.indexInScope)).1.sourceRange,
                  args := [DiagArg.type
                    (E.bind s (resolveContext parent self.indexInScope)).1.type],
                  notes := [] }]
             else E.eval (resolveContext parent self.indexInScope)
               (E.bind s (resolveContext parent self.indexInScope)).1)) <:+ ds := by
  have hd := TimingPathSymbol.bindDelays_eq E (resolveContext parent self.indexInScope)
    syntaxPtr.path.delays
  cases syntaxPtr with
  | PathDeclaration path =>
    simp only [TimingPathSyntax.path] at hin hout hd ⊢
    cases hsuf : path.desc.suffix <;>
      simp only [hsuf, PathSuffixSyntax.outputs] at hout <;>
      simp only [TimingPathSymbol.resolve, hs, hp, hin, hout, hsuf, hd] <;>
      refine ⟨rfl, ?_⟩ <;>
      intro after ds h <;>
      simp only [Except.ok.injEq, Prod.mk.injEq] at h <;>
      obtain ⟨h1, h2⟩ := h <;>
      subst h1 <;> subst h2 <;>
      exact ⟨rfl, List.suffix_append _ _⟩
  | IfNonePathDeclaration path =>
    simp only [TimingPathSyntax.path] at hin hout hd ⊢
    cases hsuf : path.desc.suffix <;>
      simp only [hsuf, PathSuffixSyntax.outputs] at hout <;>
      simp only [TimingPathSymbol.resolve, hs, hp, hin, hout, hsuf, hd] <;>
      refine ⟨rfl, ?_⟩ <;>
      intro after ds h <;>
      simp only [Except.ok.injEq, Prod.mk.injEq] at h <;>
      obtain ⟨h1, h2⟩ := h <;>
      subst h1 <;> subst h2 <;>
      exact ⟨rfl, List.suffix_append _ _⟩
  | ConditionalPathDeclaration predicate path =>
    simp only [TimingPathSyntax.path] at hin hout hd ⊢
    cases hsuf : path.desc.suffix <;>
      simp only [hsuf, PathSuffixSyntax.outputs] at hout <;>
      simp only [TimingPathSymbol.resolve, hs, hp, hin, hout, hsuf, hd] <;>
      refine ⟨rfl, ?_⟩ <;>
      intro after ds h <;>
      simp only [Except.ok.injEq, Prod.mk.injEq] at h <;>
      obtain ⟨h1, h2⟩ := h <;>
      subst h1 <;> subst h2 <;>
      exact ⟨rfl, List.suffix_append _ _⟩
/-- C11, run on `(clk => q) = (5, label, nothing);`: `resolve` returns, the
delays are `[5]`, `label` gets one `DelayNotNumeric`, `nothing` only the
diagnostic of the binder. -/
theorem TimingPathSymbol.resolve_delays_witness :
    (TimingPathSymbol.resolve Example.engine Example.mixedDelaysPath).isOk = true ∧
      TimingPathSymbol.resolve Example.engine Example.mixedDelaysPath =
        .ok (Example.mixedDelaysPathResolved, Example.mixedDelaysDiagnostics) ∧
      Example.mixedDelaysPathResolved.delays =
        [Expression.IntegerLiteral Example.int32 { start := 14, stop := 15 }] ∧
      Example.mixedDelaysDiagnostics <:+ Example.mixedDelaysDiagnostics :=
  ⟨(TimingPathSymbol.resolve_delays Example.engine Example.mixedDelaysPath
      (TimingPathSyntax.PathDeclaration Example.mixedDelaysPathSyntax) Example.specifyBlock
      [Expression.NamedValue Example.clk Example.logic1 { start := 1, stop := 4 }]
      [Expression.NamedValue Example.q Example.logic1 { start := 8, stop := 9 }]
      [] [] rfl rfl rfl rfl).1,
   rfl,
   ((TimingPathSymbol.resolve_delays Example.engine Example.mixedDelaysPath
      (TimingPathSyntax.PathDeclaration Example.mixedDelaysPathSyntax) Example.specifyBlock
      [Expression.NamedValue Example.clk Example.logic1 { start := 1, stop := 4 }]
      [Expression.NamedValue Example.q Example.logic1 { start := 8, stop := 9 }]
      [] [] rfl rfl rfl rfl).2 Example.mixedDelaysPathResolved Example.mixedDelaysDiagnostics
      rfl).1,
   ((TimingPathSymbol.resolve_delays Example.engine Example.mixedDelaysPath
      (TimingPathSyntax.PathDeclaration Example.mixedDelaysPathSyntax) Example.specifyBlock
      [Expression.NamedValue Example.clk Example.logic1 { start := 1, stop := 4 }]
      [Expression.NamedValue Example.q Example.logic1 { start := 8, stop := 9 }]
      [] [] rfl rfl rfl rfl).2 Example.mixedDelaysPathResolved Example.mixedDelaysDiagnostics
      rfl).2⟩

/-- C12, amended: in the argument loop, at a non-empty actual argument in a
`Notifier` position. Written as an expression whose syntax is not a simple
identifier name, it gets exactly one `InvalidTimingCheckNotifierArg`, an
unbound entry is pushed, and the outcome is the same whatever the binder is,
so no lvalue binding is attempted. Written as a simple identifier, the entry
holds what `bindLValue` returns for it with the logic type as target type
and the context with `NonProcedural` cleared (all else unchanged), and only
the diagnostics of that binding are added. Written in event form, it gets
exactly one `TimingCheckEventNotAllowed` instead, an unbound entry is pushed,
and again nothing is bound. In each case the loop goes on with the next
argument. -/
theorem SystemTimingCheckSymbol.resolve_notifier (E : Engine) (context : ASTContext)
    (parentParent : Option Scope) (d : SystemTimingCheckDef) (syn : SystemTimingCheckSyntax)
    (i : Nat) (formal : SystemTimingCheckArgDef) (exprSyntax : ExpressionSyntax)
    (r : SourceRange) (rest : List TimingCheckArgSyntax) (argBuf : List Arg)
    (hformal : d.args[i]? = some formal) (hkind : formal.kind = ArgKind.Notifier) :
    (exprSyntax.kind ≠ SyntaxKind.IdentifierName →
      SystemTimingCheckSymbol.resolveArg E context parentParent d syn i formal
          (TimingCheckArgSyntax.ExpressionTimingCheckArg exprSyntax r) argBuf =
        .ok (Arg.empty,
             [{ code := DiagCode.InvalidTimingCheckNotifierArg, range := r, args := [],
                notes := [] }]) ∧
      (∀ E2 : Engine,
        SystemTimingCheckSymbol.resolveArg E2 context parentParent d syn i formal
            (TimingCheckArgSyntax.ExpressionTimingCheckArg exprSyntax r) argBuf =
          SystemTimingCheckSymbol.resolveArg E context parentParent d syn i formal
            (TimingCheckArgSyntax.ExpressionTimingCheckArg exprSyntax r) argBuf) ∧
      SystemTimingCheckSymbol.resolveArgs E context parentParent d syn i
          (TimingCheckArgSyntax.ExpressionTimingCheckArg exprSyntax r :: rest) argBuf =
        Except.map
          (fun p => (p.1, [{ code := DiagCode.InvalidTimingCheckNotifierArg, range := r,
                             args := [], notes := [] }] ++ p.2))
          (SystemTimingCheckSymbol.resolveArgs E context parentParent d syn (i + 1) rest
            (argBuf ++ [Arg.empty]))) ∧
    (exprSyntax.kind = SyntaxKind.IdentifierName →
      SystemTimingCheckSymbol.resolveArg E context parentParent d syn i formal
          (TimingCheckArgSyntax.ExpressionTimingCheckArg exprSyntax r) argBuf =
        .ok (Arg.ofExpr
               (E.bindLValue exprSyntax E.logicType exprSyntax.firstTokenLocation
                 { scope := context.scope, lookupLocation := context.lookupLocation,
                   flags := { NonProcedural := false,
                              SpecifyBlock := context.flags.SpecifyBlock } } false).1,
             (E.bindLValue exprSyntax E.logicType exprSyntax.firstTokenLocation
                 { scope := context.scope, lookupLocation := context.lookupLocation,
                   flags := { NonProcedural := false,
                              SpecifyBlock := context.flags.SpecifyBlock } } false).2) ∧
      SystemTimingCheckSymbol.resolveArgs E context parentParent d syn i
          (TimingCheckArgSyntax.ExpressionTimingCheckArg exprSyntax r :: rest) argBuf =
        Except.map
          (fun p => (p.1,
            (E.bindLValue exprSyntax E.logicType exprSyntax.firstTokenLocation
                 { scope := context.scope, lookupLocation := context.lookupLocation,
                   flags := { NonProcedural := false,
                              SpecifyBlock := context.flags.SpecifyBlock } } false).2 ++ p.2))
          (SystemTimingCheckSymbol.resolveArgs E context parentParent d syn (i + 1) rest
            (argBuf ++
              [Arg.ofExpr
                (E.bindLValue exprSyntax E.logicType exprSyntax.firstTokenLocation
                  { scope := context.scope, lookupLocation := context.lookupLocation,
                    flags := { NonProcedural := false,
                               SpecifyBlock := context.flags.SpecifyBlock } } false).1]))) ∧
    (∀ eventArg : TimingCheckEventArgSyntax,
      SystemTimingCheckSymbol.resolveArg E context parentParent d syn i formal
          (TimingCheckArgSyntax.TimingCheckEventArg eventArg) argBuf =
        .ok (Arg.empty,
             [{ code := DiagCode.TimingCheckEventNotAllowed, range := eventArg.sourceRange,
                args := [], notes := [] }]) ∧
      (∀ E2 : Engine,
        SystemTimingCheckSymbol.resolveArg E2 context parentParent d syn i formal
            (TimingCheckArgSyntax.TimingCheckEventArg eventArg) argBuf =
          SystemTimingCheckSymbol.resolveArg E context parentParent d syn i formal
            (TimingCheckArgSyntax.TimingCheckEventArg eventArg) argBuf) ∧
      SystemTimingCheckSymbol.resolveArgs E context parentParent d syn i
          (TimingCheckArgSyntax.TimingCheckEventArg eventArg :: rest) argBuf =
        Except.map
          (fun p => (p.1, [{ code := DiagCode.TimingCheckEventNotAllowed,
                             range := eventArg.sourceRange, args := [], notes := [] }] ++ p.2))
          (SystemTimingCheckSymbol.resolveArgs E context parentParent d syn (i + 1) rest
            (argBuf ++ [Arg.empty]))) := by
  refine ⟨?_, ?_, ?_⟩
  · intro hne
    have key : ∀ E1 : Engine,
        SystemTimingCheckSymbol.resolveArg E1 context parentParent d syn i formal
            (TimingCheckArgSyntax.ExpressionTimingCheckArg exprSyntax r) argBuf =
          .ok (Arg.empty,
               [{ code := DiagCode.InvalidTimingCheckNotifierArg, range := r, args := [],
                  notes := [] }]) := by
      intro E1
      simp [SystemTimingCheckSymbol.resolveArg, hkind, hne, TimingCheckArgSyntax.sourceRange]
    exact ⟨key E, fun E2 => by rw [key E2, key E],
      SystemTimingCheckSymbol.resolveArgs_step E context parentParent d syn i formal _ rest
        argBuf _ _ hformal (key E)⟩
  · intro heq
    have key : SystemTimingCheckSymbol.resolveArg E context parentParent d syn i formal
          (TimingCheckArgSyntax.ExpressionTimingCheckArg exprSyntax r) argBuf =
        .ok (Arg.ofExpr
               (E.bindLValue exprSyntax E.logicType exprSyntax.firstTokenLocation
                 { scope := context.scope, lookupLocation := context.lookupLocation,
                   flags := { NonProcedural := false,
                              SpecifyBlock := context.flags.SpecifyBlock } } false).1,
             (E.bindLValue exprSyntax E.logicType exprSyntax.firstTokenLocation
                 { scope := context.scope, lookupLocation := context.lookupLocation,
                   flags := { NonProcedural := false,
                              SpecifyBlock := context.flags.SpecifyBlock } } false).2) := by
      simp [SystemTimingCheckSymbol.resolveArg, hkind, heq]
    exact ⟨key, SystemTimingCheckSymbol.resolveArgs_step E context parentParent d syn i formal
      _ rest argBuf _ _ hformal key⟩
  · intro eventArg
    have key : ∀ E1 : Engine,
        SystemTimingCheckSymbol.resolveArg E1 context parentParent d syn i formal
            (TimingCheckArgSyntax.TimingCheckEventArg eventArg) argBuf =
          .ok (Arg.empty,
               [{ code := DiagCode.TimingCheckEventNotAllowed, range := eventArg.sourceRange,
                  args := [], notes := [] }]) := by
      intro E1
      simp [SystemTimingCheckSymbol.resolveArg, hkind, TimingCheckArgSyntax.sourceRange]
    exact ⟨key E, fun E2 => by rw [key E2, key E],
      SystemTimingCheckSymbol.resolveArgs_step E context parentParent d syn i formal _ rest
        argBuf _ _ hformal (key E)⟩

/-- C12 amended, run on `$setup(posedge clk, data, 5, 5)`, whose notifier is
a literal, at the loop iteration for the notifier and on the whole check. -/
theorem SystemTimingCheckSymbol.resolve_notifier_witness :
    Example.setupDef.args[3]? = some { kind := ArgKind.Notifier } ∧
      (Example.literal "5" 29).kind ≠ SyntaxKind.IdentifierName ∧
      SystemTimingCheckSymbol.resolveArg Example.engine (resolveContext Example.specifyBlock 0)
          Example.specifyBlock.getParentScope Example.setupDef Example.setupLiteralNotifier 3
          { kind := ArgKind.Notifier } (Example.exprArg (Example.literal "5" 29)) [] =
        .ok (Arg.empty,
             [{ code := DiagCode.InvalidTimingCheckNotifierArg,
                range := { start := 29, stop := 30 }, args := [], notes := [] }]) ∧
      SystemTimingCheckSymbol.resolve Example.engine
          (SystemTimingCheckSymbol.create Example.setupLiteralNotifier Example.specifyBlock 0) =
        .ok ({ SystemTimingCheckSymbol.create Example.setupLiteralNotifier
                 Example.specifyBlock 0 with
               isResolved := true,
               args := [Example.posedgeClkArg,
                        Arg.ofExpr (Expression.NamedValue Example.data Example.logic1
                          { start := 20, stop := 24 }),
                        Arg.ofExpr (Expression.IntegerLiteral Example.int32
                          { start := 26, stop := 27 }),
                        Arg.empty] },
             [{ code := DiagCode.InvalidTimingCheckNotifierArg,
                range := { start := 29, stop := 30 }, args := [], notes := [] }]) :=
  ⟨rfl, by decide,
   ((SystemTimingCheckSymbol.resolve_notifier Example.engine
      (resolveContext Example.specifyBlock 0) Example.specifyBlock.getParentScope
      Example.setupDef Example.setupLiteralNotifier 3 { kind := ArgKind.Notifier }
      (Example.literal "5" 29) (Example.literal "5" 29).sourceRange [] [] rfl rfl).1
      (by decide)).1,
   rfl⟩

/-- The twelve names of the schema table. -/
theorem SystemTimingCheckDefs.names :
    SystemTimingCheckDefs.map Prod.fst =
      ["$setup", "$hold", "$setuphold", "$recovery", "$removal", "$recrem", "$skew",
       "$timeskew", "$fullskew", "$period", "$width", "$nochange"] := by
  rfl

/-- A name is looked up without success exactly when it is none of the
twelve names of the table. -/
theorem SystemTimingCheckDefs.find_eq_none (name : String) :
    SystemTimingCheckDefs.find name = none ↔
      name ∉ ["$setup", "$hold", "$setuphold", "$recovery", "$removal", "$recrem", "$skew",
              "$timeskew", "$fullskew", "$period", "$width", "$nochange"] := by
  rw [← SystemTimingCheckDefs.names, SystemTimingCheckDefs.find, List.lookup_eq_none_iff]
  simp only [List.mem_map, not_exists, not_and]
  constructor
  · intro h p hp heq
    have := h p hp
    simp [heq] at this
  · intro h p hp
    have := h p hp
    simp only [bne_iff_ne, ne_eq]
    exact fun heq => this heq.symm

/-- C13: for a timing-check name that is none of the twelve names of the
schema table, `fromSyntax` adds exactly one `UnknownSystemTimingCheck`
diagnostic and still returns a symbol, without schema and with
`timingCheckKind = Unknown`; resolving that symbol returns with no
diagnostic, the same for every binder (nothing is bound), and leaves the
argument list empty. For a name found in the table `fromSyntax` adds no
diagnostic, and the symbol has the schema of the table and its kind. -/
theorem SystemTimingCheckSymbol.fromSyntax_name (E : Engine) (syn : SystemTimingCheckSyntax)
    (parent : Scope) (index : Nat) :
    (syn.name.text ∉
        ["$setup", "$hold", "$setuphold", "$recovery", "$removal", "$recrem", "$skew",
         "$timeskew", "$fullskew", "$period", "$width", "$nochange"] →
      SystemTimingCheckSymbol.fromSyntax syn =
          ({ location := syn.firstTokenLocation, parentScope := none, indexInScope := 0,
             originatingSyntax := some syn, defn := none,
             timingCheckKind := SystemTimingCheckKind.Unknown, isResolved := false,
             args := [] },
           [{ code := DiagCode.UnknownSystemTimingCheck, range := syn.name.range,
              args := [DiagArg.text syn.name.text], notes := [] }]) ∧
        SystemTimingCheckSymbol.resolve E (SystemTimingCheckSymbol.create syn parent index) =
          .ok ({ SystemTimingCheckSymbol.create syn parent index with isResolved := true },
               []) ∧
        ({ SystemTimingCheckSymbol.create syn parent index with isResolved := true } :
          SystemTimingCheckSymbol).args = [] ∧
        ∀ E2 : Engine,
          SystemTimingCheckSymbol.resolve E2 (SystemTimingCheckSymbol.create syn parent index) =
            SystemTimingCheckSymbol.resolve E
              (SystemTimingCheckSymbol.create syn parent index)) ∧
    (∀ d : SystemTimingCheckDef, SystemTimingCheckDefs.find syn.name.text = some d →
      (SystemTimingCheckSymbol.fromSyntax syn).2 = [] ∧
        (SystemTimingCheckSymbol.fromSyntax syn).1.defn = some d ∧
        (SystemTimingCheckSymbol.fromSyntax syn).1.timingCheckKind = d.kind) := by
  constructor
  · intro hname
    have hnone := (SystemTimingCheckDefs.find_eq_none syn.name.text).2 hname
    have key : ∀ E1 : Engine,
        SystemTimingCheckSymbol.resolve E1 (SystemTimingCheckSymbol.create syn parent index) =
          .ok ({ SystemTimingCheckSymbol.create syn parent index with isResolved := true },
               []) := by
      intro E1
      simp [SystemTimingCheckSymbol.resolve, SystemTimingCheckSymbol.create,
        SystemTimingCheckSymbol.fromSyntax, SystemTimingCheckSymbol.setParent, hnone]
    refine ⟨?_, key E, rfl, fun E2 => by rw [key E2, key E]⟩
    simp [SystemTimingCheckSymbol.fromSyntax, hnone]
  · intro d hd
    simp [SystemTimingCheckSymbol.fromSyntax, hd]

/-- C13, run on `$settle(posedge clk, data)`. -/
theorem SystemTimingCheckSymbol.fromSyntax_name_witness :
    (SystemTimingCheckSymbol.fromSyntax Example.unknownCheck).2 =
        [{ code := DiagCode.UnknownSystemTimingCheck, range := { start := 0, stop := 7 },
           args := [DiagArg.text "$settle"], notes := [] }] ∧
      (SystemTimingCheckSymbol.fromSyntax Example.unknownCheck).1.timingCheckKind =
        SystemTimingCheckKind.Unknown ∧
      SystemTimingCheckSymbol.resolve Example.engine
          (SystemTimingCheckSymbol.create Example.unknownCheck Example.specifyBlock 0) =
        .ok ({ SystemTimingCheckSymbol.create Example.unknownCheck Example.specifyBlock 0 with
               isResolved := true },
             []) ∧
      (SystemTimingCheckSymbol.fromSyntax Example.setupFourArgs).2 = [] ∧
      (SystemTimingCheckSymbol.fromSyntax Example.setupFourArgs).1.timingCheckKind =
        SystemTimingCheckKind.Setup :=
  ⟨rfl, rfl,
   ((SystemTimingCheckSymbol.fromSyntax_name Example.engine Example.unknownCheck
      Example.specifyBlock 0).1 (by decide)).2.1,
   ((SystemTimingCheckSymbol.fromSyntax_name Example.engine Example.setupFourArgs
      Example.specifyBlock 0).2 Example.setupDef (by decide)).1,
   ((SystemTimingCheckSymbol.fromSyntax_name Example.engine Example.setupFourArgs
      Example.specifyBlock 0).2 Example.setupDef (by decide)).2.2⟩

/-- Whenever `TimingPathSymbol::resolve` returns, the flag is set. -/
theorem TimingPathSymbol.resolve_path_isResolved (E : Engine) (self after : TimingPathSymbol)
    (ds : List Diagnostic) (h : TimingPathSymbol.resolve E self = .ok (after, ds)) :
    after.isResolved = true := by
  unfold TimingPathSymbol.resolve at h
  cases hs : self.originatingSyntax <;> cases hp : self.parentScope <;> simp only [hs, hp] at h
  · cases h
  · cases h
  · cases h
  rename_i syntaxPtr parent
  cases syntaxPtr <;> simp only [] at h
  all_goals
    rename_i path
    cases hin : bindTerminals E path.desc.inputs true parent.getParentScope
      (resolveContext parent self.indexInScope) <;> simp only [hin] at h
    · cases h
    cases hsuf : path.desc.suffix with
    | SimplePathSuffix outputs =>
      simp only [hsuf] at h
      cases hout : bindTerminals E outputs false parent.getParentScope
        (resolveContext parent self.indexInScope) <;> simp only [hout] at h
      · cases h
      simp only [Except.ok.injEq, Prod.mk.injEq] at h
      rw [← h.1]
    | EdgeSensitivePathSuffix outputs polarityOperator expr =>
      simp only [hsuf] at h
      cases hout : bindTerminals E outputs false parent.getParentScope
        (resolveContext parent self.indexInScope) <;> simp only [hout] at h
      · cases h
      simp only [Except.ok.injEq, Prod.mk.injEq] at h
      rw [← h.1]

/-- Whenever `PulseStyleSymbol::resolve` returns, the flag is set. -/
theorem PulseStyleSymbol.resolve_style_isResolved (E : Engine) (self after : PulseStyleSymbol)
    (ds : List Diagnostic) (h : PulseStyleSymbol.resolve E self = .ok (after, ds)) :
    after.isResolved = true := by
  unfold PulseStyleSymbol.resolve at h
  cases hs : self.originatingSyntax <;> cases hp : self.parentScope <;> simp only [hs, hp] at h
  · cases h
  · cases h
  · cases h
  rename_i syn parent
  cases hb : bindTerminals E syn.inputs false parent.getParentScope
    (resolveContext parent self.indexInScope) <;> simp only [hb] at h
  · cases h
  simp only [Except.ok.injEq, Prod.mk.injEq] at h
  rw [← h.1]

/-- Whenever `SystemTimingCheckSymbol::resolve` returns, the flag is set. -/
theorem SystemTimingCheckSymbol.resolve_check_isResolved (E : Engine)
    (self after : SystemTimingCheckSymbol) (ds : List Diagnostic)
    (h : SystemTimingCheckSymbol.resolve E self = .ok (after, ds)) :
    after.isResolved = true := by
  unfold SystemTimingCheckSymbol.resolve at h
  cases hd : self.defn with
  | none =>
    simp only [hd, Except.ok.injEq, Prod.mk.injEq] at h
    rw [← h.1]
  | some d =>
    cases hs : self.originatingSyntax <;> cases hp : self.parentScope <;>
      simp only [hd, hs, hp] at h
    · cases h
    · cases h
    · cases h
    rename_i syn parent
    by_cases h1 : syn.args.length < d.minArgs
    · simp only [h1, if_true, Except.ok.injEq, Prod.mk.injEq] at h
      rw [← h.1]
    · by_cases h2 : syn.args.length > d.args.length
      · simp only [h1, h2, if_true, if_false, Except.ok.injEq, Prod.mk.injEq] at h
        rw [← h.1]
      · simp only [h1, h2, if_false] at h
        cases hloop : SystemTimingCheckSymbol.resolveArgs E
          (resolveContext parent self.indexInScope) parent.getParentScope d syn 0 syn.args []
          <;> simp only [hloop] at h
        · cases h
        simp only [Except.ok.injEq, Prod.mk.injEq] at h
        rw [← h.1]

/-- C15, the code at the failing inputs. Under the wildcard semantics `**`
matches the empty string and `a**` matches `a`, each `*` standing for the
empty sequence; `matches` returns false for both: after a `*` that is not
the last pattern character, its loop tries the rest of the pattern against
the non-empty tails of the string only, never against the empty tail. The
witness of the claim is as claimed: `*st?.sv` matches `test2.sv` and not
`test.sv`. -/
theorem Glob.matches_adjacent_stars :
    Glob.WildcardMatches "".toList "**".toList ∧
      Glob.matches "".toList "**".toList = false ∧
      Glob.WildcardMatches "a".toList "a**".toList ∧
      Glob.matches "a".toList "a**".toList = false ∧
      Glob.matches "test2.sv".toList "*st?.sv".toList = true ∧
      Glob.matches "test.sv".toList "*st?.sv".toList = false := by
  refine ⟨?_, by decide, ?_, by decide, by decide, by decide⟩
  · exact Glob.WildcardMatches.star [] [] ['*']
      (Glob.WildcardMatches.star [] [] [] Glob.WildcardMatches.empty)
  · exact Glob.WildcardMatches.literal 'a' [] ['*', '*'] (by decide) (by decide)
      (Glob.WildcardMatches.star [] [] ['*']
        (Glob.WildcardMatches.star [] [] [] Glob.WildcardMatches.empty))

/-- C16, the code at the failing inputs, in `Directories` mode on the example
tree with base `tests`: for the pattern `nosuch/`, where `tests` has no entry
`nosuch`, and for `test.sv/`, where `test.sv` is a regular file, `svGlob`
appends the path named by the pattern although it is not a directory. The
pattern ends with a separator, so the `while` loop runs out and the path is
pushed without the `is_directory` test that the exact-name branch and
`iterDirectory` make. -/
theorem Glob.svGlob_directory_not_checked :
    Glob.svGlob Example.fileSystem Example.patternLib 8 ["tests"] "nosuch/".toList
        Glob.GlobMode.Directories [] =
        (Glob.GlobRank.Directory, [["tests", "nosuch", ""]]) ∧
      Example.fileSystem.isDirectory ["tests", "nosuch", ""] = false ∧
      Glob.svGlob Example.fileSystem Example.patternLib 8 ["tests"] "test.sv/".toList
        Glob.GlobMode.Directories [] =
        (Glob.GlobRank.Directory, [["tests", "test.sv", ""]]) ∧
      Example.fileSystem.isDirectory ["tests", "test.sv", ""] = false ∧
      Glob.svGlob Example.fileSystem Example.patternLib 8 ["tests"] "nosuch".toList
        Glob.GlobMode.Directories [] =
        (Glob.GlobRank.ExactName, []) := by
  decide

namespace Glob
variable {Path : Type}

theorem lastSegment_of_not_mem (separator : Char) (pattern : List Char)
    (h : separator ∉ pattern) : lastSegment separator pattern = pattern := by
  cases pattern with
  | nil => rfl
  | cons c rest =>
    have h1 : separator ∉ rest := fun hm => h (List.mem_cons_of_mem _ hm)
    have h2 : ¬ c = separator := fun hc => h (by simp [hc])
    simp [lastSegment, h1, h2]

theorem hasWildcard_cons (c : Char) (rest : List Char) :
    hasWildcard (c :: rest) = ((c == '?' || c == '*') || hasWildcard rest) := by
  simp [hasWildcard, Bool.or_comm]

theorem rankExplained_nil (separator : Char) (subPattern : List Char) (hasWildcards : Bool) :
    rankExplained separator [] subPattern hasWildcards
      (if subPattern.isEmpty then GlobRank.Directory
       else if hasWildcards then GlobRank.WildcardName else GlobRank.ExactName) := by
  left
  cases subPattern with
  | nil => simp [lastSegment, stripDots, specRank, hasWildcard]
  | cons a t => cases hasWildcards <;> simp [hasWildcard]

theorem rankExplained_separator (separator : Char) (rest subPattern : List Char)
    (hasWildcards : Bool) (rank : GlobRank)
    (h : rankExplained separator rest [] false rank) :
    rankExplained separator (separator :: rest) subPattern hasWildcards rank := by
  unfold rankExplained at h ⊢
  rcases h with h | ⟨h1, h2, h3⟩
  · left
    rw [h]
    by_cases hm : separator ∈ rest
    · simp [lastSegment, hm]
    · simp [lastSegment, hm, lastSegment_of_not_mem separator rest hm]
  · right
    refine ⟨h1, by simp, ?_⟩
    right
    rcases h3 with h3 | h3
    · cases h3
    · simp only [directoryPart, h2, if_true, hasWildcard, List.any_cons]
      simp only [hasWildcard] at h3
      simp [h3]

theorem rankExplained_separator_wild (separator : Char) (rest subPattern : List Char)
    (hasWildcards : Bool)
    (h : (hasWildcards || (separator == '?' || separator == '*')) = true) :
    rankExplained separator (separator :: rest) subPattern hasWildcards GlobRank.Directory := by
  right
  refine ⟨rfl, by simp, ?_⟩
  cases hasWildcards
  · right
    simp only [Bool.false_or] at h
    by_cases hm : separator ∈ rest
    · simp only [directoryPart, hm, if_true, hasWildcard_cons, h, Bool.true_or]
    · simp only [directoryPart, hm, if_false, if_true, hasWildcard_cons, h, Bool.true_or]
  · left
    rfl

theorem rankExplained_char (separator c : Char) (rest subPattern : List Char)
    (hasWildcards : Bool) (rank : GlobRank)
    (hc : c ≠ separator) (hinv : subPattern = [] → hasWildcards = false)
    (hdots : subPattern = [] → stripDots (c :: rest) = c :: rest)
    (h : rankExplained separator rest (subPattern ++ [c]) (hasWildcards || (c == '?' || c == '*'))
      rank) :
    rankExplained separator (c :: rest) subPattern hasWildcards rank := by
  unfold rankExplained at h ⊢
  have hne : subPattern ++ [c] ≠ [] := by simp
  have hcs : ¬ separator = c := fun e => hc e.symm
  rcases h with h | ⟨h1, h2, h3⟩
  · left
    rw [h]
    by_cases hm : separator ∈ rest
    · simp [lastSegment, hm]
    · simp only [hne, hm, or_self, if_false, List.mem_cons, hcs, or_false]
      have hlast : lastSegment separator (c :: rest) = c :: rest := by
        simp [lastSegment, hm, hc]
      by_cases hS : subPattern = []
      · simp only [hS, if_true, hlast, hdots hS, hinv hS, Bool.false_or, specRank,
          hasWildcard_cons, List.isEmpty_cons, Bool.not_false]
      · simp only [hS, if_false, hasWildcard_cons]
        generalize (c == '?' || c == '*') = b
        generalize hasWildcard rest = r
        cases hasWildcards <;> cases b <;> cases r <;> rfl
  · right
    refine ⟨h1, by simp [h2], ?_⟩
    rcases h3 with h3 | h3
    · cases hasWildcards
      · right
        simp only [Bool.false_or] at h3
        simp only [directoryPart, h2, if_true, hasWildcard, List.any_cons]
        rw [Bool.or_comm (c == '*')]
        simp [h3]
      · left
        rfl
    · right
      simp only [directoryPart, h2, if_true, hasWildcard, List.any_cons]
      simp only [hasWildcard] at h3
      simp [h3]

theorem rankExplained_dots (separator : Char) (rest3 : List Char) (rank : GlobRank)
    (hdot : separator ≠ '.')
    (h : rankExplained separator rest3 [] false rank) :
    rankExplained separator ('.' :: '.' :: '.' :: rest3) [] false rank := by
  unfold rankExplained at h ⊢
  have hsd : ¬ separator = '.' := hdot
  have hds : ¬ '.' = separator := fun e => hdot e.symm
  rcases h with h | ⟨h1, h2, h3⟩
  · left
    rw [h]
    simp only [true_or, if_true]
    by_cases hm : separator ∈ rest3
    · simp [lastSegment, hm]
    · have hlast : lastSegment separator ('.' :: '.' :: '.' :: rest3) =
          '.' :: '.' :: '.' :: rest3 := by
        simp [lastSegment, hm, hsd, hds]
      rw [hlast, lastSegment_of_not_mem separator rest3 hm]
      simp [stripDots]
  · right
    refine ⟨h1, by simp [h2], ?_⟩
    right
    rcases h3 with h3 | h3
    · cases h3
    · simp only [directoryPart, List.mem_cons, h2, or_true, if_true, hasWildcard,
        List.any_cons]
      simp only [hasWildcard] at h3
      simp [h3]

theorem foldl_rank {α : Type} (f : α → List Path → GlobRank × List Path)
    (Q : GlobRank → Prop) (hQ : ∀ a res, Q (f a res).1) :
    ∀ (dirs : List α) (init : GlobRank × List Path), (dirs = [] → Q init.1) →
      Q (dirs.foldl (fun acc a => f a acc.2) init).1 := by
  intro dirs
  induction dirs with
  | nil =>
    intro init h
    exact h rfl
  | cons a t ih =>
    intro init _
    exact ih (f a init.2) (fun _ => hQ a init.2)

theorem scan_nil_rank (fs : FileSystem Path) (depth : Nat) (mode : GlobMode)
    (subPattern : List Char) (hasWildcards : Bool) (currPath : Path) (results : List Path) :
    (svGlobInternal.scan fs depth mode [] subPattern hasWildcards currPath results).1 =
      (if subPattern.isEmpty then GlobRank.Directory
       else if hasWildcards then GlobRank.WildcardName else GlobRank.ExactName) := by
  rw [svGlobInternal.scan.eq_def]
  simp only []
  split_ifs <;> rfl

/-- The rank that the walk of `svGlobInternal` returns is explained by the
pattern, from every state of the walk. -/
theorem scan_rankExplained (fs : FileSystem Path) (depth : Nat) (mode : GlobMode)
    (hdot : fs.preferredSeparator ≠ '.') :
    ∀ (n : Nat) (pattern subPattern : List Char) (hasWildcards : Bool) (currPath : Path)
      (results : List Path),
      pattern.length ≤ n → (subPattern = [] → hasWildcards = false) →
      rankExplained fs.preferredSeparator pattern subPattern hasWildcards
        (svGlobInternal.scan fs depth mode pattern subPattern hasWildcards currPath
          results).1 := by
  intro n
  induction n with
  | zero =>
    intro pattern subPattern hasWildcards currPath results hlen _
    have hnil : pattern = [] := List.length_eq_zero.mp (Nat.le_zero.mp hlen)
    subst hnil
    rw [scan_nil_rank]
    exact rankExplained_nil fs.preferredSeparator subPattern hasWildcards
  | succ n ih =>
    intro pattern subPattern hasWildcards currPath results hlen hinv
    cases pattern with
    | nil =>
      rw [scan_nil_rank]
      exact rankExplained_nil fs.preferredSeparator subPattern hasWildcards
    | cons c rest =>
      have hrest : rest.length ≤ n := by
        simp only [List.length_cons] at hlen
        omega
      -- one step of the `for` loop
      have hstep : ∀ (S : List Char) (hw : Bool) (cp : Path) (res : List Path),
          (S = [] → hw = false) → (S = [] → stripDots (c :: rest) = c :: rest) →
          rankExplained fs.preferredSeparator (c :: rest) S hw
            (if (c == fs.preferredSeparator) = true then
              if (hw || (c == '?' || c == '*')) = true then
                List.foldl
                  (fun acc dir => svGlobInternal.scan fs depth mode rest [] false dir acc.2)
                  (GlobRank.Directory, res) (globDir fs cp S [] GlobMode.Directories)
              else svGlobInternal.scan fs depth mode rest [] false (fs.append cp S) res
            else
              svGlobInternal.scan fs depth mode rest (S ++ [c]) (hw || (c == '?' || c == '*'))
                cp res).1 := by
        intro S hw cp res hi hd
        by_cases hc : c = fs.preferredSeparator
        · subst hc
          simp only [beq_self_eq_true, if_true]
          by_cases hf : (hw || (fs.preferredSeparator == '?' || fs.preferredSeparator == '*'))
              = true
          · simp only [hf, if_true]
            apply foldl_rank
              (fun dir res2 => svGlobInternal.scan fs depth mode rest [] false dir res2)
              (rankExplained fs.preferredSeparator (fs.preferredSeparator :: rest) S hw)
            · intro dir res2
              exact rankExplained_separator _ rest S hw _
                (ih rest [] false dir res2 hrest (fun _ => rfl))
            · intro _
              exact rankExplained_separator_wild _ rest S hw hf
          · simp only [hf, if_false]
            exact rankExplained_separator _ rest S hw _
              (ih rest [] false _ res hrest (fun _ => rfl))
        · have hb : (c == fs.preferredSeparator) = false := by simpa using hc
          simp only [hb, Bool.false_eq_true, if_false]
          exact rankExplained_char _ c rest S hw _ hc hi hd
            (ih rest (S ++ [c]) _ cp res hrest (fun h => absurd h (by simp)))
      rw [svGlobInternal.scan.eq_def]
      simp only []
      by_cases hS : subPattern = []
      · subst hS
        have hw : hasWildcards = false := hinv rfl
        subst hw
        simp only [List.isEmpty_nil, if_true]
        match rest, hrest, hstep with
        | [], _, hstep =>
          exact hstep [] false currPath results (fun _ => rfl) (fun _ => by simp [stripDots])
        | [c2], _, hstep =>
          exact hstep [] false currPath results (fun _ => rfl) (fun _ => by simp [stripDots])
        | c2 :: c3 :: rest3, hrest, hstep =>
          simp only []
          by_cases hd : (c == '.' && c2 == '.' && c3 == '.') = true
          · simp only [hd, if_true]
            have h3 : rest3.length ≤ n := by
              simp only [List.length_cons] at hrest
              omega
            have hc : c = '.' ∧ c2 = '.' ∧ c3 = '.' := by simpa [and_assoc] using hd
            obtain ⟨h1, h2, h3c⟩ := hc
            subst h1
            subst h2
            subst h3c
            apply foldl_rank
              (fun dir res2 => svGlobInternal.scan fs depth mode rest3 [] false dir res2)
              (rankExplained fs.preferredSeparator ('.' :: '.' :: '.' :: rest3) [] false)
            · intro dir res2
              exact rankExplained_dots _ rest3 _ hdot
                (ih rest3 [] false dir res2 h3 (fun _ => rfl))
            · intro hnil
              simp at hnil
          · simp only [hd, Bool.false_eq_true, if_false]
            exact hstep [] false currPath results (fun _ => rfl)
              (fun _ => by simp [stripDots, hd])
      · have hE : subPattern.isEmpty = false := by
          cases subPattern with
          | nil => exact absurd rfl hS
          | cons a t => rfl
        simp only [hE, Bool.false_eq_true, if_false]
        exact hstep subPattern hasWildcards currPath results hinv (fun h => absurd h hS)

end Glob

namespace Glob
variable {Path : Type}

theorem stripDots_of_not_dots (segment : List Char)
    (h : ∀ rest : List Char, segment ≠ '.' :: '.' :: '.' :: rest) :
    stripDots segment = segment := by
  match segment, h with
  | [], _ => rfl
  | [_], _ => rfl
  | [_, _], _ => rfl
  | c1 :: c2 :: c3 :: rest, h =>
    have hd : (c1 == '.' && c2 == '.' && c3 == '.') = false := by
      cases hb : (c1 == '.' && c2 == '.' && c3 == '.')
      · rfl
      · have hc : c1 = '.' ∧ c2 = '.' ∧ c3 = '.' := by simpa [and_assoc] using hb
        obtain ⟨h1, h2, h3⟩ := hc
        subst h1
        subst h2
        subst h3
        exact absurd rfl (h rest)
    simp [stripDots, hd]

theorem svGlob_rank_eq (fs : FileSystem Path) (lib : PatternLib Path) (depth : Nat)
    (basePath : Path) (pattern : List Char) (mode : GlobMode) (results : List Path) :
    ∃ (base : Path),
      (svGlob fs lib depth basePath pattern mode results).1 =
        (svGlobInternal.scan fs depth mode (svGlob.normalized lib pattern) [] false base
          results).1 := by
  unfold svGlob svGlob.normalized svGlobInternal
  by_cases h : lib.hasRootPath (svGlob.expand lib 0 pattern) = true
  · exact ⟨lib.rootPath (svGlob.expand lib 0 pattern), by simp [h]⟩
  · exact ⟨basePath, by simp [h]⟩

end Glob

/-- C17, as the claim states it, fails on the example tree with base
`tests`. For `zz*/test.sv` the last segment `test.sv` is non-empty without a
wildcard, yet the rank is `Directory`: no directory of `tests` matches `zz*`,
so the rank keeps its initial value. For `...` the last segment is non-empty
without a wildcard, yet the rank is `Directory`: the three dots are taken as
"all directories below" and the pattern left is empty. -/
theorem Glob.svGlob_rank_counterexample :
    (Glob.svGlob Example.fileSystem Example.patternLib 8 ["tests"] "zz*/test.sv".toList
        Glob.GlobMode.Files []).1 = Glob.GlobRank.Directory ∧
      Glob.specRank (Glob.lastSegment '/' "zz*/test.sv".toList) = Glob.GlobRank.ExactName ∧
      (Glob.svGlob Example.fileSystem Example.patternLib 8 ["tests"] "...".toList
        Glob.GlobMode.Files []).1 = Glob.GlobRank.Directory ∧
      Glob.specRank (Glob.lastSegment '/' "...".toList) = Glob.GlobRank.ExactName := by
  decide

/-- C17, amended. Let `p` be the normalized pattern that `svGlob` works on
and `s` its last path segment. When no segment before the last contains `*`
or `?`, the rank is determined by `s` taken without the groups of three dots
it starts with: `WildcardName` when that contains `*` or `?`, `ExactName`
when it is non-empty without a wildcard, `Directory` when it is empty; so
when moreover `s` does not start with three dots the rank is determined by
`s` itself, as claimed, for every directory tree. When a segment before the
last contains a wildcard, the rank is either that one or `Directory`. -/
theorem Glob.svGlob_rank {Path : Type} (fs : Glob.FileSystem Path) (lib : Glob.PatternLib Path)
    (depth : Nat) (basePath : Path) (pattern : List Char) (mode : Glob.GlobMode)
    (results : List Path) (hdot : fs.preferredSeparator ≠ '.') :
    (Glob.hasWildcard
        (Glob.directoryPart fs.preferredSeparator (Glob.svGlob.normalized lib pattern)) = false →
      (Glob.svGlob fs lib depth basePath pattern mode results).1 =
        Glob.specRank (Glob.stripDots
          (Glob.lastSegment fs.preferredSeparator (Glob.svGlob.normalized lib pattern)))) ∧
    (Glob.hasWildcard
        (Glob.directoryPart fs.preferredSeparator (Glob.svGlob.normalized lib pattern)) = false →
      (∀ rest : List Char,
        Glob.lastSegment fs.preferredSeparator (Glob.svGlob.normalized lib pattern) ≠
          '.' :: '.' :: '.' :: rest) →
      (Glob.svGlob fs lib depth basePath pattern mode results).1 =
        Glob.specRank
          (Glob.lastSegment fs.preferredSeparator (Glob.svGlob.normalized lib pattern))) ∧
    ((Glob.svGlob fs lib depth basePath pattern mode results).1 =
        Glob.specRank (Glob.stripDots
          (Glob.lastSegment fs.preferredSeparator (Glob.svGlob.normalized lib pattern))) ∨
      ((Glob.svGlob fs lib depth basePath pattern mode results).1 = Glob.GlobRank.Directory ∧
        Glob.hasWildcard
          (Glob.directoryPart fs.preferredSeparator (Glob.svGlob.normalized lib pattern)) =
          true)) := by
  obtain ⟨base, hbase⟩ := Glob.svGlob_rank_eq fs lib depth basePath pattern mode results
  have key := Glob.scan_rankExplained fs depth mode hdot
    (Glob.svGlob.normalized lib pattern).length (Glob.svGlob.normalized lib pattern) [] false
    base results (Nat.le_refl _) (fun _ => rfl)
  rw [← hbase] at key
  unfold Glob.rankExplained at key
  simp only [true_or, if_true] at key
  have general : (Glob.svGlob fs lib depth basePath pattern mode results).1 =
        Glob.specRank (Glob.stripDots
          (Glob.lastSegment fs.preferredSeparator (Glob.svGlob.normalized lib pattern))) ∨
      ((Glob.svGlob fs lib depth basePath pattern mode results).1 = Glob.GlobRank.Directory ∧
        Glob.hasWildcard
          (Glob.directoryPart fs.preferredSeparator (Glob.svGlob.normalized lib pattern)) =
          true) := by
    rcases key with h | ⟨h1, _, h3⟩
    · exact Or.inl h
    · rcases h3 with h3 | h3
      · cases h3
      · exact Or.inr ⟨h1, h3⟩
  have plain : Glob.hasWildcard
        (Glob.directoryPart fs.preferredSeparator (Glob.svGlob.normalized lib pattern)) = false →
      (Glob.svGlob fs lib depth basePath pattern mode results).1 =
        Glob.specRank (Glob.stripDots
          (Glob.lastSegment fs.preferredSeparator (Glob.svGlob.normalized lib pattern))) := by
    intro hno
    rcases general with h | ⟨_, h2⟩
    · exact h
    · rw [hno] at h2
      cases h2
  refine ⟨plain, ?_, general⟩
  intro hno hseg
  rw [plain hno, Glob.stripDots_of_not_dots _ hseg]

/-- C17 amended, run on the patterns named in the claim, on the example tree
with base `tests`: `*st?.sv` and `.../f*.svh` give `WildcardName`, `system`
gives `ExactName`, `system/` and `*ste*/` give `Directory`. -/
theorem Glob.svGlob_rank_witness :
    Example.fileSystem.preferredSeparator ≠ '.' ∧
      (Glob.svGlob Example.fileSystem Example.patternLib 8 ["tests"] "*st?.sv".toList
        Glob.GlobMode.Files []).1 = Glob.GlobRank.WildcardName ∧
      (Glob.svGlob Example.fileSystem Example.patternLib 8 ["tests"] ".../f*.svh".toList
        Glob.GlobMode.Files []).1 = Glob.GlobRank.WildcardName ∧
      (Glob.svGlob Example.fileSystem Example.patternLib 8 ["tests"] "system".toList
        Glob.GlobMode.Files []).1 = Glob.GlobRank.ExactName ∧
      (Glob.svGlob Example.fileSystem Example.patternLib 8 ["tests"] "system/".toList
        Glob.GlobMode.Directories []).1 = Glob.GlobRank.Directory ∧
      (Glob.svGlob Example.fileSystem Example.patternLib 8 ["tests"] "*ste*/".toList
        Glob.GlobMode.Files []).1 = Glob.GlobRank.Directory :=
  ⟨by decide,
   (Glob.svGlob_rank Example.fileSystem Example.patternLib 8 ["tests"] "*st?.sv".toList
      Glob.GlobMode.Files [] (by decide)).1 (by decide),
   (Glob.svGlob_rank Example.fileSystem Example.patternLib 8 ["tests"] ".../f*.svh".toList
      Glob.GlobMode.Files [] (by decide)).1 (by decide),
   (Glob.svGlob_rank Example.fileSystem Example.patternLib 8 ["tests"] "system".toList
      Glob.GlobMode.Files [] (by decide)).1 (by decide),
   (Glob.svGlob_rank Example.fileSystem Example.patternLib 8 ["tests"] "system/".toList
      Glob.GlobMode.Directories [] (by decide)).1 (by decide),
   by decide⟩

theorem ScopeMembers.addMember_getElem (scope : ScopeMembers) (symbol : Symbol)
    (hinv : ∀ (i : Nat) (a : Symbol), scope.members[i]? = some a →
      a.parentScope = some scope.addr ∧ a.indexInScope = i)
    (hsize : scope.members.length < 2 ^ 32) :
    ∀ (i : Nat) (a : Symbol), (scope.addMember symbol).members[i]? = some a →
      a.parentScope = some (scope.addMember symbol).addr ∧ a.indexInScope = i := by
  intro i a ha
  simp only [ScopeMembers.addMember] at ha ⊢
  rcases Nat.lt_or_ge i scope.members.length with hlt | hge
  · rw [List.getElem?_append_left hlt] at ha
    exact hinv i a ha
  · rw [List.getElem?_append_right hge] at ha
    rcases Nat.eq_zero_or_pos (i - scope.members.length) with hz | hp
    · rw [hz] at ha
      simp only [List.getElem?_cons_zero, Option.some.injEq] at ha
      subst ha
      have hi : i = scope.members.length := by omega
      have hsz : scope.members.length < 4294967296 := by omega
      simp [Symbol.setParentWithIndex, Symbol.setParent, Nat.mod_eq_of_lt hsz, hi]
    · obtain ⟨k, hk⟩ := Nat.exists_eq_succ_of_ne_zero (Nat.pos_iff_ne_zero.mp hp)
      rw [hk] at ha
      simp at ha

theorem ScopeMembers.foldl_addMember (symbols : List Symbol) :
    ∀ (scope : ScopeMembers),
      (∀ (i : Nat) (a : Symbol), scope.members[i]? = some a →
        a.parentScope = some scope.addr ∧ a.indexInScope = i) →
      scope.members.length + symbols.length ≤ 2 ^ 32 →
      ∀ (i : Nat) (a : Symbol),
        (symbols.foldl ScopeMembers.addMember scope).members[i]? = some a →
        a.parentScope = some scope.addr ∧ a.indexInScope = i := by
  induction symbols with
  | nil => intro scope hinv _ i a ha; exact hinv i a ha
  | cons s rest ih =>
    intro scope hinv hsize i a ha
    simp only [List.length_cons] at hsize
    simp only [List.foldl_cons] at ha
    have hstep := ScopeMembers.addMember_getElem scope s hinv (by omega)
    have hlen : (scope.addMember s).members.length = scope.members.length + 1 := by
      simp [ScopeMembers.addMember]
    have := ih (scope.addMember s) hstep (by omega) i a ha
    simpa [ScopeMembers.addMember] using this

theorem Symbol.isDeclaredBefore_same_scope (acrossScopes : Symbol → Symbol → Option Bool)
    (a b : Symbol) (addr : Nat) (ha : a.parentScope = some addr)
    (hb : b.parentScope = some addr) :
    Symbol.isDeclaredBefore acrossScopes a b = some (decide (a.getIndex < b.getIndex)) := by
  simp [Symbol.isDeclaredBefore, Symbol.getParentScope, ha, hb]

/-- C18: in a scope whose members were added one after the other with
`addMember` (fewer than `2 ^ 32` of them), `isDeclaredBefore` says of the
member at position `i` and the member at position `j` whether `i < j`: the
first of three symbols A, B, C is before the second and the second before the
third. On the members the relation is irreflexive, transitive, and equal to
the strict order of the indices returned by `getIndex`. -/
theorem Symbol.isDeclaredBefore_members (acrossScopes : Symbol → Symbol → Option Bool)
    (addr : Nat) (symbols : List Symbol) (hsize : symbols.length ≤ 2 ^ 32) :
    (∀ (i j : Nat) (a b : Symbol),
      (symbols.foldl ScopeMembers.addMember { addr := addr, members := [] }).members[i]? =
        some a →
      (symbols.foldl ScopeMembers.addMember { addr := addr, members := [] }).members[j]? =
        some b →
      Symbol.isDeclaredBefore acrossScopes a b = some (decide (i < j))) ∧
    (∀ a ∈ (symbols.foldl ScopeMembers.addMember { addr := addr, members := [] }).members,
      Symbol.isDeclaredBefore acrossScopes a a = some false) ∧
    (∀ a ∈ (symbols.foldl ScopeMembers.addMember { addr := addr, members := [] }).members,
      ∀ b ∈ (symbols.foldl ScopeMembers.addMember { addr := addr, members := [] }).members,
      ∀ c ∈ (symbols.foldl ScopeMembers.addMember { addr := addr, members := [] }).members,
      Symbol.isDeclaredBefore acrossScopes a b = some true →
      Symbol.isDeclaredBefore acrossScopes b c = some true →
      Symbol.isDeclaredBefore acrossScopes a c = some true) ∧
    (∀ a ∈ (symbols.foldl ScopeMembers.addMember { addr := addr, members := [] }).members,
      ∀ b ∈ (symbols.foldl ScopeMembers.addMember { addr := addr, members := [] }).members,
      Symbol.isDeclaredBefore acrossScopes a b = some (decide (a.getIndex < b.getIndex))) := by
  have hinv := ScopeMembers.foldl_addMember symbols { addr := addr, members := [] }
    (by intro i a ha; simp at ha) (by simpa using hsize)
  simp only at hinv
  have hmem : ∀ a ∈ (symbols.foldl ScopeMembers.addMember
      { addr := addr, members := [] }).members, a.parentScope = some addr := by
    intro a ha
    obtain ⟨i, hi⟩ := List.getElem?_of_mem ha
    exact (hinv i a hi).1
  refine ⟨?_, ?_, ?_, ?_⟩
  · intro i j a b ha hb
    rw [Symbol.isDeclaredBefore_same_scope acrossScopes a b addr (hinv i a ha).1 (hinv j b hb).1]
    simp [Symbol.getIndex, (hinv i a ha).2, (hinv j b hb).2]
  · intro a ha
    rw [Symbol.isDeclaredBefore_same_scope acrossScopes a a addr (hmem a ha) (hmem a ha)]
    simp
  · intro a ha b hb c hc hab hbc
    rw [Symbol.isDeclaredBefore_same_scope acrossScopes a b addr (hmem a ha) (hmem b hb)] at hab
    rw [Symbol.isDeclaredBefore_same_scope acrossScopes b c addr (hmem b hb) (hmem c hc)] at hbc
    rw [Symbol.isDeclaredBefore_same_scope acrossScopes a c addr (hmem a ha) (hmem c hc)]
    simp only [Option.some.injEq, decide_eq_true_eq] at hab hbc ⊢
    exact Nat.lt_trans hab hbc
  · intro a ha b hb
    exact Symbol.isDeclaredBefore_same_scope acrossScopes a b addr (hmem a ha) (hmem b hb)

/-- C18 on the scope at address 7 to which `A`, `B` and `C` are added in that
order: the stored `A` is declared before the stored `B`, `B` before `C`, and
`B` is not declared before `A` nor before itself. -/
theorem Symbol.isDeclaredBefore_members_witness :
    [Example.symbolA, Example.symbolB, Example.symbolC].length ≤ 2 ^ 32 ∧
      Symbol.isDeclaredBefore Example.acrossScopes
        (Example.symbolA.setParentWithIndex 7 0) (Example.symbolB.setParentWithIndex 7 1) =
        some true ∧
      Symbol.isDeclaredBefore Example.acrossScopes
        (Example.symbolB.setParentWithIndex 7 1) (Example.symbolC.setParentWithIndex 7 2) =
        some true ∧
      Symbol.isDeclaredBefore Example.acrossScopes
        (Example.symbolB.setParentWithIndex 7 1) (Example.symbolA.setParentWithIndex 7 0) =
        some false ∧
      Symbol.isDeclaredBefore Example.acrossScopes
        (Example.symbolB.setParentWithIndex 7 1) (Example.symbolB.setParentWithIndex 7 1) =
        some false :=
  ⟨by decide,
   (Symbol.isDeclaredBefore_members Example.acrossScopes 7
      [Example.symbolA, Example.symbolB, Example.symbolC] (by decide)).1 0 1 _ _ rfl rfl,
   (Symbol.isDeclaredBefore_members Example.acrossScopes 7
      [Example.symbolA, Example.symbolB, Example.symbolC] (by decide)).1 1 2 _ _ rfl rfl,
   (Symbol.isDeclaredBefore_members Example.acrossScopes 7
      [Example.symbolA, Example.symbolB, Example.symbolC] (by decide)).1 1 0 _ _ rfl rfl,
   (Symbol.isDeclaredBefore_members Example.acrossScopes 7
      [Example.symbolA, Example.symbolB, Example.symbolC] (by decide)).1 1 1 _ _ rfl rfl⟩

/-- C19: when the bounds of an open range evaluate to the fully known
integers `lo` and `hi`, `checkInside` on a fully known value `v` returns true
exactly when `lo ≤ v ≤ hi` and false exactly when not, and on a value `v`
with an unknown bit it returns unknown. -/
theorem OpenRangeExpression.checkInside_three_state
    (eval : Expression → EvalContext → ConstantValue × EvalContext)
    (self : OpenRangeExpression) (context context1 context2 : EvalContext) (lo hi v : SVInt)
    (hleft : eval self.left context = (ConstantValue.integer lo, context1))
    (hright : eval self.right context1 = (ConstantValue.integer hi, context2))
    (hlo : lo.hasUnknown = false) (hhi : hi.hasUnknown = false) :
    (v.hasUnknown = false →
      ((OpenRangeExpression.checkInside eval self context (ConstantValue.integer v)).1 =
          ConstantValue.integer (SVInt.ofLogic logic_t.one) ↔
        lo.toInt ≤ v.toInt ∧ v.toInt ≤ hi.toInt) ∧
      ((OpenRangeExpression.checkInside eval self context (ConstantValue.integer v)).1 =
          ConstantValue.integer (SVInt.ofLogic logic_t.zero) ↔
        ¬ (lo.toInt ≤ v.toInt ∧ v.toInt ≤ hi.toInt))) ∧
    (v.hasUnknown = true →
      (OpenRangeExpression.checkInside eval self context (ConstantValue.integer v)).1 =
        ConstantValue.integer (SVInt.ofLogic logic_t.x)) := by
  have hrun : OpenRangeExpression.checkInside eval self context (ConstantValue.integer v) =
      (ConstantValue.integer (SVInt.ofLogic (logic_t.and (v.ge lo) (v.le hi))), context2) := by
    simp only [OpenRangeExpression.checkInside, hleft, hright]
  rw [hrun]
  constructor
  · intro hv
    by_cases h1 : lo.toInt ≤ v.toInt <;> by_cases h2 : v.toInt ≤ hi.toInt <;>
      simp [SVInt.ge, SVInt.le, hlo, hhi, hv, h1, h2, logic_t.and, SVInt.ofLogic]
  · intro hv
    simp [SVInt.ge, SVInt.le, hv, logic_t.and]

/-- C19 on the bounds `[2:5]`: `checkInside` returns true for 3, false for 7
and unknown for `4'b0x11`. -/
theorem OpenRangeExpression.checkInside_three_state_witness :
    (OpenRangeExpression.checkInside Example.evalConstant Example.openRange
        Example.emptyContext (ConstantValue.integer (SVInt.fromNat 8 3 true))).1 =
        ConstantValue.integer (SVInt.ofLogic logic_t.one) ∧
      (OpenRangeExpression.checkInside Example.evalConstant Example.openRange
        Example.emptyContext (ConstantValue.integer (SVInt.fromNat 8 7 true))).1 =
        ConstantValue.integer (SVInt.ofLogic logic_t.zero) ∧
      (OpenRangeExpression.checkInside Example.evalConstant Example.openRange
        Example.emptyContext (ConstantValue.integer
          { signFlag := false,
            bits := [logic_t.one, logic_t.one, logic_t.x, logic_t.zero] })).1 =
        ConstantValue.integer (SVInt.ofLogic logic_t.x) :=
  ⟨((OpenRangeExpression.checkInside_three_state Example.evalConstant Example.openRange
      Example.emptyContext Example.emptyContext Example.emptyContext
      (SVInt.fromNat 8 2 true) (SVInt.fromNat 8 5 true) (SVInt.fromNat 8 3 true)
      rfl rfl rfl rfl).1 rfl).1.2 (by decide),
   ((OpenRangeExpression.checkInside_three_state Example.evalConstant Example.openRange
      Example.emptyContext Example.emptyContext Example.emptyContext
      (SVInt.fromNat 8 2 true) (SVInt.fromNat 8 5 true) (SVInt.fromNat 8 7 true)
      rfl rfl rfl rfl).1 rfl).2.2 (by decide),
   (OpenRangeExpression.checkInside_three_state Example.evalConstant Example.openRange
      Example.emptyContext Example.emptyContext Example.emptyContext
      (SVInt.fromNat 8 2 true) (SVInt.fromNat 8 5 true)
      { signFlag := false, bits := [logic_t.one, logic_t.one, logic_t.x, logic_t.zero] }
      rfl rfl rfl rfl).2 rfl⟩

/-- C20: when the count of a replication evaluates to a fully known 0,
`evalImpl` returns the empty aggregate and leaves the context as the
evaluation of the count left it, with no diagnostic added. When the count
evaluates to a negative integer or to one with an unknown bit, `evalImpl`
returns the failure `bad` and the context has one more diagnostic, at the
count. `evalImpl` is a total function: every input gives a value and a
context. -/
theorem ReplicationExpression.evalImpl_count
    (eval : Expression → EvalContext → ConstantValue × EvalContext)
    (self : ReplicationExpression) (context context1 : EvalContext) (n : SVInt)
    (hcount : eval self.count context = (ConstantValue.integer n, context1)) :
    (n.hasUnknown = false → n.toInt = 0 →
      ReplicationExpression.evalImpl eval self context =
        (ConstantValue.elements [], context1)) ∧
    (n.hasUnknown = true ∨ n.toInt < 0 →
      (ReplicationExpression.evalImpl eval self context).1 = ConstantValue.bad ∧
      (ReplicationExpression.evalImpl eval self context).2.diagnostics =
        context1.diagnostics ++
          [{ code := ReplicationExpression.badCount, range := self.count.sourceRange,
             args := [], notes := [] }]) := by
  constructor
  · intro hknown hzero
    simp [ReplicationExpression.evalImpl, hcount, hknown, hzero]
  · intro hbad
    have hcond : (n.hasUnknown || decide (n.toInt < 0)) = true := by
      rcases hbad with h | h
      · simp [h]
      · simp [h]
    simp only [ReplicationExpression.evalImpl, hcount, hcond, if_true, EvalContext.addDiag,
      and_self]

/-- C20 on `{0{2'b10}}`, `{-1{2'b10}}` and `{4'b0x11{2'b10}}`: the first
gives the empty aggregate and no diagnostic, the other two give `bad` and one
diagnostic at the count. -/
theorem ReplicationExpression.evalImpl_count_witness :
    ReplicationExpression.evalImpl Example.evalConstant (Example.replication 120)
        Example.emptyContext = (ConstantValue.elements [], Example.emptyContext) ∧
      ((ReplicationExpression.evalImpl Example.evalConstant (Example.replication 130)
          Example.emptyContext).1 = ConstantValue.bad ∧
        (ReplicationExpression.evalImpl Example.evalConstant (Example.replication 130)
          Example.emptyContext).2.diagnostics =
          Example.emptyContext.diagnostics ++
            [{ code := ReplicationExpression.badCount,
               range := (Example.replication 130).count.sourceRange,
               args := [], notes := [] }]) ∧
      ((ReplicationExpression.evalImpl Example.evalConstant (Example.replication 140)
          Example.emptyContext).1 = ConstantValue.bad ∧
        (ReplicationExpression.evalImpl Example.evalConstant (Example.replication 140)
          Example.emptyContext).2.diagnostics =
          Example.emptyContext.diagnostics ++
            [{ code := ReplicationExpression.badCount,
               range := (Example.replication 140).count.sourceRange,
               args := [], notes := [] }]) :=
  ⟨(ReplicationExpression.evalImpl_count Example.evalConstant (Example.replication 120)
      Example.emptyContext Example.emptyContext (SVInt.fromNat 8 0 true) rfl).1 rfl
      (by decide),
   (ReplicationExpression.evalImpl_count Example.evalConstant (Example.replication 130)
      Example.emptyContext Example.emptyContext (SVInt.fromNat 8 255 true) rfl).2
      (Or.inr (by decide)),
   (ReplicationExpression.evalImpl_count Example.evalConstant (Example.replication 140)
      Example.emptyContext Example.emptyContext
      { signFlag := false, bits := [logic_t.one, logic_t.one, logic_t.x, logic_t.zero] }
      rfl).2 (Or.inl rfl)⟩

namespace Glob

theorem matches_nil (str : List Char) : Glob.matches str [] = str.isEmpty := by
  rw [Glob.matches.eq_def]

theorem matches_star (str pattern : List Char) :
    Glob.matches str ('*' :: pattern) =
      (if pattern.isEmpty then true
       else (List.range str.length).any (fun i => Glob.matches (str.drop i) pattern)) := by
  rw [Glob.matches.eq_def]
  simp

theorem matches_char_nil (p : Char) (pattern : List Char) (hp : p ≠ '*') :
    Glob.matches [] (p :: pattern) = false := by
  rw [Glob.matches.eq_def]
  simp [hp]

theorem matches_char_cons (c p : Char) (rest pattern : List Char) (hp : p ≠ '*') :
    Glob.matches (c :: rest) (p :: pattern) =
      (if c != p && p != '?' then false else Glob.matches rest pattern) := by
  rw [Glob.matches.eq_def]
  simp [hp]

/-- Whatever `matches` accepts is a match under the wildcard semantics. -/
theorem matches_sound : ∀ (pattern str : List Char),
    Glob.matches str pattern = true → WildcardMatches str pattern := by
  intro pattern
  induction pattern with
  | nil =>
    intro str h
    rw [matches_nil] at h
    have : str = [] := by simpa using h
    subst this
    exact WildcardMatches.empty
  | cons p pattern ih =>
    intro str h
    by_cases hp : p = '*'
    · subst hp
      rw [matches_star] at h
      by_cases he : pattern.isEmpty = true
      · have hnil : pattern = [] := by simpa using he
        subst hnil
        have := WildcardMatches.star str [] [] WildcardMatches.empty
        simpa using this
      · simp only [he, if_false, Bool.false_eq_true] at h
        rw [List.any_eq_true] at h
        obtain ⟨i, _, hi⟩ := h
        have := WildcardMatches.star (str.take i) (str.drop i) pattern (ih _ hi)
        simpa using this
    · cases str with
      | nil => rw [matches_char_nil p pattern hp] at h; cases h
      | cons c rest =>
        rw [matches_char_cons c p rest pattern hp] at h
        by_cases hq : p = '?'
        · subst hq
          simp at h
          exact WildcardMatches.question c rest pattern (ih _ h)
        · by_cases hc : c = p
          · subst hc
            simp at h
            exact WildcardMatches.literal c rest pattern hp hq (ih _ h)
          · simp [hc, hq] at h

theorem wildcardMatches_ne_nil (q : Char) (rest pattern : List Char) (hq : q ≠ '*')
    (h : WildcardMatches rest (q :: pattern)) : rest ≠ [] := by
  cases h with
  | star skipped rest2 pattern2 h2 => exact absurd rfl hq
  | question c rest2 pattern2 h2 => simp
  | literal c rest2 pattern2 h1 h2 h3 => simp

/-- Every match under the wildcard semantics is accepted by `matches` when
the pattern has no two adjacent stars. -/
theorem matches_complete (str pattern : List Char) (h : WildcardMatches str pattern) :
    noAdjacentStars pattern = true → Glob.matches str pattern = true := by
  induction h with
  | empty => intro _; rw [matches_nil]; rfl
  | star skipped rest pattern h ih =>
    intro hp
    rw [matches_star]
    cases pattern with
    | nil => rfl
    | cons q pattern2 =>
      have hq : q ≠ '*' := by
        intro hq
        subst hq
        simp [noAdjacentStars] at hp
      have hrest : noAdjacentStars (q :: pattern2) = true := by
        simp only [noAdjacentStars, Bool.and_eq_true] at hp
        exact hp.2
      have hne := wildcardMatches_ne_nil q rest pattern2 hq h
      simp only [List.isEmpty_cons, Bool.false_eq_true, if_false]
      rw [List.any_eq_true]
      refine ⟨skipped.length, ?_, ?_⟩
      · rw [List.mem_range, List.length_append]
        have : 0 < rest.length := List.length_pos.mpr hne
        omega
      · rw [List.drop_left]
        exact ih hrest
  | question c rest pattern h ih =>
    intro hp
    rw [matches_char_cons c '?' rest pattern (by decide)]
    have hrest : noAdjacentStars pattern = true := by
      cases pattern with
      | nil => rfl
      | cons q pattern2 =>
        simp only [noAdjacentStars, Bool.and_eq_true] at hp
        exact hp.2
    simp [ih hrest]
  | literal c rest pattern h1 h2 h ih =>
    intro hp
    rw [matches_char_cons c c rest pattern h1]
    have hrest : noAdjacentStars pattern = true := by
      cases pattern with
      | nil => rfl
      | cons q pattern2 =>
        simp only [noAdjacentStars, Bool.and_eq_true] at hp
        exact hp.2
    simp [ih hrest]

end Glob

namespace Glob

theorem positionwiseMatches_nil (s : List Char) : PositionwiseMatches s [] ↔ s = [] := by
  constructor
  · intro h
    exact List.length_eq_zero.mp h.1
  · intro h
    subst h
    exact ⟨rfl, by intro i c q hc; simp at hc⟩

theorem positionwiseMatches_cons (c q : Char) (s p : List Char) :
    PositionwiseMatches (c :: s) (q :: p) ↔ (c = q ∨ q = '?') ∧ PositionwiseMatches s p := by
  constructor
  · intro h
    refine ⟨h.2 0 c q (by simp) (by simp), ?_, ?_⟩
    · have := h.1
      simpa using this
    · intro i a b ha hb
      exact h.2 (i + 1) a b (by simpa using ha) (by simpa using hb)
  · intro h
    refine ⟨by simp [h.2.1], ?_⟩
    intro i a b ha hb
    cases i with
    | zero =>
      simp only [List.getElem?_cons_zero, Option.some.injEq] at ha hb
      subst ha
      subst hb
      exact h.1
    | succ j =>
      simp only [List.getElem?_cons_succ] at ha hb
      exact h.2.2 j a b ha hb

/-- On a pattern without `*`, `matches` compares position by position. -/
theorem matches_positionwise : ∀ (pattern str : List Char), '*' ∉ pattern →
    (Glob.matches str pattern = true ↔ PositionwiseMatches str pattern) := by
  intro pattern
  induction pattern with
  | nil =>
    intro str _
    rw [matches_nil, positionwiseMatches_nil]
    simp
  | cons q pattern ih =>
    intro str hstar
    have hq : q ≠ '*' := by
      intro h
      subst h
      simp at hstar
    have hrest : '*' ∉ pattern := by
      intro h
      exact hstar (List.mem_cons_of_mem _ h)
    cases str with
    | nil =>
      rw [matches_char_nil q pattern hq]
      constructor
      · intro h; cases h
      · intro h
        have := h.1
        simp at this
    | cons c rest =>
      rw [matches_char_cons c q rest pattern hq, positionwiseMatches_cons, ← ih rest hrest]
      by_cases hc : c = q
      · simp [hc]
      · by_cases hqq : q = '?'
        · simp [hqq]
        · simp [hc, hqq]

theorem firstTail_eq (run : List Char → Option Bool) (f : List Char → Bool) (str : List Char)
    (hrun : ∀ tail : List Char, run tail = some (f tail)) :
    ∀ indices : List Nat,
      firstTail run str indices = some (indices.any (fun i => f (str.drop i))) := by
  intro indices
  induction indices with
  | nil => rfl
  | cons i more ih =>
    rw [firstTail, hrun]
    cases hf : f (str.drop i)
    · simp [ih, hf]
    · simp [hf]

/-- With more fuel than the pattern has characters, the bounded function
returns what `matches` returns. -/
theorem matchesFuel_eq : ∀ (fuel : Nat) (str pattern : List Char), pattern.length < fuel →
    matchesFuel fuel str pattern = some (Glob.matches str pattern) := by
  intro fuel
  induction fuel with
  | zero => intro str pattern h; omega
  | succ fuel ih =>
    intro str pattern h
    cases pattern with
    | nil => rw [matchesFuel.eq_def, matches_nil]
    | cons p rest =>
      have hlen : rest.length < fuel := by
        simp only [List.length_cons] at h
        omega
      by_cases hp : p = '*'
      · subst hp
        rw [matchesFuel.eq_def, matches_star]
        by_cases he : rest.isEmpty = true
        · simp [he]
        · simp only [he, if_true, if_false, Bool.false_eq_true]
          exact firstTail_eq _ (fun tail => Glob.matches tail rest) str
            (fun tail => ih tail rest hlen) _
      · cases str with
        | nil =>
          rw [matchesFuel.eq_def, matches_char_nil p rest hp]
          simp [hp]
        | cons c tail =>
          rw [matchesFuel.eq_def, matches_char_cons c p tail rest hp]
          simp only [hp, if_false]
          by_cases hc : (c != p && p != '?') = true
          · simp [hc]
          · simp only [hc, if_false, Bool.false_eq_true]
            exact ih tail rest hlen

end Glob

/-- C27: for a pattern `p` without two adjacent `*` and every string `s`,
`matches` accepts `s` exactly when `s` matches `p` under the wildcard
semantics (`?` exactly one character, `*` any possibly empty sequence, other
characters literal); and for a pattern without `*`, `matches` accepts `s`
exactly when `s` and `p` have equal length and at every position the
characters are equal or the pattern character is `?`. -/
theorem Glob.matches_reference (s p : List Char) (hp : Glob.noAdjacentStars p = true) :
    (Glob.matches s p = true ↔ Glob.WildcardMatches s p) ∧
    ('*' ∉ p → (Glob.matches s p = true ↔ Glob.PositionwiseMatches s p)) :=
  ⟨⟨Glob.matches_sound p s, fun h => Glob.matches_complete s p h hp⟩,
   Glob.matches_positionwise p s⟩

/-- C27 on `*st?.sv` and `test2.sv`, a pattern without adjacent stars: the
match that `matches` finds is a match under the wildcard semantics. -/
theorem Glob.matches_reference_witness :
    Glob.noAdjacentStars "*st?.sv".toList = true ∧
      Glob.matches "test2.sv".toList "*st?.sv".toList = true ∧
      Glob.WildcardMatches "test2.sv".toList "*st?.sv".toList :=
  ⟨by decide, by decide,
   (Glob.matches_reference "test2.sv".toList "*st?.sv".toList (by decide)).1.mp (by decide)⟩

/-- C28: `matches` terminates on every string and pattern. The function run
with a bound on the nesting of loop turns and recursive calls returns, and
returns the value of `matches`, as soon as the bound exceeds the length of
the pattern: every turn of the loop and every recursive call goes on with a
strictly shorter pattern, and the `for` loop makes at most as many turns as
the string has characters. -/
theorem Glob.matches_terminates (s p : List Char) :
    Glob.matchesFuel (p.length + 1) s p = some (Glob.matches s p) ∧
    ∀ fuel : Nat, p.length < fuel → Glob.matchesFuel fuel s p = some (Glob.matches s p) :=
  ⟨Glob.matchesFuel_eq (p.length + 1) s p (Nat.lt_succ_self _),
   fun fuel h => Glob.matchesFuel_eq fuel s p h⟩

/-- C28 on `*st?.sv`, a pattern of 7 characters, and `test2.sv`: 8 units are
enough, and 7 are not. -/
theorem Glob.matches_terminates_witness :
    Glob.matchesFuel 8 "test2.sv".toList "*st?.sv".toList = some true ∧
      Glob.matchesFuel 7 "test2.sv".toList "*st?.sv".toList = none :=
  ⟨(Glob.matches_terminates "test2.sv".toList "*st?.sv".toList).2 8 (by decide),
   by decide⟩

namespace Glob

theorem wildcardMatches_literal (s p : List Char) (h : WildcardMatches s p) :
    (∀ c ∈ p, c ≠ '*' ∧ c ≠ '?') → s = p := by
  induction h with
  | empty => intro _; rfl
  | star skipped rest pattern h ih =>
    intro hlit
    exact absurd rfl (hlit '*' (List.mem_cons_self _ _)).1
  | question c rest pattern h ih =>
    intro hlit
    exact absurd rfl (hlit '?' (List.mem_cons_self _ _)).2
  | literal c rest pattern h1 h2 h ih =>
    intro hlit
    rw [ih (fun a ha => hlit a (List.mem_cons_of_mem _ ha))]

theorem wildcardMatches_length_suffix (s p : List Char) (h : WildcardMatches s p) :
    (p.filter (fun c => c != '*')).length ≤ s.length ∧
    ∀ t : List Char, t <:+ p → (∀ c ∈ t, c ≠ '*' ∧ c ≠ '?') → t <:+ s := by
  induction h with
  | empty =>
    refine ⟨by simp, ?_⟩
    intro t ht _
    exact ht
  | star skipped rest pattern h ih =>
    refine ⟨?_, ?_⟩
    · have := ih.1
      simp only [List.length_append]
      simp only [List.filter_cons, bne_self_eq_false, Bool.false_eq_true, if_false]
      omega
    · intro t ht hlit
      rcases List.suffix_cons_iff.mp ht with heq | hsuf
      · subst heq
        exact absurd rfl (hlit '*' (List.mem_cons_self _ _)).1
      · exact (ih.2 t hsuf hlit).trans (List.suffix_append _ _)
  | question c rest pattern h ih =>
    refine ⟨?_, ?_⟩
    · have := ih.1
      have hq : ('?' != '*') = true := by decide
      simp only [List.filter_cons, hq, if_true, List.length_cons]
      omega
    · intro t ht hlit
      rcases List.suffix_cons_iff.mp ht with heq | hsuf
      · subst heq
        exact absurd rfl (hlit '?' (List.mem_cons_self _ _)).2
      · exact (ih.2 t hsuf hlit).trans (List.suffix_cons _ _)
  | literal c rest pattern h1 h2 h ih =>
    refine ⟨?_, ?_⟩
    · have := ih.1
      have hq : (c != '*') = true := by simpa using h1
      simp only [List.filter_cons, hq, if_true, List.length_cons]
      omega
    · intro t ht hlit
      rcases List.suffix_cons_iff.mp ht with heq | hsuf
      · subst heq
        rw [wildcardMatches_literal rest pattern h
          (fun a ha => hlit a (List.mem_cons_of_mem _ ha))]
      · exact (ih.2 t hsuf hlit).trans (List.suffix_cons _ _)

end Glob

/-- C24: when `matches` accepts `s` for the pattern `p`, `s` has at least as
many characters as `p` has characters other than `*`, and every suffix of `p`
made of literal characters only (so lying after the last `*`) is a suffix of
`s`. For `*??blah`: an accepted name ends in `blah` and has at least two
characters before it. -/
theorem Glob.matches_length_suffix (s p : List Char) (h : Glob.matches s p = true) :
    (p.filter (fun c => c != '*')).length ≤ s.length ∧
    (∀ t : List Char, t <:+ p → (∀ c ∈ t, c ≠ '*' ∧ c ≠ '?') → t <:+ s) ∧
    (p = "*??blah".toList → "blah".toList <:+ s ∧ 4 + 2 ≤ s.length) := by
  have hw := Glob.wildcardMatches_length_suffix s p (Glob.matches_sound p s h)
  refine ⟨hw.1, hw.2, ?_⟩
  intro hp
  subst hp
  refine ⟨hw.2 "blah".toList ⟨"*??".toList, rfl⟩ (by decide), ?_⟩
  have := hw.1
  simpa using this

/-- C24 on `*??blah` and the name `myblah`, which `matches` accepts: the name
has at least 6 characters and ends in `blah`. -/
theorem Glob.matches_length_suffix_witness :
    Glob.matches "myblah".toList "*??blah".toList = true ∧
      ("*??blah".toList.filter (fun c => c != '*')).length ≤ "myblah".toList.length ∧
      "blah".toList <:+ "myblah".toList :=
  ⟨by decide,
   (Glob.matches_length_suffix "myblah".toList "*??blah".toList (by decide)).1,
   ((Glob.matches_length_suffix "myblah".toList "*??blah".toList (by decide)).2.2 rfl).1⟩

namespace SpecifyConditionVisitor

theorem reports_nil (v : SpecifyConditionVisitor) : reports [] v = (v, []) := by
  cases v
  simp [reports]

theorem reports_scope (found : List Diagnostic) (v : SpecifyConditionVisitor) :
    (reports found v).1.specifyParentScope = v.specifyParentScope := rfl

theorem reports_append (o1 o2 : List Diagnostic) (v : SpecifyConditionVisitor) :
    ((reports o2 (reports o1 v).1).1, (reports o1 v).2 ++ (reports o2 (reports o1 v).1).2) =
      reports (o1 ++ o2) v := by
  cases v with
  | mk scope hasError =>
    cases hasError <;> cases o1 <;> cases o2 <;> simp [reports]

theorem reportError_eq (v : SpecifyConditionVisitor) (sourceRange : SourceRange) :
    v.reportError sourceRange = reports [conditionExpr sourceRange] v := by
  cases v with
  | mk scope hasError =>
    cases hasError <;> simp [reportError, reports, conditionExpr]

mutual

/-- The traversal of an expression reports the first of its offences, unless
an error was reported earlier. -/
theorem visit_reports : ∀ (e : Expression) (v : SpecifyConditionVisitor),
    SpecifyConditionVisitor.visit e v = reports (offences v.specifyParentScope e) v
  | .Invalid _ _, v => by
    rw [SpecifyConditionVisitor.visit.eq_def]
    simp only [offences, reports_nil]
  | .IntegerLiteral _ _, v => by
    rw [SpecifyConditionVisitor.visit.eq_def]
    simp only [offences, reports_nil]
  | .RealLiteral _ _, v => by
    rw [SpecifyConditionVisitor.visit.eq_def]
    simp only [offences, reports_nil]
  | .NamedValue sym _ sourceRange, v => by
    rw [SpecifyConditionVisitor.visit.eq_def, offences]
    simp only []
    cases v with
    | mk scope hasError =>
      cases hasError <;> cases hk : (sym.kind == SymbolKind.Specparam) <;>
        cases hn : (sym.kind == SymbolKind.Net) <;>
        cases hv : (sym.kind == SymbolKind.Variable) <;>
        cases hs : (sym.parentScope.map Scope.addr == scope.map Scope.addr) <;>
        simp [allowedReference, reports, badReference, hk, hn, hv, hs, bne]
  | .UnaryOp op operand _ sourceRange, v => by
    rw [SpecifyConditionVisitor.visit.eq_def, offences]
    simp only []
    have h1 := visit_reports operand v
    simp only [h1]
    cases op <;>
      simp only [allowedUnary, if_true, if_false, Bool.false_eq_true, List.append_nil,
        reportError_eq, reports_scope] <;>
      first
        | rfl
        | exact reports_append _ _ v
  | .BinaryOp op left right _ sourceRange, v => by
    rw [SpecifyConditionVisitor.visit.eq_def, offences]
    simp only []
    have h1 := visit_reports left v
    have h2 := visit_reports right (reports (offences v.specifyParentScope left) v).1
    simp only [h1, h2, reports_scope]
    cases op <;>
      simp only [allowedBinary, if_true, if_false, Bool.false_eq_true, List.append_nil,
        reportError_eq, reports_scope] <;>
      first
        | exact reports_append _ _ v
        | (rw [← reports_append (offences v.specifyParentScope left ++
              offences v.specifyParentScope right) _ v,
            ← reports_append (offences v.specifyParentScope left) _ v])
  | .ConditionalOp pred left right _ _, v => by
    rw [SpecifyConditionVisitor.visit.eq_def, offences]
    simp only []
    have h1 := visit_reports pred v
    have h2 := visit_reports left (reports (offences v.specifyParentScope pred) v).1
    have h3 := visit_reports right
      (reports (offences v.specifyParentScope left)
        (reports (offences v.specifyParentScope pred) v).1).1
    simp only [h1, h2, h3, reports_scope]
    rw [← reports_append (offences v.specifyParentScope pred ++
          offences v.specifyParentScope left) _ v,
        ← reports_append (offences v.specifyParentScope pred) _ v]
  | .ElementSelect value selector _ _, v => by
    rw [SpecifyConditionVisitor.visit.eq_def, offences]
    simp only []
    have h1 := visit_reports value v
    have h2 := visit_reports selector (reports (offences v.specifyParentScope value) v).1
    simp only [h1, h2, reports_scope]
    exact reports_append _ _ v
  | .RangeSelect value left right _ _, v => by
    rw [SpecifyConditionVisitor.visit.eq_def, offences]
    simp only []
    have h1 := visit_reports value v
    have h2 := visit_reports left (reports (offences v.specifyParentScope value) v).1
    have h3 := visit_reports right
      (reports (offences v.specifyParentScope left)
        (reports (offences v.specifyParentScope value) v).1).1
    simp only [h1, h2, h3, reports_scope]
    rw [← reports_append (offences v.specifyParentScope value ++
          offences v.specifyParentScope left) _ v,
        ← reports_append (offences v.specifyParentScope value) _ v]
  | .Call arguments _ _, v => by
    rw [SpecifyConditionVisitor.visit.eq_def, offences]
    simp only []
    exact visitAll_reports arguments v
  | .Conversion isImplicit operand _ sourceRange, v => by
    rw [SpecifyConditionVisitor.visit.eq_def, offences]
    simp only []
    have h1 := visit_reports operand v
    simp only [h1]
    cases isImplicit <;>
      simp only [Bool.not_true, Bool.not_false, if_true, if_false, Bool.false_eq_true,
        List.append_nil, reportError_eq, reports_scope]
    exact reports_append _ _ v
  | .MinTypMax min typ max _ _, v => by
    rw [SpecifyConditionVisitor.visit.eq_def, offences]
    simp only []
    have h1 := visit_reports min v
    have h2 := visit_reports typ (reports (offences v.specifyParentScope min) v).1
    have h3 := visit_reports max
      (reports (offences v.specifyParentScope typ)
        (reports (offences v.specifyParentScope min) v).1).1
    simp only [h1, h2, h3, reports_scope]
    rw [← reports_append (offences v.specifyParentScope min ++
          offences v.specifyParentScope typ) _ v,
        ← reports_append (offences v.specifyParentScope min) _ v]
  | .Concatenation operands _ _, v => by
    rw [SpecifyConditionVisitor.visit.eq_def, offences]
    simp only []
    exact visitAll_reports operands v
  | .Replication count concat _ _, v => by
    rw [SpecifyConditionVisitor.visit.eq_def, offences]
    simp only []
    have h1 := visit_reports count v
    have h2 := visit_reports concat (reports (offences v.specifyParentScope count) v).1
    simp only [h1, h2, reports_scope]
    exact reports_append _ _ v
  | .Other _ _ _ sourceRange, v => by
    rw [SpecifyConditionVisitor.visit.eq_def]
    simp only [offences, reportError_eq]

theorem visitAll_reports : ∀ (es : List Expression) (v : SpecifyConditionVisitor),
    SpecifyConditionVisitor.visitAll es v = reports (offencesAll v.specifyParentScope es) v
  | [], v => by
    rw [SpecifyConditionVisitor.visitAll, offencesAll, reports_nil]
  | e :: rest, v => by
    rw [SpecifyConditionVisitor.visitAll, offencesAll]
    have h1 := visit_reports e v
    have h2 := visitAll_reports rest (reports (offences v.specifyParentScope e) v).1
    simp only [h1, h2, reports_scope]
    exact reports_append _ _ v

end

end SpecifyConditionVisitor

namespace SpecifyConditionVisitor

mutual

theorem offences_codes (scope : Option Scope) : ∀ (e : Expression) (d : Diagnostic),
    d ∈ offences scope e →
    d.code = DiagCode.SpecifyPathBadReference ∨ d.code = DiagCode.SpecifyPathConditionExpr
  | .Invalid _ _, d, h => by simp [offences] at h
  | .IntegerLiteral _ _, d, h => by simp [offences] at h
  | .RealLiteral _ _, d, h => by simp [offences] at h
  | .NamedValue sym _ sourceRange, d, h => by
    rw [offences] at h
    split at h
    · simp at h
    · simp only [List.mem_singleton] at h
      subst h
      exact Or.inl rfl
  | .UnaryOp op operand _ sourceRange, d, h => by
    rw [offences, List.mem_append] at h
    rcases h with h | h
    · exact offences_codes scope operand d h
    · split at h
      · simp at h
      · simp only [List.mem_singleton] at h
        subst h
        exact Or.inr rfl
  | .BinaryOp op left right _ sourceRange, d, h => by
    rw [offences, List.mem_append, List.mem_append] at h
    rcases h with (h | h) | h
    · exact offences_codes scope left d h
    · exact offences_codes scope right d h
    · split at h
      · simp at h
      · simp only [List.mem_singleton] at h
        subst h
        exact Or.inr rfl
  | .ConditionalOp pred left right _ _, d, h => by
    rw [offences, List.mem_append, List.mem_append] at h
    rcases h with (h | h) | h
    · exact offences_codes scope pred d h
    · exact offences_codes scope left d h
    · exact offences_codes scope right d h
  | .ElementSelect value selector _ _, d, h => by
    rw [offences, List.mem_append] at h
    rcases h with h | h
    · exact offences_codes scope value d h
    · exact offences_codes scope selector d h
  | .RangeSelect value left right _ _, d, h => by
    rw [offences, List.mem_append, List.mem_append] at h
    rcases h with (h | h) | h
    · exact offences_codes scope value d h
    · exact offences_codes scope left d h
    · exact offences_codes scope right d h
  | .Call arguments _ _, d, h => by
    rw [offences] at h
    exact offencesAll_codes scope arguments d h
  | .Conversion isImplicit operand _ sourceRange, d, h => by
    rw [offences, List.mem_append] at h
    rcases h with h | h
    · exact offences_codes scope operand d h
    · split at h
      · simp at h
      · simp only [List.mem_singleton] at h
        subst h
        exact Or.inr rfl
  | .MinTypMax min typ max _ _, d, h => by
    rw [offences, List.mem_append, List.mem_append] at h
    rcases h with (h | h) | h
    · exact offences_codes scope min d h
    · exact offences_codes scope typ d h
    · exact offences_codes scope max d h
  | .Concatenation operands _ _, d, h => by
    rw [offences] at h
    exact offencesAll_codes scope operands d h
  | .Replication count concat _ _, d, h => by
    rw [offences, List.mem_append] at h
    rcases h with h | h
    · exact offences_codes scope count d h
    · exact offences_codes scope concat d h
  | .Other _ _ _ sourceRange, d, h => by
    rw [offences, List.mem_singleton] at h
    subst h
    exact Or.inr rfl

theorem offencesAll_codes (scope : Option Scope) : ∀ (es : List Expression) (d : Diagnostic),
    d ∈ offencesAll scope es →
    d.code = DiagCode.SpecifyPathBadReference ∨ d.code = DiagCode.SpecifyPathConditionExpr
  | [], d, h => by simp [offencesAll] at h
  | e :: rest, d, h => by
    rw [offencesAll, List.mem_append] at h
    rcases h with h | h
    · exact offences_codes scope e d h
    · exact offencesAll_codes scope rest d h

end

mutual

/-- A condition has no offence exactly when it is built only from what is
allowed and from invalid nodes. -/
theorem offences_eq_nil (scope : Option Scope) : ∀ (e : Expression),
    offences scope e = [] ↔ allowedWith true scope e = true
  | .Invalid _ _ => by simp [offences, allowedWith]
  | .IntegerLiteral _ _ => by simp [offences, allowedWith]
  | .RealLiteral _ _ => by simp [offences, allowedWith]
  | .NamedValue sym _ sourceRange => by
    cases h : allowedReference scope sym <;> simp [offences, allowedWith, h]
  | .UnaryOp op operand _ sourceRange => by
    have h1 := offences_eq_nil scope operand
    cases h : allowedUnary op <;> simp [offences, allowedWith, h, h1]
  | .BinaryOp op left right _ sourceRange => by
    have h1 := offences_eq_nil scope left
    have h2 := offences_eq_nil scope right
    cases h : allowedBinary op <;> simp [offences, allowedWith, h, h1, h2]
  | .ConditionalOp pred left right _ _ => by
    have h1 := offences_eq_nil scope pred
    have h2 := offences_eq_nil scope left
    have h3 := offences_eq_nil scope right
    simp [offences, allowedWith, h1, h2, h3, and_assoc]
  | .ElementSelect value selector _ _ => by
    have h1 := offences_eq_nil scope value
    have h2 := offences_eq_nil scope selector
    simp [offences, allowedWith, h1, h2]
  | .RangeSelect value left right _ _ => by
    have h1 := offences_eq_nil scope value
    have h2 := offences_eq_nil scope left
    have h3 := offences_eq_nil scope right
    simp [offences, allowedWith, h1, h2, h3, and_assoc]
  | .Call arguments _ _ => by
    have h1 := offencesAll_eq_nil scope arguments
    simp [offences, allowedWith, h1]
  | .Conversion isImplicit operand _ sourceRange => by
    have h1 := offences_eq_nil scope operand
    cases isImplicit <;> simp [offences, allowedWith, h1]
  | .MinTypMax min typ max _ _ => by
    have h1 := offences_eq_nil scope min
    have h2 := offences_eq_nil scope typ
    have h3 := offences_eq_nil scope max
    simp [offences, allowedWith, h1, h2, h3, and_assoc]
  | .Concatenation operands _ _ => by
    have h1 := offencesAll_eq_nil scope operands
    simp [offences, allowedWith, h1]
  | .Replication count concat _ _ => by
    have h1 := offences_eq_nil scope count
    have h2 := offences_eq_nil scope concat
    simp [offences, allowedWith, h1, h2]
  | .Other _ _ _ sourceRange => by simp [offences, allowedWith]

theorem offencesAll_eq_nil (scope : Option Scope) : ∀ (es : List Expression),
    offencesAll scope es = [] ↔ allowedAllWith true scope es = true
  | [] => by simp [offencesAll, allowedAllWith]
  | e :: rest => by
    have h1 := offences_eq_nil scope e
    have h2 := offencesAll_eq_nil scope rest
    simp [offencesAll, allowedAllWith, h1, h2]

end

mutual

/-- What is allowed when invalid nodes do not pass is allowed when they do. -/
theorem allowedWith_invalid (scope : Option Scope) : ∀ (e : Expression),
    allowedWith false scope e = true → allowedWith true scope e = true
  | .Invalid _ _ => by simp [allowedWith]
  | .IntegerLiteral _ _ => by simp [allowedWith]
  | .RealLiteral _ _ => by simp [allowedWith]
  | .NamedValue sym _ sourceRange => by simp [allowedWith]
  | .UnaryOp op operand _ sourceRange => by
    have h1 := allowedWith_invalid scope operand
    simp only [allowedWith, Bool.and_eq_true]
    exact fun h => ⟨h1 h.1, h.2⟩
  | .BinaryOp op left right _ sourceRange => by
    have h1 := allowedWith_invalid scope left
    have h2 := allowedWith_invalid scope right
    simp only [allowedWith, Bool.and_eq_true]
    exact fun h => ⟨⟨h1 h.1.1, h2 h.1.2⟩, h.2⟩
  | .ConditionalOp pred left right _ _ => by
    have h1 := allowedWith_invalid scope pred
    have h2 := allowedWith_invalid scope left
    have h3 := allowedWith_invalid scope right
    simp only [allowedWith, Bool.and_eq_true]
    exact fun h => ⟨⟨h1 h.1.1, h2 h.1.2⟩, h3 h.2⟩
  | .ElementSelect value selector _ _ => by
    have h1 := allowedWith_invalid scope value
    have h2 := allowedWith_invalid scope selector
    simp only [allowedWith, Bool.and_eq_true]
    exact fun h => ⟨h1 h.1, h2 h.2⟩
  | .RangeSelect value left right _ _ => by
    have h1 := allowedWith_invalid scope value
    have h2 := allowedWith_invalid scope left
    have h3 := allowedWith_invalid scope right
    simp only [allowedWith, Bool.and_eq_true]
    exact fun h => ⟨⟨h1 h.1.1, h2 h.1.2⟩, h3 h.2⟩
  | .Call arguments _ _ => by
    have h1 := allowedAllWith_invalid scope arguments
    simp only [allowedWith]
    exact h1
  | .Conversion isImplicit operand _ sourceRange => by
    have h1 := allowedWith_invalid scope operand
    simp only [allowedWith, Bool.and_eq_true]
    exact fun h => ⟨h1 h.1, h.2⟩
  | .MinTypMax min typ max _ _ => by
    have h1 := allowedWith_invalid scope min
    have h2 := allowedWith_invalid scope typ
    have h3 := allowedWith_invalid scope max
    simp only [allowedWith, Bool.and_eq_true]
    exact fun h => ⟨⟨h1 h.1.1, h2 h.1.2⟩, h3 h.2⟩
  | .Concatenation operands _ _ => by
    have h1 := allowedAllWith_invalid scope operands
    simp only [allowedWith]
    exact h1
  | .Replication count concat _ _ => by
    have h1 := allowedWith_invalid scope count
    have h2 := allowedWith_invalid scope concat
    simp only [allowedWith, Bool.and_eq_true]
    exact fun h => ⟨h1 h.1, h2 h.2⟩
  | .Other _ _ _ sourceRange => by simp [allowedWith]

theorem allowedAllWith_invalid (scope : Option Scope) : ∀ (es : List Expression),
    allowedAllWith false scope es = true → allowedAllWith true scope es = true
  | [] => by simp [allowedAllWith]
  | e :: rest => by
    have h1 := allowedWith_invalid scope e
    have h2 := allowedAllWith_invalid scope rest
    simp only [allowedAllWith, Bool.and_eq_true]
    exact fun h => ⟨h1 h.1, h2 h.2⟩

end

theorem visit_fresh (scope : Option Scope) (e : Expression) :
    SpecifyConditionVisitor.visit e (fresh scope) =
      ({ specifyParentScope := scope, hasError := !(offences scope e).isEmpty },
       (offences scope e).take 1) := by
  rw [visit_reports]
  simp [reports, fresh]

end SpecifyConditionVisitor

/-- C30: one traversal of a condition by a fresh `SpecifyConditionVisitor`
adds either nothing or exactly one diagnostic, which is a
`SpecifyPathBadReference` or a `SpecifyPathConditionExpr`; `hasError` is true
afterwards exactly when a diagnostic was added; and a visitor whose `hasError`
is set adds nothing at any later node and stays as it is. -/
theorem SpecifyConditionVisitor.visit_single_diagnostic (scope : Option Scope)
    (e : Expression) :
    ((SpecifyConditionVisitor.visit e (SpecifyConditionVisitor.fresh scope)).2 = [] ∨
      ∃ d : Diagnostic,
        (SpecifyConditionVisitor.visit e (SpecifyConditionVisitor.fresh scope)).2 = [d] ∧
        (d.code = DiagCode.SpecifyPathBadReference ∨
          d.code = DiagCode.SpecifyPathConditionExpr)) ∧
    ((SpecifyConditionVisitor.visit e (SpecifyConditionVisitor.fresh scope)).1.hasError = true ↔
      (SpecifyConditionVisitor.visit e (SpecifyConditionVisitor.fresh scope)).2 ≠ []) ∧
    (∀ (later : Expression) (v : SpecifyConditionVisitor), v.hasError = true →
      SpecifyConditionVisitor.visit later v = (v, [])) := by
  rw [SpecifyConditionVisitor.visit_fresh]
  refine ⟨?_, ?_, ?_⟩
  · cases h : SpecifyConditionVisitor.offences scope e with
    | nil => exact Or.inl rfl
    | cons d rest =>
      refine Or.inr ⟨d, by simp, ?_⟩
      exact SpecifyConditionVisitor.offences_codes scope e d (by rw [h]; simp)
  · cases h : SpecifyConditionVisitor.offences scope e <;> simp
  · intro later v hv
    rw [SpecifyConditionVisitor.visit_reports]
    cases v with
    | mk s hasError =>
      simp only at hv
      subst hv
      simp [SpecifyConditionVisitor.reports]

/-- C30 on `g + clk`, which has two offences (the reference `g` and the
operator `+`): the traversal adds one diagnostic, for `g`, and sets
`hasError`; on `clk & (data == notif)` it adds nothing and leaves `hasError`
unset. -/
theorem SpecifyConditionVisitor.visit_single_diagnostic_witness :
    SpecifyConditionVisitor.visit Example.badCondition
        (SpecifyConditionVisitor.fresh (some Example.moduleBody)) =
      ({ specifyParentScope := some Example.moduleBody, hasError := true },
       [SpecifyConditionVisitor.badReference Example.unitVar { start := 4, stop := 5 }]) ∧
    ((SpecifyConditionVisitor.visit Example.badCondition
        (SpecifyConditionVisitor.fresh (some Example.moduleBody))).1.hasError = true ↔
      (SpecifyConditionVisitor.visit Example.badCondition
        (SpecifyConditionVisitor.fresh (some Example.moduleBody))).2 ≠ []) ∧
    SpecifyConditionVisitor.visit Example.condition
        { specifyParentScope := some Example.moduleBody, hasError := true } =
      ({ specifyParentScope := some Example.moduleBody, hasError := true }, []) :=
  ⟨rfl,
   (SpecifyConditionVisitor.visit_single_diagnostic (some Example.moduleBody)
      Example.badCondition).2.1,
   (SpecifyConditionVisitor.visit_single_diagnostic (some Example.moduleBody)
      Example.badCondition).2.2 Example.condition _ rfl⟩

/-- C26, as the claim states it, fails for a condition that holds an invalid
node, which is an expression kind outside the list of the claim: the
traversal passes over it and adds nothing, for the invalid node alone and for
the concatenation `{clk, ?}` that holds one. -/
theorem SpecifyConditionVisitor.visit_invalid_counterexample :
    SpecifyConditionVisitor.allowedWith false (some Example.moduleBody)
        (Expression.Invalid Example.errorTy { start := 10, stop := 11 }) = false ∧
      SpecifyConditionVisitor.visit
          (Expression.Invalid Example.errorTy { start := 10, stop := 11 })
          (SpecifyConditionVisitor.fresh (some Example.moduleBody)) =
        (SpecifyConditionVisitor.fresh (some Example.moduleBody), []) ∧
      SpecifyConditionVisitor.allowedWith false (some Example.moduleBody)
        Example.invalidCondition = false ∧
      SpecifyConditionVisitor.visit Example.invalidCondition
          (SpecifyConditionVisitor.fresh (some Example.moduleBody)) =
        (SpecifyConditionVisitor.fresh (some Example.moduleBody), []) :=
  ⟨rfl, rfl, rfl, rfl⟩

/-- C26, amended. A condition built only from integer and real literals,
specparam references, references to nets or variables declared directly in
the scope containing the specify block, implicit conversions, selects, calls,
min:typ:max, concatenation, replication, the conditional operator, the unary
operators `~`, `!` and the reduction operators, and the binary operators `&`,
`|`, `^`, `~^`, `==`, `!=`, `&&`, `||` gets no diagnostic. The traversal adds
nothing exactly for the conditions built from these and from invalid nodes,
which it passes over. Otherwise it adds the first offence in traversal order
(operands before their operator): `SpecifyPathConditionExpr` for any other
expression kind, for another unary or binary operator and for an explicit
conversion, `SpecifyPathBadReference` for a reference to any other symbol. -/
theorem SpecifyConditionVisitor.visit_allowed (scope : Option Scope) (e : Expression) :
    (SpecifyConditionVisitor.allowedWith false scope e = true →
      SpecifyConditionVisitor.visit e (SpecifyConditionVisitor.fresh scope) =
        (SpecifyConditionVisitor.fresh scope, [])) ∧
    ((SpecifyConditionVisitor.visit e (SpecifyConditionVisitor.fresh scope)).2 = [] ↔
      SpecifyConditionVisitor.allowedWith true scope e = true) ∧
    (SpecifyConditionVisitor.visit e (SpecifyConditionVisitor.fresh scope)).2 =
      (SpecifyConditionVisitor.offences scope e).take 1 := by
  rw [SpecifyConditionVisitor.visit_fresh]
  refine ⟨?_, ?_, rfl⟩
  · intro h
    have hnil := (SpecifyConditionVisitor.offences_eq_nil scope e).mpr
      (SpecifyConditionVisitor.allowedWith_invalid scope e h)
    rw [hnil]
    rfl
  · rw [← SpecifyConditionVisitor.offences_eq_nil scope e]
    cases SpecifyConditionVisitor.offences scope e <;> simp

/-- C26 amended, on `clk & (data == notif)`, which is allowed and gets no
diagnostic, and on `g + clk`, which gets the diagnostic of its first offence,
the reference to `g`. -/
theorem SpecifyConditionVisitor.visit_allowed_witness :
    SpecifyConditionVisitor.allowedWith false (some Example.moduleBody) Example.condition =
        true ∧
      SpecifyConditionVisitor.visit Example.condition
          (SpecifyConditionVisitor.fresh (some Example.moduleBody)) =
        (SpecifyConditionVisitor.fresh (some Example.moduleBody), []) ∧
      (SpecifyConditionVisitor.visit Example.badCondition
          (SpecifyConditionVisitor.fresh (some Example.moduleBody))).2 =
        [SpecifyConditionVisitor.badReference Example.unitVar { start := 4, stop := 5 }] :=
  ⟨rfl,
   (SpecifyConditionVisitor.visit_allowed (some Example.moduleBody) Example.condition).1 rfl,
   (SpecifyConditionVisitor.visit_allowed (some Example.moduleBody) Example.badCondition).2.2⟩

theorem checkPathTerminal_codes (terminal : ValueSymbol) (specifyParent : Option Scope)
    (isSource : Bool) (sourceRange : SourceRange) (b : Bool) (ds : List Diagnostic)
    (h : checkPathTerminal terminal specifyParent isSource sourceRange = .ok (b, ds)) :
    ∀ d ∈ ds, d.code ≠ DiagCode.ParallelPathWidth := by
  unfold checkPathTerminal at h
  simp only [] at h
  repeat' split at h
  all_goals first
    | (cases h; done)
    | (simp only [Except.ok.injEq, Prod.mk.injEq] at h
       obtain ⟨_, h2⟩ := h
       subst h2
       intro d hd
       first
         | (simp only [List.not_mem_nil] at hd)
         | (simp only [List.mem_singleton] at hd
            subst hd
            simp only [checkPathTerminal.reportErr]
            cases isSource <;> simp))

theorem bindTerminal_codes (E : Engine) (syn : ExpressionSyntax) (isSource : Bool)
    (parentParent : Option Scope) (context : ASTContext) (r : Option Expression)
    (ds : List Diagnostic)
    (hbind : ∀ (s : ExpressionSyntax) (ctx : ASTContext), ∀ d ∈ (E.bind s ctx).2,
      d.code ≠ DiagCode.ParallelPathWidth)
    (h : bindTerminal E syn isSource parentParent context = .ok (r, ds)) :
    ∀ d ∈ ds, d.code ≠ DiagCode.ParallelPathWidth := by
  unfold bindTerminal at h
  simp only [] at h
  split at h
  · simp only [Except.ok.injEq, Prod.mk.injEq] at h
    rw [← h.2]
    exact hbind syn context
  · split at h
    · rename_i symbol t sourceRange hsel
      cases hc : checkPathTerminal symbol parentParent isSource sourceRange with
      | error f => simp [hc] at h
      | ok p =>
        obtain ⟨b, ds1⟩ := p
        have hcodes := checkPathTerminal_codes symbol parentParent isSource sourceRange b ds1 hc
        cases b <;>
          simp only [hc, Except.ok.injEq, Prod.mk.injEq] at h <;>
          (rw [← h.2]
           intro d hd
           rcases List.mem_append.mp hd with hd | hd
           · exact hbind syn context d hd
           · exact hcodes d hd)
    · simp only [Except.ok.injEq, Prod.mk.injEq] at h
      rw [← h.2]
      intro d hd
      rcases List.mem_append.mp hd with hd | hd
      · exact hbind syn context d hd
      · simp only [List.mem_singleton] at hd
        subst hd
        simp only []
        split <;> simp

theorem bindTerminals_codes (E : Engine) (isSource : Bool) (parentParent : Option Scope)
    (context : ASTContext)
    (hbind : ∀ (s : ExpressionSyntax) (ctx : ASTContext), ∀ d ∈ (E.bind s ctx).2,
      d.code ≠ DiagCode.ParallelPathWidth) :
    ∀ (syntaxList : List ExpressionSyntax) (es : List Expression) (ds : List Diagnostic),
      bindTerminals E syntaxList isSource parentParent context = .ok (es, ds) →
      ∀ d ∈ ds, d.code ≠ DiagCode.ParallelPathWidth := by
  intro syntaxList
  induction syntaxList with
  | nil =>
    intro es ds h
    simp only [bindTerminals, Except.ok.injEq, Prod.mk.injEq] at h
    rw [← h.2]
    simp
  | cons s rest ih =>
    intro es ds h
    rw [bindTerminals] at h
    cases h1 : bindTerminal E s isSource parentParent context with
    | error f => simp [h1] at h
    | ok p1 =>
      obtain ⟨e1, ds1⟩ := p1
      cases h2 : bindTerminals E rest isSource parentParent context with
      | error f => simp [h1, h2] at h
      | ok p2 =>
        obtain ⟨es2, ds2⟩ := p2
        have hc1 := bindTerminal_codes E s isSource parentParent context e1 ds1 hbind h1
        have hc2 := ih es2 ds2 h2
        cases e1 <;>
          simp only [h1, h2, Except.ok.injEq, Prod.mk.injEq] at h <;>
          (rw [← h.2]
           intro d hd
           rcases List.mem_append.mp hd with hd | hd
           · exact hc1 d hd
           · exact hc2 d hd)

theorem TimingPathSymbol.bindDelays_codes (E : Engine) (context : ASTContext)
    (hbind : ∀ (s : ExpressionSyntax) (ctx : ASTContext), ∀ d ∈ (E.bind s ctx).2,
      d.code ≠ DiagCode.ParallelPathWidth)
    (heval : ∀ (ctx : ASTContext) (e : Expression), ∀ d ∈ E.eval ctx e,
      d.code ≠ DiagCode.ParallelPathWidth) :
    ∀ (delays : List ExpressionSyntax), ∀ d ∈ (TimingPathSymbol.bindDelays E context delays).2,
      d.code ≠ DiagCode.ParallelPathWidth := by
  intro delays
  rw [TimingPathSymbol.bindDelays_eq]
  intro d hd
  simp only [List.mem_flatMap, List.mem_append] at hd
  obtain ⟨s, _, hd | hd⟩ := hd
  · exact hbind s context d hd
  · split at hd
    · simp at hd
    · split at hd
      · simp only [List.mem_singleton] at hd
        subst hd
        simp
      · exact heval context _ d hd

theorem TimingPathSymbol.conditionDiagnostics_codes (E : Engine) (context : ASTContext)
    (parentParent : Option Scope) (syntaxPtr : TimingPathSyntax)
    (hbind : ∀ (s : ExpressionSyntax) (ctx : ASTContext), ∀ d ∈ (E.bind s ctx).2,
      d.code ≠ DiagCode.ParallelPathWidth)
    (hconv : ∀ (ctx : ASTContext) (e : Expression),
      ∀ d ∈ (E.requireBooleanConvertible ctx e).2, d.code ≠ DiagCode.ParallelPathWidth) :
    ∀ d ∈ TimingPathSymbol.conditionDiagnostics E context parentParent syntaxPtr,
      d.code ≠ DiagCode.ParallelPathWidth := by
  intro d hd
  cases syntaxPtr with
  | PathDeclaration path => simp [TimingPathSymbol.conditionDiagnostics] at hd
  | IfNonePathDeclaration path => simp [TimingPathSymbol.conditionDiagnostics] at hd
  | ConditionalPathDeclaration predicate path =>
    simp only [TimingPathSymbol.conditionDiagnostics, List.mem_append] at hd
    rcases hd with (hd | hd) | hd
    · exact hbind predicate context d hd
    · exact hconv context _ d hd
    · split at hd
      · have hfresh := SpecifyConditionVisitor.visit_fresh parentParent
          (E.bind predicate context).1
        simp only [SpecifyConditionVisitor.fresh] at hfresh
        rw [hfresh] at hd
        have hmem := List.mem_of_mem_take hd
        rcases SpecifyConditionVisitor.offences_codes parentParent _ d hmem with h | h <;>
          simp [h]
      · simp at hd

theorem TimingPathSymbol.checkParallelWidth_eq (connectionKind : ConnectionKind)
    (inputs outputs : List Expression) (pathOperator : Token) :
    (∀ d ∈ TimingPathSymbol.checkParallelWidth connectionKind inputs outputs pathOperator,
      d.code = DiagCode.ParallelPathWidth) ∧
    (TimingPathSymbol.checkParallelWidth connectionKind inputs outputs pathOperator).length ≤ 1 ∧
    (TimingPathSymbol.checkParallelWidth connectionKind inputs outputs pathOperator ≠ [] ↔
      connectionKind = ConnectionKind.Parallel ∧
        ∃ (i o : Expression), inputs = [i] ∧ outputs = [o] ∧
          i.type.bitWidth ≠ o.type.bitWidth) := by
  unfold TimingPathSymbol.checkParallelWidth
  cases connectionKind
  · simp
  · match inputs, outputs with
    | [], _ => simp
    | [i], [] => simp
    | [i], [o] =>
      by_cases hw : i.type.bitWidth = o.type.bitWidth <;> simp [hw]
    | [i], _ :: _ :: _ => simp
    | _ :: _ :: _, _ => simp

/-- The diagnostics of `TimingPathSymbol::resolve`, part by part: those of
the condition, of the input terminals, of the output terminals and the edge
source expression, of the parallel width check, and of the delays. -/
theorem TimingPathSymbol.resolve_diagnostics (E : Engine) (self : TimingPathSymbol)
    (syntaxPtr : TimingPathSyntax) (parent : Scope)
    (ins outs : List Expression) (dIn dOut : List Diagnostic)
    (hs : self.originatingSyntax = some syntaxPtr) (hp : self.parentScope = some parent)
    (hin : bindTerminals E syntaxPtr.path.desc.inputs true parent.getParentScope
      (resolveContext parent self.indexInScope) = .ok (ins, dIn))
    (hout : bindTerminals E syntaxPtr.path.desc.suffix.outputs false parent.getParentScope
      (resolveContext parent self.indexInScope) = .ok (outs, dOut)) :
    ∃ after : TimingPathSymbol,
      TimingPathSymbol.resolve E self =
        .ok (after,
          TimingPathSymbol.conditionDiagnostics E (resolveContext parent self.indexInScope)
              parent.getParentScope syntaxPtr ++ dIn ++
            (dOut ++ TimingPathSymbol.edgeSourceDiagnostics E
              (resolveContext parent self.indexInScope) syntaxPtr.path.desc.suffix) ++
            TimingPathSymbol.checkParallelWidth self.connectionKind ins outs
              syntaxPtr.path.desc.pathOperator ++
            (TimingPathSymbol.bindDelays E (resolveContext parent self.indexInScope)
              syntaxPtr.path.delays).2) ∧
      after.inputs = ins ∧ after.outputs = outs ∧ after.connectionKind = self.connectionKind := by
  cases syntaxPtr with
  | PathDeclaration path =>
    simp only [TimingPathSyntax.path] at hin hout ⊢
    cases hsuf : path.desc.suffix <;>
      simp only [hsuf, PathSuffixSyntax.outputs] at hout <;>
      simp only [TimingPathSymbol.resolve, hs, hp, hin, hout, hsuf,
        TimingPathSymbol.conditionDiagnostics, TimingPathSymbol.edgeSourceDiagnostics,
        List.append_nil, List.nil_append] <;>
      exact ⟨_, rfl, rfl, rfl, rfl⟩
  | IfNonePathDeclaration path =>
    simp only [TimingPathSyntax.path] at hin hout ⊢
    cases hsuf : path.desc.suffix <;>
      simp only [hsuf, PathSuffixSyntax.outputs] at hout <;>
      simp only [TimingPathSymbol.resolve, hs, hp, hin, hout, hsuf,
        TimingPathSymbol.conditionDiagnostics, TimingPathSymbol.edgeSourceDiagnostics,
        List.append_nil, List.nil_append] <;>
      exact ⟨_, rfl, rfl, rfl, rfl⟩
  | ConditionalPathDeclaration predicate path =>
    simp only [TimingPathSyntax.path] at hin hout ⊢
    cases hsuf : path.desc.suffix <;>
      simp only [hsuf, PathSuffixSyntax.outputs] at hout <;>
      simp only [TimingPathSymbol.resolve, hs, hp, hin, hout, hsuf,
        TimingPathSymbol.conditionDiagnostics, TimingPathSymbol.edgeSourceDiagnostics,
        List.append_nil, List.nil_append] <;>
      exact ⟨_, rfl, rfl, rfl, rfl⟩

theorem Example.snd_ite {α : Type} {c : Prop} [Decidable c] (a b : α × List Diagnostic)
    (P : List Diagnostic → Prop) (ha : P a.2) (hb : P b.2) : P (if c then a else b).2 := by
  by_cases h : c
  · rw [if_pos h]
    exact ha
  · rw [if_neg h]
    exact hb

theorem Example.engine_bind_codes (s : ExpressionSyntax) (ctx : ASTContext) :
    ∀ d ∈ (Example.engine.bind s ctx).2, d.code ≠ DiagCode.ParallelPathWidth := by
  have hcases : (Example.bind s ctx).2 = [] ∨
      (Example.bind s ctx).2 =
        [{ code := DiagCode.External 0, range := s.sourceRange, args := [], notes := [] }] := by
    unfold Example.bind
    iterate 11
      refine Example.snd_ite _ _
        (fun l => l = [] ∨ l = [{ code := DiagCode.External 0, range := s.sourceRange,
                                  args := [], notes := [] }])
        (Or.inl rfl) ?_
    exact Or.inr rfl
  intro d hd
  have hd2 : d ∈ (Example.bind s ctx).2 := hd
  rcases hcases with h | h
  · rw [h] at hd2
    exact absurd hd2 (List.not_mem_nil _)
  · rw [h, List.mem_singleton] at hd2
    rw [hd2]
    exact fun h => DiagCode.noConfusion h

theorem Example.engine_eval_codes (ctx : ASTContext) (e : Expression) :
    ∀ d ∈ Example.engine.eval ctx e, d.code ≠ DiagCode.ParallelPathWidth := by
  intro d hd
  simp [Example.engine] at hd

theorem Example.engine_convertible_codes (ctx : ASTContext) (e : Expression) :
    ∀ d ∈ (Example.engine.requireBooleanConvertible ctx e).2,
      d.code ≠ DiagCode.ParallelPathWidth := by
  have hcases : (Example.engine.requireBooleanConvertible ctx e).2 = [] ∨
      (Example.engine.requireBooleanConvertible ctx e).2 =
        [{ code := DiagCode.External 4, range := e.sourceRange, args := [], notes := [] }] := by
    simp only [Example.engine]
    iterate 2
      refine Example.snd_ite _ _
        (fun l => l = [] ∨ l = [{ code := DiagCode.External 4, range := e.sourceRange,
                                  args := [], notes := [] }])
        (Or.inl rfl) ?_
    exact Or.inr rfl
  intro d hd
  rcases hcases with h | h
  · rw [h] at hd
    exact absurd hd (List.not_mem_nil _)
  · rw [h, List.mem_singleton] at hd
    rw [hd]
    exact fun h => DiagCode.noConfusion h

/-- C23: for a timing path whose terminals bind without a fault, with a
binder and evaluator that do not themselves use the code `ParallelPathWidth`,
`TimingPathSymbol::resolve` returns, and its diagnostics contain a
`ParallelPathWidth` if and only if the connection kind is `Parallel`, exactly
one input terminal and exactly one output terminal were accepted, and the bit
widths of their types differ. A full connection, or zero or several accepted
terminals on a side, never gets it, and the diagnostics contain at most one. -/
theorem TimingPathSymbol.resolve_parallel_path_width (E : Engine) (self : TimingPathSymbol)
    (syntaxPtr : TimingPathSyntax) (parent : Scope)
    (ins outs : List Expression) (dIn dOut : List Diagnostic)
    (hs : self.originatingSyntax = some syntaxPtr) (hp : self.parentScope = some parent)
    (hin : bindTerminals E syntaxPtr.path.desc.inputs true parent.getParentScope
      (resolveContext parent self.indexInScope) = .ok (ins, dIn))
    (hout : bindTerminals E syntaxPtr.path.desc.suffix.outputs false parent.getParentScope
      (resolveContext parent self.indexInScope) = .ok (outs, dOut))
    (hbind : ∀ (s : ExpressionSyntax) (ctx : ASTContext), ∀ d ∈ (E.bind s ctx).2,
      d.code ≠ DiagCode.ParallelPathWidth)
    (heval : ∀ (ctx : ASTContext) (e : Expression), ∀ d ∈ E.eval ctx e,
      d.code ≠ DiagCode.ParallelPathWidth)
    (hconv : ∀ (ctx : ASTContext) (e : Expression),
      ∀ d ∈ (E.requireBooleanConvertible ctx e).2, d.code ≠ DiagCode.ParallelPathWidth) :
    ∃ (after : TimingPathSymbol) (ds : List Diagnostic),
      TimingPathSymbol.resolve E self = .ok (after, ds) ∧
      after.inputs = ins ∧ after.outputs = outs ∧
      ((∃ d ∈ ds, d.code = DiagCode.ParallelPathWidth) ↔
        self.connectionKind = ConnectionKind.Parallel ∧
          ∃ (i o : Expression), ins = [i] ∧ outs = [o] ∧
            i.type.bitWidth ≠ o.type.bitWidth) ∧
      (ds.filter (fun d => d.code == DiagCode.ParallelPathWidth)).length ≤ 1 := by
  obtain ⟨after, hres, hi, ho, _⟩ := TimingPathSymbol.resolve_diagnostics E self syntaxPtr
    parent ins outs dIn dOut hs hp hin hout
  have hA := TimingPathSymbol.conditionDiagnostics_codes E
    (resolveContext parent self.indexInScope) parent.getParentScope syntaxPtr hbind hconv
  have hB := bindTerminals_codes E true parent.getParentScope
    (resolveContext parent self.indexInScope) hbind _ _ _ hin
  have hC := bindTerminals_codes E false parent.getParentScope
    (resolveContext parent self.indexInScope) hbind _ _ _ hout
  have hE : ∀ d ∈ TimingPathSymbol.edgeSourceDiagnostics E
      (resolveContext parent self.indexInScope) syntaxPtr.path.desc.suffix,
      d.code ≠ DiagCode.ParallelPathWidth := by
    intro d hd
    cases hsuf : syntaxPtr.path.desc.suffix with
    | SimplePathSuffix outputs =>
      simp [hsuf, TimingPathSymbol.edgeSourceDiagnostics] at hd
    | EdgeSensitivePathSuffix outputs polarityOperator expr =>
      simp only [hsuf, TimingPathSymbol.edgeSourceDiagnostics] at hd
      exact hbind _ _ d hd
  have hD := TimingPathSymbol.bindDelays_codes E (resolveContext parent self.indexInScope)
    hbind heval syntaxPtr.path.delays
  obtain ⟨hW1, hW2, hW3⟩ := TimingPathSymbol.checkParallelWidth_eq self.connectionKind ins outs
    syntaxPtr.path.desc.pathOperator
  refine ⟨after, _, hres, hi, ho, ?_, ?_⟩
  · rw [← hW3]
    constructor
    · rintro ⟨d, hd, hcode⟩
      simp only [List.mem_append] at hd
      rcases hd with (((hd | hd) | (hd | hd)) | hd) | hd
      · exact absurd hcode (hA d hd)
      · exact absurd hcode (hB d hd)
      · exact absurd hcode (hC d hd)
      · exact absurd hcode (hE d hd)
      · exact List.ne_nil_of_mem hd
      · exact absurd hcode (hD d hd)
    · intro hne
      obtain ⟨d, hd⟩ := List.exists_mem_of_ne_nil _ hne
      exact ⟨d, by simp only [List.mem_append]; exact Or.inl (Or.inr hd), hW1 d hd⟩
  · have hclean : ∀ (l : List Diagnostic), (∀ d ∈ l, d.code ≠ DiagCode.ParallelPathWidth) →
        l.filter (fun d => d.code == DiagCode.ParallelPathWidth) = [] := by
      intro l hl
      rw [List.filter_eq_nil_iff]
      intro d hd
      simpa using hl d hd
    simp only [List.filter_append, hclean _ hA, hclean _ hB, hclean _ hC, hclean _ hE,
      hclean _ hD, List.nil_append, List.append_nil]
    exact Nat.le_trans (List.length_filter_le _ _) hW2

/-- C23 on `(bus => q) = 5;`, a parallel path from 32 bits to 1 bit, which
gets the diagnostic, and on `(bus *> q) = 5;`, a full path with the same
terminals, which does not. -/
theorem TimingPathSymbol.resolve_parallel_path_width_witness :
    (∃ (after : TimingPathSymbol) (ds : List Diagnostic),
      TimingPathSymbol.resolve Example.engine Example.widthMismatchPath = .ok (after, ds) ∧
      after.inputs = [Expression.NamedValue Example.bus Example.int32 { start := 1, stop := 4 }] ∧
      after.outputs = [Expression.NamedValue Example.q Example.logic1 { start := 8, stop := 9 }] ∧
      ((∃ d ∈ ds, d.code = DiagCode.ParallelPathWidth) ↔
        Example.widthMismatchPath.connectionKind = ConnectionKind.Parallel ∧
          ∃ (i o : Expression),
            [Expression.NamedValue Example.bus Example.int32 { start := 1, stop := 4 }] = [i] ∧
            [Expression.NamedValue Example.q Example.logic1 { start := 8, stop := 9 }] = [o] ∧
            i.type.bitWidth ≠ o.type.bitWidth) ∧
      (ds.filter (fun d => d.code == DiagCode.ParallelPathWidth)).length ≤ 1) ∧
    TimingPathSymbol.resolve Example.engine Example.widthMismatchPath =
      .ok ({ Example.widthMismatchPath with
             isResolved := true
             inputs := [Expression.NamedValue Example.bus Example.int32
                         { start := 1, stop := 4 }]
             outputs := [Expression.NamedValue Example.q Example.logic1
                          { start := 8, stop := 9 }]
             delays := [Expression.IntegerLiteral Example.int32 { start := 13, stop := 14 }] },
           [{ code := DiagCode.ParallelPathWidth, range := { start := 5, stop := 7 },
              args := [DiagArg.range { start := 1, stop := 4 },
                       DiagArg.range { start := 8, stop := 9 },
                       DiagArg.type Example.int32, DiagArg.type Example.logic1],
              notes := [] }]) ∧
    TimingPathSymbol.resolve Example.engine Example.fullPath =
      .ok ({ Example.fullPath with
             isResolved := true
             inputs := [Expression.NamedValue Example.bus Example.int32
                         { start := 1, stop := 4 }]
             outputs := [Expression.NamedValue Example.q Example.logic1
                          { start := 8, stop := 9 }]
             delays := [Expression.IntegerLiteral Example.int32 { start := 13, stop := 14 }] },
           []) :=
  ⟨TimingPathSymbol.resolve_parallel_path_width Example.engine Example.widthMismatchPath
      (TimingPathSyntax.PathDeclaration Example.widthMismatchPathSyntax) Example.specifyBlock
      [Expression.NamedValue Example.bus Example.int32 { start := 1, stop := 4 }]
      [Expression.NamedValue Example.q Example.logic1 { start := 8, stop := 9 }] [] []
      rfl rfl rfl rfl Example.engine_bind_codes Example.engine_eval_codes
      Example.engine_convertible_codes,
   rfl, rfl⟩

theorem SystemTimingCheckDefs.backReferencesOk_all :
    createTimingCheckDefs.all (fun p => p.2.backReferencesOk) = true := by
  decide

theorem SystemTimingCheckSymbol.resolveArg_delayedRef (E : Engine) (context : ASTContext)
    (parentParent : Option Scope) (d : SystemTimingCheckDef) (syn : SystemTimingCheckSyntax)
    (i : Nat) (formal : SystemTimingCheckArgDef) (actual : TimingCheckArgSyntax)
    (argBuf : List Arg) (hkind : formal.kind = ArgKind.DelayedRef)
    (hpos : 0 ≤ formal.signalRef) (hlt : formal.signalRef.toNat < argBuf.length) :
    ∃ r : Arg × List Diagnostic,
      SystemTimingCheckSymbol.resolveArg E context parentParent d syn i formal actual argBuf =
        .ok r := by
  have hneg : ¬ formal.signalRef < 0 := by omega
  obtain ⟨signalArg, hsig⟩ : ∃ a, argBuf[formal.signalRef.toNat]? = some a :=
    ⟨argBuf[formal.signalRef.toNat], List.getElem?_eq_getElem hlt⟩
  cases actual with
  | EmptyTimingCheckArg r =>
    simp only [SystemTimingCheckSymbol.resolveArg]
    split <;> exact ⟨_, rfl⟩
  | TimingCheckEventArg eventArg =>
    simp [SystemTimingCheckSymbol.resolveArg, hkind]
  | ExpressionTimingCheckArg exprSyntax r =>
    simp only [SystemTimingCheckSymbol.resolveArg, hkind, hneg, hsig]
    cases signalArg.expr <;> simp

/-- C22: in every schema of the timing-check table, a `DelayedRef` formal
argument at position `i` has a `signalRef` that is not negative, is smaller
than `i`, and is the position of an `Event` argument of the same schema. So
in the argument loop, where `argBuf` holds `i` entries when argument `i` is
handled, the iteration for such an argument always returns: the assertion
`signalRef >= 0` holds and `argBuf[signalRef]` is one of the entries already
pushed. -/
theorem SystemTimingCheckDefs.delayedRef_in_range (name : String) (d : SystemTimingCheckDef)
    (i : Nat) (formal : SystemTimingCheckArgDef)
    (hd : (name, d) ∈ createTimingCheckDefs) (hformal : d.args[i]? = some formal)
    (hkind : formal.kind = ArgKind.DelayedRef) :
    0 ≤ formal.signalRef ∧ formal.signalRef.toNat < i ∧
    (∃ ev : SystemTimingCheckArgDef,
      d.args[formal.signalRef.toNat]? = some ev ∧ ev.kind = ArgKind.Event) ∧
    (∀ (E : Engine) (context : ASTContext) (parentParent : Option Scope)
        (syn : SystemTimingCheckSyntax) (actual : TimingCheckArgSyntax) (argBuf : List Arg),
      argBuf.length = i →
      ∃ r : Arg × List Diagnostic,
        SystemTimingCheckSymbol.resolveArg E context parentParent d syn i formal actual
          argBuf = .ok r) := by
  have hall := SystemTimingCheckDefs.backReferencesOk_all
  rw [List.all_eq_true] at hall
  have hok := hall (name, d) hd
  simp only [SystemTimingCheckDef.backReferencesOk, List.all_eq_true] at hok
  have hthis := hok (i, formal) (List.mk_mem_enum_iff_getElem?.mpr hformal)
  simp only [hkind, bne_self_eq_false, Bool.false_or, Bool.and_eq_true, decide_eq_true_eq,
    beq_iff_eq, Option.map_eq_some'] at hthis
  obtain ⟨⟨h1, h2⟩, ev, h3, h4⟩ := hthis
  refine ⟨h1, h2, ⟨ev, h3, h4⟩, ?_⟩
  intro E context parentParent syn actual argBuf hlen
  exact SystemTimingCheckSymbol.resolveArg_delayedRef E context parentParent d syn i formal
    actual argBuf hkind h1 (by omega)

/-- C22 on `$setuphold` and `$recrem`: the `DelayedRef` arguments at
positions 7 and 8 refer to positions 0 and 1, no other schema has such an
argument, and the iteration for position 7 of `$setuphold` returns when seven
entries were pushed before. -/
theorem SystemTimingCheckDefs.delayedRef_in_range_witness :
    (SystemTimingCheckDefs.find "$setuphold").map
        (fun d => d.args.map SystemTimingCheckArgDef.signalRef) =
      some [-1, -1, -1, -1, -1, -1, -1, 0, 1] ∧
    (SystemTimingCheckDefs.find "$recrem").map
        (fun d => d.args.map SystemTimingCheckArgDef.signalRef) =
      some [-1, -1, -1, -1, -1, -1, -1, 0, 1] ∧
    (createTimingCheckDefs.filter (fun p =>
        p.2.args.any (fun a => a.kind == ArgKind.DelayedRef))).map Prod.fst =
      ["$setuphold", "$recrem"] ∧
    (0 : Int) ≤ 0 ∧ (0 : Int).toNat < 7 ∧
    (∃ ev : SystemTimingCheckArgDef,
      Example.setupHoldDef.args[(0 : Int).toNat]? = some ev ∧ ev.kind = ArgKind.Event) ∧
    (∃ r : Arg × List Diagnostic,
      SystemTimingCheckSymbol.resolveArg Example.engine
          (resolveContext Example.specifyBlock 0) (some Example.moduleBody)
          Example.setupHoldDef Example.setupFourArgs 7
          { kind := ArgKind.DelayedRef, requirePositive := false, signalRef := 0 }
          Example.delayedArg (List.replicate 7 Arg.empty) = .ok r) :=
  ⟨by decide, by decide, by decide,
   (SystemTimingCheckDefs.delayedRef_in_range "$setuphold" Example.setupHoldDef 7
     { kind := ArgKind.DelayedRef, requirePositive := false, signalRef := 0 }
     (by decide) (by decide) rfl).1,
   (SystemTimingCheckDefs.delayedRef_in_range "$setuphold" Example.setupHoldDef 7
     { kind := ArgKind.DelayedRef, requirePositive := false, signalRef := 0 }
     (by decide) (by decide) rfl).2.1,
   (SystemTimingCheckDefs.delayedRef_in_range "$setuphold" Example.setupHoldDef 7
     { kind := ArgKind.DelayedRef, requirePositive := false, signalRef := 0 }
     (by decide) (by decide) rfl).2.2.1,
   (SystemTimingCheckDefs.delayedRef_in_range "$setuphold" Example.setupHoldDef 7
     { kind := ArgKind.DelayedRef, requirePositive := false, signalRef := 0 }
     (by decide) (by decide) rfl).2.2.2 Example.engine
     (resolveContext Example.specifyBlock 0) (some Example.moduleBody) Example.setupFourArgs
     Example.delayedArg (List.replicate 7 Arg.empty) rfl⟩

/-- One iteration of the argument loop returns when the terminal of an
actual argument in an `Event` position binds and, for a `DelayedRef` formal,
the back-reference is within the entries pushed so far. -/
theorem SystemTimingCheckSymbol.resolveArg_returns (E : Engine) (context : ASTContext)
    (parentParent : Option Scope) (d : SystemTimingCheckDef) (syn : SystemTimingCheckSyntax)
    (i : Nat) (formal : SystemTimingCheckArgDef) (actual : TimingCheckArgSyntax)
    (argBuf : List Arg)
    (href : formal.kind = ArgKind.DelayedRef →
      0 ≤ formal.signalRef ∧ formal.signalRef.toNat < argBuf.length)
    (hterm : formal.kind = ArgKind.Event → actual.terminalBinds E parentParent context) :
    ∃ r : Arg × List Diagnostic,
      SystemTimingCheckSymbol.resolveArg E context parentParent d syn i formal actual argBuf =
        .ok r := by
  cases hk : formal.kind with
  | DelayedRef =>
    exact SystemTimingCheckSymbol.resolveArg_delayedRef E context parentParent d syn i formal
      actual argBuf hk (href hk).1 (href hk).2
  | Event =>
    cases actual with
    | EmptyTimingCheckArg r =>
      simp only [SystemTimingCheckSymbol.resolveArg]
      split <;> exact ⟨_, rfl⟩
    | ExpressionTimingCheckArg exprSyntax r =>
      obtain ⟨⟨e, ds⟩, hb⟩ := hterm hk
      cases e with
      | none =>
        simp [SystemTimingCheckSymbol.resolveArg, hk, hb, Arg.empty]
      | some e =>
        simp only [SystemTimingCheckSymbol.resolveArg, hk, hb, Arg.ofExpr]
        split
        · simp
        · simp
          split <;> exact ⟨_, _, rfl⟩
    | TimingCheckEventArg eventArg =>
      obtain ⟨e, ds, hb⟩ := hterm hk
      simp only [SystemTimingCheckSymbol.resolveArg, hk, hb]
      split
      · simp
      · simp
        split <;> exact ⟨_, _, rfl⟩
  | Limit =>
    cases actual with
    | EmptyTimingCheckArg r =>
      simp only [SystemTimingCheckSymbol.resolveArg]
      split <;> exact ⟨_, rfl⟩
    | ExpressionTimingCheckArg exprSyntax r => simp [SystemTimingCheckSymbol.resolveArg, hk]
    | TimingCheckEventArg eventArg => simp [SystemTimingCheckSymbol.resolveArg, hk]
  | EventFlag =>
    cases actual with
    | EmptyTimingCheckArg r =>
      simp only [SystemTimingCheckSymbol.resolveArg]
      split <;> exact ⟨_, rfl⟩
    | ExpressionTimingCheckArg exprSyntax r => simp [SystemTimingCheckSymbol.resolveArg, hk]
    | TimingCheckEventArg eventArg => simp [SystemTimingCheckSymbol.resolveArg, hk]
  | Condition =>
    cases actual with
    | EmptyTimingCheckArg r =>
      simp only [SystemTimingCheckSymbol.resolveArg]
      split <;> exact ⟨_, rfl⟩
    | ExpressionTimingCheckArg exprSyntax r => simp [SystemTimingCheckSymbol.resolveArg, hk]
    | TimingCheckEventArg eventArg => simp [SystemTimingCheckSymbol.resolveArg, hk]
  | RemainFlag =>
    cases actual with
    | EmptyTimingCheckArg r =>
      simp only [SystemTimingCheckSymbol.resolveArg]
      split <;> exact ⟨_, rfl⟩
    | ExpressionTimingCheckArg exprSyntax r => simp [SystemTimingCheckSymbol.resolveArg, hk]
    | TimingCheckEventArg eventArg => simp [SystemTimingCheckSymbol.resolveArg, hk]
  | Offset =>
    cases actual with
    | EmptyTimingCheckArg r =>
      simp only [SystemTimingCheckSymbol.resolveArg]
      split <;> exact ⟨_, rfl⟩
    | ExpressionTimingCheckArg exprSyntax r => simp [SystemTimingCheckSymbol.resolveArg, hk]
    | TimingCheckEventArg eventArg => simp [SystemTimingCheckSymbol.resolveArg, hk]
  | Notifier =>
    cases actual with
    | EmptyTimingCheckArg r =>
      simp only [SystemTimingCheckSymbol.resolveArg]
      split <;> exact ⟨_, rfl⟩
    | ExpressionTimingCheckArg exprSyntax r =>
      simp only [SystemTimingCheckSymbol.resolveArg, hk]
      split
      · simp
      · simp
        split <;> exact ⟨_, _, rfl⟩
    | TimingCheckEventArg eventArg => simp [SystemTimingCheckSymbol.resolveArg, hk]

/-- The argument loop returns, with one entry for each actual argument, when
the schema has back-references as in the table, there are formals for all
actual arguments, and every terminal binds: the only iteration that does not
come back is the event form with a rejected terminal. -/
theorem SystemTimingCheckSymbol.resolveArgs_returns (E : Engine) (context : ASTContext)
    (parentParent : Option Scope) (d : SystemTimingCheckDef) (syn : SystemTimingCheckSyntax)
    (hd : d.backReferencesOk = true) :
    ∀ (actuals : List TimingCheckArgSyntax) (i : Nat) (argBuf : List Arg),
      argBuf.length = i → i + actuals.length ≤ d.args.length →
      (∀ actual ∈ actuals, actual.terminalBinds E parentParent context) →
      ∃ (result : List Arg) (ds : List Diagnostic),
        SystemTimingCheckSymbol.resolveArgs E context parentParent d syn i actuals argBuf =
          .ok (result, ds) ∧
        result.length = i + actuals.length := by
  intro actuals
  induction actuals with
  | nil =>
    intro i argBuf hlen _ _
    exact ⟨argBuf, [], by simp [SystemTimingCheckSymbol.resolveArgs], by simpa using hlen⟩
  | cons actual rest ih =>
    intro i argBuf hlen hbound hterm
    simp only [List.length_cons] at hbound
    have hi : i < d.args.length := by omega
    have hformal : d.args[i]? = some d.args[i] := List.getElem?_eq_getElem hi
    have href : d.args[i].kind = ArgKind.DelayedRef →
        0 ≤ d.args[i].signalRef ∧ d.args[i].signalRef.toNat < argBuf.length := by
      intro hk
      simp only [SystemTimingCheckDef.backReferencesOk, List.all_eq_true] at hd
      have hthis := hd (i, d.args[i]) (List.mk_mem_enum_iff_getElem?.mpr hformal)
      simp only [hk, bne_self_eq_false, Bool.false_or, Bool.and_eq_true, decide_eq_true_eq]
        at hthis
      exact ⟨hthis.1.1, by omega⟩
    obtain ⟨⟨arg, ds1⟩, hstep⟩ := SystemTimingCheckSymbol.resolveArg_returns E context
      parentParent d syn i d.args[i] actual argBuf href
      (fun _ => hterm actual (List.mem_cons_self _ _))
    obtain ⟨result, ds2, hrest, hlen2⟩ := ih (i + 1) (argBuf ++ [arg]) (by simp [hlen])
      (by omega) (fun a ha => hterm a (List.mem_cons_of_mem _ ha))
    rw [SystemTimingCheckSymbol.resolveArgs_step E context parentParent d syn i d.args[i] actual
      rest argBuf arg ds1 hformal hstep, hrest]
    exact ⟨result, ds1 ++ ds2, rfl, by rw [hlen2]; simp; omega⟩

/-- C29, the code at the failing input. For the event-form argument
`posedge notif` in an `Event` position, `bindTerminal` rejects the terminal
(it returns null, with one diagnostic), and the iteration of the argument loop
then evaluates `*expr` on that null pointer. For the same terminal written as
a plain expression the iteration records an unbound argument. -/
theorem SystemTimingCheckSymbol.resolveArg_event_null :
    bindTerminal Example.engine (Example.name "notif" 15) true (some Example.moduleBody)
        (resolveContext Example.specifyBlock 0) = .ok (none, [Example.notifRejected]) ∧
      (SystemTimingCheckSymbol.resolveArg Example.engine (resolveContext Example.specifyBlock 0)
          (some Example.moduleBody) Example.setupDef Example.setupRejectedEvent 0
          { kind := ArgKind.Event } Example.posedgeNotif []).toOption.isNone = true ∧
      (match SystemTimingCheckSymbol.resolveArg Example.engine
          (resolveContext Example.specifyBlock 0) (some Example.moduleBody) Example.setupDef
          Example.setupRejectedEvent 0 { kind := ArgKind.Event } Example.posedgeNotif [] with
        | .error f => f = Fault.nullDereference
        | .ok _ => False) ∧
      (match SystemTimingCheckSymbol.resolveArg Example.engine
          (resolveContext Example.specifyBlock 0) (some Example.moduleBody) Example.setupDef
          Example.setupRejectedExpression 0 { kind := ArgKind.Event }
          (Example.exprArg (Example.name "notif" 15)) [] with
        | .error _ => False
        | .ok r => r.1.expr.isNone = true ∧ r.2 = [Example.notifRejected]) := by
  refine ⟨rfl, rfl, ?_, ?_⟩
  · exact rfl
  · exact ⟨rfl, rfl⟩

namespace NoOldAlwaysSyntax

theorem AssignmentLookup.visit_eq (body : List Visited) :
    ∀ (lookup : AssignmentLookup),
      lookup.visit body =
        { localVariables := lookup.localVariables ++ (declaredIn body).map some,
          assignments := lookup.assignments ++ assignmentsOf body } := by
  induction body with
  | nil =>
    intro lookup
    simp [AssignmentLookup.visit, declaredIn, assignmentsOf]
  | cons node rest ih =>
    intro lookup
    cases node with
    | assignment expr =>
      rw [AssignmentLookup.visit, ih]
      simp [AssignmentLookup.handleAssignment, declaredIn, assignmentsOf]
    | variableDecl stmt =>
      rw [AssignmentLookup.visit, ih]
      simp [AssignmentLookup.handleVariableDecl, declaredIn, assignmentsOf]

theorem AssignmentLookup.isNotLocal_eq (body : List Visited) (expr : AssignmentExpression) :
    AssignmentLookup.isNotLocal
        { localVariables := (declaredIn body).map some, assignments := assignmentsOf body }
        expr =
      targetsOutside body expr := by
  simp only [AssignmentLookup.isNotLocal, targetsOutside]
  cases h : expr.leftSymbol with
  | none => simp
  | some symbol =>
    congr 1
    rw [Bool.eq_iff_iff]
    simp

/-- The non local assignments of a body: its assignments, in visit order,
whose target is not a variable declared in the body. -/
theorem AssignmentLookup.nonLocalAssignments_eq (body : List Visited) :
    (AssignmentLookup.visit { localVariables := [], assignments := [] }
        body).nonLocalAssignments =
      (assignmentsOf body).filter (targetsOutside body) := by
  rw [AssignmentLookup.visit_eq]
  simp only [List.nil_append, AssignmentLookup.nonLocalAssignments]
  congr 1
  funext expr
  exact AssignmentLookup.isNotLocal_eq body expr

end NoOldAlwaysSyntax

/-- C25: `MainVisitor::handle` adds the `NoOldAlwaysSyntax` diagnostic for a
procedural block if and only if the block is not skipped, is not from an
assertion, is a plain `always` block, and the traversal of its body meets at
least one assignment whose target symbol is not a variable declared inside
that body; otherwise it adds nothing. `nonLocalAssignments` returns exactly
those assignments, in visit order, and an `always` block that assigns only to
its own local variables is not reported. -/
theorem NoOldAlwaysSyntax.MainVisitor.handle_reports
    (skip : NoOldAlwaysSyntax.ProceduralBlockSymbol → Bool)
    (diags : List NoOldAlwaysSyntax.TidyDiagnostic)
    (symbol : NoOldAlwaysSyntax.ProceduralBlockSymbol) :
    (NoOldAlwaysSyntax.MainVisitor.handle skip diags symbol =
        diags ++ [{ location := symbol.location }] ↔
      skip symbol = false ∧ symbol.isFromAssertion = false ∧
        symbol.procedureKind = NoOldAlwaysSyntax.ProceduralBlockKind.Always ∧
        ∃ expr ∈ NoOldAlwaysSyntax.assignmentsOf symbol.body,
          NoOldAlwaysSyntax.targetsOutside symbol.body expr = true) ∧
    (NoOldAlwaysSyntax.MainVisitor.handle skip diags symbol = diags ∨
      NoOldAlwaysSyntax.MainVisitor.handle skip diags symbol =
        diags ++ [{ location := symbol.location }]) ∧
    (NoOldAlwaysSyntax.AssignmentLookup.visit { localVariables := [], assignments := [] }
        symbol.body).nonLocalAssignments =
      (NoOldAlwaysSyntax.assignmentsOf symbol.body).filter
        (NoOldAlwaysSyntax.targetsOutside symbol.body) ∧
    ((∀ expr ∈ NoOldAlwaysSyntax.assignmentsOf symbol.body,
        NoOldAlwaysSyntax.targetsOutside symbol.body expr = false) →
      NoOldAlwaysSyntax.MainVisitor.handle skip diags symbol = diags) := by
  have hne : diags ≠ diags ++ [({ location := symbol.location } :
      NoOldAlwaysSyntax.TidyDiagnostic)] := by
    intro h
    have := congrArg List.length h
    simp at this
  have hfilter := NoOldAlwaysSyntax.AssignmentLookup.nonLocalAssignments_eq symbol.body
  have hempty : ((NoOldAlwaysSyntax.assignmentsOf symbol.body).filter
      (NoOldAlwaysSyntax.targetsOutside symbol.body)).isEmpty = false ↔
      ∃ expr ∈ NoOldAlwaysSyntax.assignmentsOf symbol.body,
        NoOldAlwaysSyntax.targetsOutside symbol.body expr = true := by
    rw [Bool.eq_false_iff, ne_eq, List.isEmpty_iff, List.filter_eq_nil_iff]
    simp
  unfold NoOldAlwaysSyntax.MainVisitor.handle
  simp only [hfilter]
  cases hskip : skip symbol
  · cases hassert : symbol.isFromAssertion
    · by_cases hkind : symbol.procedureKind = NoOldAlwaysSyntax.ProceduralBlockKind.Always
      · cases hnl : ((NoOldAlwaysSyntax.assignmentsOf symbol.body).filter
            (NoOldAlwaysSyntax.targetsOutside symbol.body)).isEmpty
        · have hex := hempty.mp hnl
          refine ⟨by simp [hkind, hnl, hex], by simp [hkind, hnl], trivial, ?_⟩
          intro hall
          obtain ⟨expr, hmem, hout⟩ := hex
          rw [hall expr hmem] at hout
          cases hout
        · have hnex : ¬ ∃ expr ∈ NoOldAlwaysSyntax.assignmentsOf symbol.body,
              NoOldAlwaysSyntax.targetsOutside symbol.body expr = true := by
            intro hex
            rw [← hempty, hnl] at hex
            cases hex
          refine ⟨?_, by simp [hkind, hnl], trivial, by simp [hkind, hnl]⟩
          simp only [hkind, hnl, beq_self_eq_true, if_true, Bool.not_true, Bool.false_eq_true,
            if_false, true_and]
          exact ⟨fun h => absurd h hne, fun h => absurd h hnex⟩
      · refine ⟨?_, by simp [hkind], trivial, by simp [hkind]⟩
        simp only [hkind, beq_iff_eq, if_false, Bool.false_eq_true, false_and, and_false]
        exact ⟨fun h => absurd h hne, fun h => h.elim⟩
    · refine ⟨?_, by simp, trivial, by simp⟩
      simp only [if_true, Bool.false_eq_true, if_false, Bool.true_eq_false, false_and, and_false]
      exact ⟨fun h => absurd h hne, fun h => h.elim⟩
  · refine ⟨?_, by simp, trivial, by simp⟩
    simp only [if_true, Bool.true_eq_false, false_and]
    exact ⟨fun h => absurd h hne, fun h => h.elim⟩

/-- C25 on `always begin int i; i = 1; q = i; end`, which is reported because
of the assignment to `q`, and on an `always` block that assigns only to its
own variable `i`, which is not. -/
theorem NoOldAlwaysSyntax.MainVisitor.handle_reports_witness :
    NoOldAlwaysSyntax.MainVisitor.handle Example.skipNothing [] Example.alwaysBlock =
        [{ location := 40 }] ∧
      (NoOldAlwaysSyntax.AssignmentLookup.visit { localVariables := [], assignments := [] }
          Example.alwaysBody).nonLocalAssignments =
        [{ addr := 101, leftSymbol := some 9 }] ∧
      NoOldAlwaysSyntax.MainVisitor.handle Example.skipNothing [] Example.localOnlyBlock =
        [] :=
  ⟨(NoOldAlwaysSyntax.MainVisitor.handle_reports Example.skipNothing []
      Example.alwaysBlock).1.mpr
      ⟨rfl, rfl, rfl, { addr := 101, leftSymbol := some 9 }, by decide, by decide⟩,
   (NoOldAlwaysSyntax.MainVisitor.handle_reports Example.skipNothing []
      Example.alwaysBlock).2.2.1,
   (NoOldAlwaysSyntax.MainVisitor.handle_reports Example.skipNothing []
      Example.localOnlyBlock).2.2.2 (by decide)⟩

/-- C14: the lifecycle only moves from unresolved to resolved. `resolve` of a
`TimingPathSymbol`, a `PulseStyleSymbol` or a `SystemTimingCheckSymbol`
returns on each of its exit paths, and `isResolved` is true in the symbol it
leaves, whatever the flag was before the call (so no call sets it back to
false): for a timing path and a pulse style whose terminals bind without a
failed assertion; for a timing check without schema (unknown name), with too
few arguments, with too many arguments, and with an argument loop that runs
to its end. -/
theorem resolve_lifecycle (E : Engine) :
    (∀ (self after : TimingPathSymbol) (ds : List Diagnostic),
      TimingPathSymbol.resolve E self = .ok (after, ds) → after.isResolved = true) ∧
    (∀ (self after : PulseStyleSymbol) (ds : List Diagnostic),
      PulseStyleSymbol.resolve E self = .ok (after, ds) → after.isResolved = true) ∧
    (∀ (self after : SystemTimingCheckSymbol) (ds : List Diagnostic),
      SystemTimingCheckSymbol.resolve E self = .ok (after, ds) → after.isResolved = true) ∧
    (∀ self : SystemTimingCheckSymbol, self.defn = none →
      SystemTimingCheckSymbol.resolve E self = .ok ({ self with isResolved := true }, []) ∧
        ({ self with isResolved := true } : SystemTimingCheckSymbol).isResolved = true) ∧
    (∀ (self : SystemTimingCheckSymbol) (d : SystemTimingCheckDef)
        (syn : SystemTimingCheckSyntax) (parent : Scope),
      self.defn = some d → self.originatingSyntax = some syn → self.parentScope = some parent →
      (syn.args.length < d.minArgs ∨ d.args.length < syn.args.length) →
      ∃ ds : List Diagnostic,
        SystemTimingCheckSymbol.resolve E self = .ok ({ self with isResolved := true }, ds) ∧
          ({ self with isResolved := true } : SystemTimingCheckSymbol).isResolved = true) ∧
    (∀ (self : TimingPathSymbol) (syntaxPtr : TimingPathSyntax) (parent : Scope)
        (ins outs : List Expression) (dIn dOut : List Diagnostic),
      self.originatingSyntax = some syntaxPtr → self.parentScope = some parent →
      bindTerminals E syntaxPtr.path.desc.inputs true parent.getParentScope
        (resolveContext parent self.indexInScope) = .ok (ins, dIn) →
      bindTerminals E syntaxPtr.path.desc.suffix.outputs false parent.getParentScope
        (resolveContext parent self.indexInScope) = .ok (outs, dOut) →
      ∃ (after : TimingPathSymbol) (ds : List Diagnostic),
        TimingPathSymbol.resolve E self = .ok (after, ds) ∧ after.isResolved = true) ∧
    (∀ (self : PulseStyleSymbol) (syn : PulseStyleDeclarationSyntax) (parent : Scope)
        (terminals : List Expression) (ds : List Diagnostic),
      self.originatingSyntax = some syn → self.parentScope = some parent →
      bindTerminals E syn.inputs false parent.getParentScope
        (resolveContext parent self.indexInScope) = .ok (terminals, ds) →
      PulseStyleSymbol.resolve E self =
        .ok ({ self with isResolved := true, terminals := terminals }, ds)) ∧
    (∀ (self : SystemTimingCheckSymbol) (d : SystemTimingCheckDef)
        (syn : SystemTimingCheckSyntax) (parent : Scope) (argBuf : List Arg)
        (ds : List Diagnostic),
      self.defn = some d → self.originatingSyntax = some syn → self.parentScope = some parent →
      d.minArgs ≤ syn.args.length → syn.args.length ≤ d.args.length →
      SystemTimingCheckSymbol.resolveArgs E (resolveContext parent self.indexInScope)
        parent.getParentScope d syn 0 syn.args [] = .ok (argBuf, ds) →
      SystemTimingCheckSymbol.resolve E self =
        .ok ({ self with isResolved := true, args := argBuf }, ds)) := by
  refine ⟨TimingPathSymbol.resolve_path_isResolved E, PulseStyleSymbol.resolve_style_isResolved E,
    SystemTimingCheckSymbol.resolve_check_isResolved E, ?_, ?_, ?_, ?_, ?_⟩
  · intro self hd
    exact ⟨by simp [SystemTimingCheckSymbol.resolve, hd], rfl⟩
  · intro self d syn parent hd hs hp hcount
    by_cases hfew : syn.args.length < d.minArgs
    · exact ⟨_, SystemTimingCheckSymbol.resolve_of_too_few E self d syn parent hd hs hp hfew,
        rfl⟩
    · rcases hcount with h | h
      · exact absurd h hfew
      · exact ⟨_, SystemTimingCheckSymbol.resolve_of_too_many E self d syn parent hd hs hp
          (by omega) h, rfl⟩
  · intro self syntaxPtr parent ins outs dIn dOut hs hp hin hout
    obtain ⟨after, hres, _⟩ := TimingPathSymbol.resolve_diagnostics E self syntaxPtr parent ins
      outs dIn dOut hs hp hin hout
    exact ⟨after, _, hres, TimingPathSymbol.resolve_path_isResolved E self after _ hres⟩
  · intro self syn parent terminals ds hs hp hb
    simp [PulseStyleSymbol.resolve, hs, hp, hb]
  · intro self d syn parent argBuf ds hd hs hp hmin hmax hloop
    have h1 : ¬ syn.args.length < d.minArgs := by omega
    have h2 : ¬ syn.args.length > d.args.length := by omega
    simp [SystemTimingCheckSymbol.resolve, hd, hs, hp, h1, h2, hloop]

/-- C14, run on symbols of the example design that are not resolved yet: the
timing path `(notif => q) = 5;`, the pulse style `pulsestyle_onevent q;` and
the timing checks `$settle(posedge clk, data)` (unknown name) and
`$setup(posedge clk, data)` (too few arguments). Each `resolve` returns and
leaves the flag set; a second `resolve` of the resolved path leaves it set. -/
theorem resolve_lifecycle_witness :
    Example.variableSourcePath.isResolved = false ∧
      TimingPathSymbol.resolve Example.engine Example.variableSourcePath =
        .ok (Example.variableSourcePathResolved, [Example.notifAsSource]) ∧
      Example.variableSourcePathResolved.isResolved = true ∧
      (∃ (after : TimingPathSymbol) (ds : List Diagnostic),
        TimingPathSymbol.resolve Example.engine Example.variableSourcePath = .ok (after, ds) ∧
          after.isResolved = true) ∧
      Example.pulseStyle.isResolved = false ∧
      PulseStyleSymbol.resolve Example.engine Example.pulseStyle =
        .ok ({ Example.pulseStyle with
               isResolved := true,
               terminals := [Expression.NamedValue Example.q Example.logic1
                               { start := 19, stop := 20 }] }, []) ∧
      (SystemTimingCheckSymbol.create Example.unknownCheck Example.specifyBlock 0).isResolved =
        false ∧
      SystemTimingCheckSymbol.resolve Example.engine
          (SystemTimingCheckSymbol.create Example.unknownCheck Example.specifyBlock 0) =
        .ok ({ SystemTimingCheckSymbol.create Example.unknownCheck Example.specifyBlock 0 with
               isResolved := true }, []) ∧
      (∃ ds : List Diagnostic,
        SystemTimingCheckSymbol.resolve Example.engine
            (SystemTimingCheckSymbol.create Example.setupTwoArgs Example.specifyBlock 0) =
          .ok ({ SystemTimingCheckSymbol.create Example.setupTwoArgs Example.specifyBlock 0 with
                 isResolved := true }, ds) ∧
          ({ SystemTimingCheckSymbol.create Example.setupTwoArgs Example.specifyBlock 0 with
             isResolved := true } : SystemTimingCheckSymbol).isResolved = true) ∧
      TimingPathSymbol.resolve Example.engine Example.variableSourcePathResolved =
        .ok (Example.variableSourcePathResolved, [Example.notifAsSource]) :=
  ⟨rfl, rfl,
   (resolve_lifecycle Example.engine).1 Example.variableSourcePath
     Example.variableSourcePathResolved [Example.notifAsSource] rfl,
   (resolve_lifecycle Example.engine).2.2.2.2.2.1 Example.variableSourcePath
     (TimingPathSyntax.PathDeclaration Example.variableSourcePathSyntax) Example.specifyBlock
     [] [Expression.NamedValue Example.q Example.logic1 { start := 10, stop := 11 }]
     [Example.notifAsSource] [] rfl rfl rfl rfl,
   rfl,
   (resolve_lifecycle Example.engine).2.2.2.2.2.2.1 Example.pulseStyle
     { keyword := Example.token TokenKind.Unknown "pulsestyle_onevent" 0,
       inputs := [Example.name "q" 19], firstTokenLocation := 0 }
     Example.specifyBlock
     [Expression.NamedValue Example.q Example.logic1 { start := 19, stop := 20 }] []
     rfl rfl rfl,
   rfl,
   ((resolve_lifecycle Example.engine).2.2.2.1
     (SystemTimingCheckSymbol.create Example.unknownCheck Example.specifyBlock 0) rfl).1,
   (resolve_lifecycle Example.engine).2.2.2.2.1
     (SystemTimingCheckSymbol.create Example.setupTwoArgs Example.specifyBlock 0)
     Example.setupDef Example.setupTwoArgs Example.specifyBlock (by decide) rfl rfl
     (Or.inl (by decide)),
   rfl⟩

/-- C4: resolving the same timing path twice is idempotent. For a path whose
terminals bind without a failed assertion the first request for its content
returns, and leaves the symbol resolved; a second request on the symbol it
left performs no binding work (its result is the same for every binder and
evaluator), adds no diagnostic, and leaves the whole symbol, so in particular
inputs, outputs, delays, condition and edge source, exactly as the first one
left it. -/
theorem TimingPathSymbol.ensureResolved_twice (E : Engine) (self : TimingPathSymbol)
    (syntaxPtr : TimingPathSyntax) (parent : Scope)
    (ins outs : List Expression) (dIn dOut : List Diagnostic)
    (hs : self.originatingSyntax = some syntaxPtr) (hp : self.parentScope = some parent)
    (hin : bindTerminals E syntaxPtr.path.desc.inputs true parent.getParentScope
      (resolveContext parent self.indexInScope) = .ok (ins, dIn))
    (hout : bindTerminals E syntaxPtr.path.desc.suffix.outputs false parent.getParentScope
      (resolveContext parent self.indexInScope) = .ok (outs, dOut)) :
    (TimingPathSymbol.ensureResolved E self).isOk = true ∧
    ∀ (after : TimingPathSymbol) (ds : List Diagnostic),
      TimingPathSymbol.ensureResolved E self = .ok (after, ds) →
      after.isResolved = true ∧
      (self.isResolved = false → TimingPathSymbol.resolve E self = .ok (after, ds)) ∧
      ∀ E2 : Engine, TimingPathSymbol.ensureResolved E2 after = .ok (after, []) := by
  have key : ∀ (after : TimingPathSymbol) (ds : List Diagnostic),
      TimingPathSymbol.ensureResolved E self = .ok (after, ds) → after.isResolved = true := by
    intro after ds h
    unfold TimingPathSymbol.ensureResolved at h
    by_cases hr : self.isResolved = true
    · simp only [hr, if_true, Except.ok.injEq, Prod.mk.injEq] at h
      rw [← h.1]
      exact hr
    · simp only [hr, if_false, Bool.false_eq_true] at h
      exact TimingPathSymbol.resolve_path_isResolved E self after ds h
  refine ⟨?_, ?_⟩
  · unfold TimingPathSymbol.ensureResolved
    by_cases hr : self.isResolved = true
    · simp [hr, Except.isOk, Except.toBool]
    · obtain ⟨after, hres, _⟩ := TimingPathSymbol.resolve_diagnostics E self syntaxPtr parent
        ins outs dIn dOut hs hp hin hout
      simp [hr, hres, Except.isOk, Except.toBool]
  · intro after ds h
    refine ⟨key after ds h, ?_, ?_⟩
    · intro hr
      unfold TimingPathSymbol.ensureResolved at h
      simpa [hr] using h
    · intro E2
      unfold TimingPathSymbol.ensureResolved
      simp [key after ds h]

/-- C4 on `(notif => q) = 5;`: the first request resolves the path and adds
one diagnostic; the second request on the resolved path adds nothing and
leaves it as it is. -/
theorem TimingPathSymbol.ensureResolved_twice_witness :
    Example.variableSourcePath.isResolved = false ∧
      TimingPathSymbol.ensureResolved Example.engine Example.variableSourcePath =
        .ok (Example.variableSourcePathResolved, [Example.notifAsSource]) ∧
      Example.variableSourcePathResolved.isResolved = true ∧
      TimingPathSymbol.ensureResolved Example.engine Example.variableSourcePathResolved =
        .ok (Example.variableSourcePathResolved, []) :=
  ⟨rfl, rfl,
   ((TimingPathSymbol.ensureResolved_twice Example.engine Example.variableSourcePath
      (TimingPathSyntax.PathDeclaration Example.variableSourcePathSyntax) Example.specifyBlock
      [] [Expression.NamedValue Example.q Example.logic1 { start := 10, stop := 11 }]
      [Example.notifAsSource] [] rfl rfl rfl rfl).2 Example.variableSourcePathResolved
      [Example.notifAsSource] rfl).1,
   ((TimingPathSymbol.ensureResolved_twice Example.engine Example.variableSourcePath
      (TimingPathSyntax.PathDeclaration Example.variableSourcePathSyntax) Example.specifyBlock
      [] [Expression.NamedValue Example.q Example.logic1 { start := 10, stop := 11 }]
      [Example.notifAsSource] [] rfl rfl rfl rfl).2 Example.variableSourcePathResolved
      [Example.notifAsSource] rfl).2.2 Example.engine⟩

/-- C12, as the claim states it, fails on
`$setup(posedge clk, data, 5, posedge notif)`: the argument in the `Notifier`
position is not empty and is not a simple identifier name, yet it gets no
`InvalidTimingCheckNotifierArg`. An argument written in event form in a
position that is not an `Event` is turned away before the kinds are looked at,
with one `TimingCheckEventNotAllowed`. -/
theorem SystemTimingCheckSymbol.resolve_notifier_counterexample :
    Example.setupDef.args[3]? = some { kind := ArgKind.Notifier } ∧
      Example.setupEventNotifier.args[3]? = some Example.notifierEvent ∧
      SystemTimingCheckSymbol.resolveArg Example.engine (resolveContext Example.specifyBlock 0)
          Example.specifyBlock.getParentScope Example.setupDef Example.setupEventNotifier 3
          { kind := ArgKind.Notifier } Example.notifierEvent [] =
        .ok (Arg.empty,
             [{ code := DiagCode.TimingCheckEventNotAllowed,
                range := { start := 29, stop := 42 }, args := [], notes := [] }]) ∧
      SystemTimingCheckSymbol.resolve Example.engine
          (SystemTimingCheckSymbol.create Example.setupEventNotifier Example.specifyBlock 0) =
        .ok ({ SystemTimingCheckSymbol.create Example.setupEventNotifier
                 Example.specifyBlock 0 with
               isResolved := true,
               args := [Example.posedgeClkArg,
                        Arg.ofExpr (Expression.NamedValue Example.data Example.logic1
                          { start := 20, stop := 24 }),
                        Arg.ofExpr (Expression.IntegerLiteral Example.int32
                          { start := 26, stop := 27 }),
                        Arg.empty] },
             [{ code := DiagCode.TimingCheckEventNotAllowed,
                range := { start := 29, stop := 42 }, args := [], notes := [] }]) :=
  ⟨rfl, rfl, rfl, rfl⟩

theorem SystemTimingCheckSymbol.resolveArgs_eq_argumentLoop (E : Engine)
    (context : ASTContext) (parentParent : Option Scope) (d : SystemTimingCheckDef)
    (syn : SystemTimingCheckSyntax) (actuals : List TimingCheckArgSyntax) :
    ∀ (i : Nat) (argBuf : List Arg),
      SystemTimingCheckSymbol.resolveArgs E context parentParent d syn i actuals argBuf =
        SystemTimingCheckSymbol.argumentLoop
          (SystemTimingCheckSymbol.resolveArg E context parentParent d syn) d i actuals
          argBuf := by
  induction actuals with
  | nil => intro i argBuf; rfl
  | cons actual rest ih =>
    intro i argBuf
    rw [SystemTimingCheckSymbol.resolveArgs, SystemTimingCheckSymbol.argumentLoop]
    cases d.args[i]? with
    | none => rfl
    | some formal =>
      simp only []
      cases SystemTimingCheckSymbol.resolveArg E context parentParent d syn i formal actual
          argBuf with
      | error f => rfl
      | ok r =>
        obtain ⟨arg, ds⟩ := r
        simp only [ih]

theorem SystemTimingCheckSymbol.resolveArgsBound_eq_argumentLoop (E : Engine)
    (context : ASTContext) (parentParent : Option Scope) (d : SystemTimingCheckDef)
    (syn : SystemTimingCheckSyntax) (actuals : List TimingCheckArgSyntax) :
    ∀ (i : Nat) (argBuf : List Arg),
      SystemTimingCheckSymbol.resolveArgsBound E context parentParent d syn i actuals argBuf =
        SystemTimingCheckSymbol.argumentLoop
          (SystemTimingCheckSymbol.resolveArgBound E context parentParent d syn) d i actuals
          argBuf := by
  induction actuals with
  | nil => intro i argBuf; rfl
  | cons actual rest ih =>
    intro i argBuf
    rw [SystemTimingCheckSymbol.resolveArgsBound, SystemTimingCheckSymbol.argumentLoop]
    cases d.args[i]? with
    | none => rfl
    | some formal =>
      simp only []
      cases SystemTimingCheckSymbol.resolveArgBound E context parentParent d syn i formal actual
          argBuf with
      | error f => rfl
      | ok r =>
        obtain ⟨arg, ds⟩ := r
        simp only [ih]

/-- Every entry that the argument loop returns was pushed by the iteration
for its own position: the loop only appends, one entry for each actual
argument, and entry `k` of what it appends is what the iteration returns for
actual argument `k` and its formal argument, run on the entries before it. -/
theorem SystemTimingCheckSymbol.argumentLoop_entries
    (step : Nat → SystemTimingCheckArgDef → TimingCheckArgSyntax → List Arg →
      Except Fault (Arg × List Diagnostic))
    (d : SystemTimingCheckDef) (actuals : List TimingCheckArgSyntax) :
    ∀ (i : Nat) (argBuf result : List Arg) (ds : List Diagnostic),
      SystemTimingCheckSymbol.argumentLoop step d i actuals argBuf = .ok (result, ds) →
      ∃ tail : List Arg, result = argBuf ++ tail ∧ tail.length = actuals.length ∧
        ∀ (k : Nat) (actual : TimingCheckArgSyntax), actuals[k]? = some actual →
          ∃ (formal : SystemTimingCheckArgDef) (arg : Arg) (dsk : List Diagnostic),
            d.args[i + k]? = some formal ∧ tail[k]? = some arg ∧
            step (i + k) formal actual (argBuf ++ tail.take k) = .ok (arg, dsk) := by
  induction actuals with
  | nil =>
    intro i argBuf result ds h
    simp only [SystemTimingCheckSymbol.argumentLoop, Except.ok.injEq, Prod.mk.injEq] at h
    refine ⟨[], by simp [h.1], rfl, ?_⟩
    intro k actual hk
    simp at hk
  | cons actual rest ih =>
    intro i argBuf result ds h
    rw [SystemTimingCheckSymbol.argumentLoop] at h
    cases hf : d.args[i]? with
    | none => simp [hf] at h
    | some formal =>
      simp only [hf] at h
      cases hstep : step i formal actual argBuf with
      | error f => simp [hstep] at h
      | ok r =>
        obtain ⟨arg, ds1⟩ := r
        simp only [hstep] at h
        cases hrest : SystemTimingCheckSymbol.argumentLoop step d (i + 1) rest
            (argBuf ++ [arg]) with
        | error f => simp [hrest] at h
        | ok r2 =>
          obtain ⟨res2, ds2⟩ := r2
          simp only [hrest, Except.ok.injEq, Prod.mk.injEq] at h
          obtain ⟨tail, htail, hlen, hentries⟩ := ih (i + 1) (argBuf ++ [arg]) res2 ds2 hrest
          refine ⟨arg :: tail, ?_, by simp [hlen], ?_⟩
          · rw [← h.1, htail]
            simp
          · intro k a hk
            cases k with
            | zero =>
              simp only [List.getElem?_cons_zero, Option.some.injEq] at hk
              subst hk
              exact ⟨formal, arg, ds1, by simpa using hf, by simp, by simp [hstep]⟩
            | succ k =>
              simp only [List.getElem?_cons_succ] at hk
              obtain ⟨formal2, arg2, dsk, h1, h2, h3⟩ := hentries k a hk
              refine ⟨formal2, arg2, dsk, ?_, by simpa using h2, ?_⟩
              · have : i + (k + 1) = i + 1 + k := by omega
                rw [this]
                exact h1
              · have hidx : i + (k + 1) = i + 1 + k := by omega
                rw [hidx]
                simpa [List.take_succ_cons, List.append_assoc] using h3

/-- The argument loop returns when there is a formal for every actual
argument and every iteration returns on a buffer of the length it meets. -/
theorem SystemTimingCheckSymbol.argumentLoop_returns
    (step : Nat → SystemTimingCheckArgDef → TimingCheckArgSyntax → List Arg →
      Except Fault (Arg × List Diagnostic))
    (d : SystemTimingCheckDef) (actuals : List TimingCheckArgSyntax) :
    ∀ (i : Nat) (argBuf : List Arg),
      argBuf.length = i → i + actuals.length ≤ d.args.length →
      (∀ (k : Nat) (formal : SystemTimingCheckArgDef) (actual : TimingCheckArgSyntax)
          (buf : List Arg),
        d.args[i + k]? = some formal → actuals[k]? = some actual → buf.length = i + k →
        ∃ r : Arg × List Diagnostic, step (i + k) formal actual buf = .ok r) →
      ∃ (result : List Arg) (ds : List Diagnostic),
        SystemTimingCheckSymbol.argumentLoop step d i actuals argBuf = .ok (result, ds) ∧
        result.length = i + actuals.length := by
  induction actuals with
  | nil =>
    intro i argBuf hlen _ _
    exact ⟨argBuf, [], rfl, by simpa using hlen⟩
  | cons actual rest ih =>
    intro i argBuf hlen hbound hstep
    simp only [List.length_cons] at hbound
    have hi : i < d.args.length := by omega
    have hformal : d.args[i]? = some d.args[i] := List.getElem?_eq_getElem hi
    obtain ⟨⟨arg, ds1⟩, h1⟩ := hstep 0 d.args[i] actual argBuf (by simp)
      (by simp) (by simpa using hlen)
    obtain ⟨result, ds2, hrest, hlen2⟩ := ih (i + 1) (argBuf ++ [arg]) (by simp [hlen])
      (by omega)
      (fun k formal a buf hf ha hb =>
        by
          have hidx : i + 1 + k = i + (k + 1) := by omega
          rw [hidx] at hf hb ⊢
          exact hstep (k + 1) formal a buf hf (by simpa using ha) hb)
    refine ⟨result, ds1 ++ ds2, ?_, by rw [hlen2]; simp; omega⟩
    rw [SystemTimingCheckSymbol.argumentLoop]
    simp only [hformal]
    simp only [Nat.add_zero] at h1
    simp only [h1, hrest]

/-- When one iteration returns whatever another returns, the loop over it
returns whatever the loop over the other returns. -/
theorem SystemTimingCheckSymbol.argumentLoop_extends
    (step1 step2 : Nat → SystemTimingCheckArgDef → TimingCheckArgSyntax → List Arg →
      Except Fault (Arg × List Diagnostic))
    (d : SystemTimingCheckDef)
    (hext : ∀ (i : Nat) (formal : SystemTimingCheckArgDef) (actual : TimingCheckArgSyntax)
      (buf : List Arg) (r : Arg × List Diagnostic),
      step1 i formal actual buf = .ok r → step2 i formal actual buf = .ok r)
    (actuals : List TimingCheckArgSyntax) :
    ∀ (i : Nat) (argBuf : List Arg) (r : List Arg × List Diagnostic),
      SystemTimingCheckSymbol.argumentLoop step1 d i actuals argBuf = .ok r →
      SystemTimingCheckSymbol.argumentLoop step2 d i actuals argBuf = .ok r := by
  induction actuals with
  | nil => intro i argBuf r h; exact h
  | cons actual rest ih =>
    intro i argBuf r h
    rw [SystemTimingCheckSymbol.argumentLoop] at h ⊢
    cases hf : d.args[i]? with
    | none => simp [hf] at h
    | some formal =>
      simp only [hf] at h ⊢
      cases hstep : step1 i formal actual argBuf with
      | error f => simp [hstep] at h
      | ok r1 =>
        obtain ⟨arg, ds1⟩ := r1
        simp only [hstep] at h
        rw [hext i formal actual argBuf (arg, ds1) hstep]
        cases hrest : SystemTimingCheckSymbol.argumentLoop step1 d (i + 1) rest
            (argBuf ++ [arg]) with
        | error f => simp [hrest] at h
        | ok r2 =>
          simp only [hrest] at h
          simp only [ih (i + 1) (argBuf ++ [arg]) r2 hrest]
          exact h
/-- Whatever `resolveArg` returns, `resolveArgBound` returns too. -/
theorem SystemTimingCheckSymbol.resolveArgBound_extends (E : Engine) (context : ASTContext)
    (parentParent : Option Scope) (d : SystemTimingCheckDef) (syn : SystemTimingCheckSyntax)
    (i : Nat) (formal : SystemTimingCheckArgDef) (actual : TimingCheckArgSyntax)
    (argBuf : List Arg) (r : Arg × List Diagnostic)
    (h : SystemTimingCheckSymbol.resolveArg E context parentParent d syn i formal actual
      argBuf = .ok r) :
    SystemTimingCheckSymbol.resolveArgBound E context parentParent d syn i formal actual
      argBuf = .ok r := by
  cases actual with
  | EmptyTimingCheckArg range => exact h
  | ExpressionTimingCheckArg exprSyntax range => exact h
  | TimingCheckEventArg eventArg =>
    simp only [SystemTimingCheckSymbol.resolveArgBound]
    by_cases hk : formal.kind = ArgKind.Event
    · simp only [hk, beq_self_eq_true, if_true]
      cases hb : bindTerminal E eventArg.terminal true parentParent context with
      | error f => exact h
      | ok p =>
        obtain ⟨e, ds⟩ := p
        cases e with
        | some e => exact h
        | none =>
          simp [SystemTimingCheckSymbol.resolveArg, hk, hb] at h
    · have hne : (formal.kind == ArgKind.Event) = false := by simpa using hk
      simp only [hne]
      exact h

/-- One iteration `resolveArgBound` returns when the terminal of an actual
argument in an `Event` position binds without a failed assertion and, for a
`DelayedRef` formal, the back-reference is within the entries pushed so far. -/
theorem SystemTimingCheckSymbol.resolveArgBound_returns (E : Engine) (context : ASTContext)
    (parentParent : Option Scope) (d : SystemTimingCheckDef) (syn : SystemTimingCheckSyntax)
    (i : Nat) (formal : SystemTimingCheckArgDef) (actual : TimingCheckArgSyntax)
    (argBuf : List Arg)
    (href : formal.kind = ArgKind.DelayedRef →
      0 ≤ formal.signalRef ∧ formal.signalRef.toNat < argBuf.length)
    (hterm : formal.kind = ArgKind.Event → actual.terminalReturns E parentParent context) :
    ∃ r : Arg × List Diagnostic,
      SystemTimingCheckSymbol.resolveArgBound E context parentParent d syn i formal actual
        argBuf = .ok r := by
  cases actual with
  | EmptyTimingCheckArg range =>
    exact SystemTimingCheckSymbol.resolveArg_returns E context parentParent d syn i formal
      (TimingCheckArgSyntax.EmptyTimingCheckArg range) argBuf href (fun _ => trivial)
  | ExpressionTimingCheckArg exprSyntax range =>
    exact SystemTimingCheckSymbol.resolveArg_returns E context parentParent d syn i formal
      (TimingCheckArgSyntax.ExpressionTimingCheckArg exprSyntax range) argBuf href hterm
  | TimingCheckEventArg eventArg =>
    by_cases hk : formal.kind = ArgKind.Event
    · obtain ⟨⟨e, ds⟩, hb⟩ := hterm hk
      cases e with
      | none =>
        simp only [SystemTimingCheckSymbol.resolveArgBound, hk, beq_self_eq_true, if_true, hb]
        exact ⟨_, rfl⟩
      | some e =>
        obtain ⟨r, hr⟩ := SystemTimingCheckSymbol.resolveArg_returns E context parentParent d
          syn i formal (TimingCheckArgSyntax.TimingCheckEventArg eventArg) argBuf href
          (fun _ => ⟨e, ds, hb⟩)
        exact ⟨r, SystemTimingCheckSymbol.resolveArgBound_extends E context parentParent d syn
          i formal _ argBuf r hr⟩
    · obtain ⟨r, hr⟩ := SystemTimingCheckSymbol.resolveArg_returns E context parentParent d
        syn i formal (TimingCheckArgSyntax.TimingCheckEventArg eventArg) argBuf href
        (fun h => absurd h hk)
      exact ⟨r, SystemTimingCheckSymbol.resolveArgBound_extends E context parentParent d syn
        i formal _ argBuf r hr⟩

/-- In a schema with back-references as in the table, the formal at position
`i` refers, when it is a `DelayedRef`, to one of the `i` entries before it. -/
theorem SystemTimingCheckDef.backReference_lt (d : SystemTimingCheckDef)
    (hd : d.backReferencesOk = true) (i : Nat) (formal : SystemTimingCheckArgDef)
    (hformal : d.args[i]? = some formal) (hk : formal.kind = ArgKind.DelayedRef) :
    0 ≤ formal.signalRef ∧ formal.signalRef.toNat < i := by
  simp only [SystemTimingCheckDef.backReferencesOk, List.all_eq_true] at hd
  have hthis := hd (i, formal) (List.mk_mem_enum_iff_getElem?.mpr hformal)
  simp only [hk, bne_self_eq_false, Bool.false_or, Bool.and_eq_true, decide_eq_true_eq]
    at hthis
  exact ⟨hthis.1.1, hthis.1.2⟩

/-- Inside the bounds on the number of arguments, `resolve` is the argument
loop followed by the store into `args`. -/
theorem SystemTimingCheckSymbol.resolve_in_bounds (E : Engine)
    (self : SystemTimingCheckSymbol) (d : SystemTimingCheckDef)
    (syn : SystemTimingCheckSyntax) (parent : Scope)
    (hdef : self.defn = some d) (hsyn : self.originatingSyntax = some syn)
    (hparent : self.parentScope = some parent)
    (hmin : d.minArgs ≤ syn.args.length) (hmax : syn.args.length ≤ d.args.length) :
    SystemTimingCheckSymbol.resolve E self =
      (match SystemTimingCheckSymbol.resolveArgs E (resolveContext parent self.indexInScope)
          parent.getParentScope d syn 0 syn.args [] with
        | .error f => .error f
        | .ok (argBuf, ds) => .ok ({ self with isResolved := true, args := argBuf }, ds)) := by
  have h1 : ¬ syn.args.length < d.minArgs := by omega
  have h2 : ¬ syn.args.length > d.args.length := by omega
  simp only [SystemTimingCheckSymbol.resolve, hdef, hsyn, hparent, h1, h2, if_false]

/-- Inside the bounds on the number of arguments, `resolveBound` is the
argument loop followed by the store into `args`. -/
theorem SystemTimingCheckSymbol.resolveBound_in_bounds (E : Engine)
    (self : SystemTimingCheckSymbol) (d : SystemTimingCheckDef)
    (syn : SystemTimingCheckSyntax) (parent : Scope)
    (hdef : self.defn = some d) (hsyn : self.originatingSyntax = some syn)
    (hparent : self.parentScope = some parent)
    (hmin : d.minArgs ≤ syn.args.length) (hmax : syn.args.length ≤ d.args.length) :
    SystemTimingCheckSymbol.resolveBound E self =
      (match SystemTimingCheckSymbol.resolveArgsBound E
          (resolveContext parent self.indexInScope) parent.getParentScope d syn 0 syn.args
          [] with
        | .error f => .error f
        | .ok (argBuf, ds) => .ok ({ self with isResolved := true, args := argBuf }, ds)) := by
  have h1 : ¬ syn.args.length < d.minArgs := by omega
  have h2 : ¬ syn.args.length > d.args.length := by omega
  simp only [SystemTimingCheckSymbol.resolveBound, hdef, hsyn, hparent, h1, h2, if_false]

/-- Whatever `resolve` returns, `resolveBound` returns too. -/
theorem SystemTimingCheckSymbol.resolveBound_extends (E : Engine)
    (self : SystemTimingCheckSymbol) (r : SystemTimingCheckSymbol × List Diagnostic)
    (h : SystemTimingCheckSymbol.resolve E self = .ok r) :
    SystemTimingCheckSymbol.resolveBound E self = .ok r := by
  unfold SystemTimingCheckSymbol.resolve at h
  unfold SystemTimingCheckSymbol.resolveBound
  cases hd : self.defn with
  | none =>
    simp only [hd] at h ⊢
    exact h
  | some d =>
    cases hs : self.originatingSyntax <;> cases hp : self.parentScope <;>
      simp only [hd, hs, hp] at h ⊢
    · cases h
    · cases h
    · cases h
    rename_i syn parent
    by_cases h1 : syn.args.length < d.minArgs
    · simp only [h1, if_true] at h ⊢
      exact h
    · by_cases h2 : syn.args.length > d.args.length
      · simp only [h1, h2, if_true, if_false] at h ⊢
        exact h
      · simp only [h1, h2, if_false] at h ⊢
        cases hloop : SystemTimingCheckSymbol.resolveArgs E
          (resolveContext parent self.indexInScope) parent.getParentScope d syn 0 syn.args []
          with
        | error f => simp [hloop] at h
        | ok p =>
          have hb := SystemTimingCheckSymbol.argumentLoop_extends
            (SystemTimingCheckSymbol.resolveArg E (resolveContext parent self.indexInScope)
              parent.getParentScope d syn)
            (SystemTimingCheckSymbol.resolveArgBound E (resolveContext parent self.indexInScope)
              parent.getParentScope d syn) d
            (SystemTimingCheckSymbol.resolveArgBound_extends E
              (resolveContext parent self.indexInScope) parent.getParentScope d syn)
            syn.args 0 [] p
            (by rw [← SystemTimingCheckSymbol.resolveArgs_eq_argumentLoop]; exact hloop)
          rw [← SystemTimingCheckSymbol.resolveArgsBound_eq_argumentLoop] at hb
          rw [hb]
          rw [hloop] at h
          exact h
/-- The argument loop run from position 0 on an empty buffer: the list it
returns has one entry for each actual argument, and entry `i` is what the
iteration returns for actual argument `i` and formal argument `i`, run on the
entries before it. -/
theorem SystemTimingCheckSymbol.argumentLoop_lockstep
    (step : Nat → SystemTimingCheckArgDef → TimingCheckArgSyntax → List Arg →
      Except Fault (Arg × List Diagnostic))
    (d : SystemTimingCheckDef) (actuals : List TimingCheckArgSyntax) (result : List Arg)
    (ds : List Diagnostic)
    (h : SystemTimingCheckSymbol.argumentLoop step d 0 actuals [] = .ok (result, ds)) :
    result.length = actuals.length ∧
    ∀ (i : Nat) (actual : TimingCheckArgSyntax), actuals[i]? = some actual →
      ∃ (formal : SystemTimingCheckArgDef) (arg : Arg) (dsi : List Diagnostic),
        d.args[i]? = some formal ∧ result[i]? = some arg ∧
        step i formal actual (result.take i) = .ok (arg, dsi) := by
  obtain ⟨tail, htail, hlen, hentries⟩ :=
    SystemTimingCheckSymbol.argumentLoop_entries step d actuals 0 [] result ds h
  simp only [List.nil_append] at htail
  subst htail
  refine ⟨hlen, ?_⟩
  intro i actual hi
  obtain ⟨formal, arg, dsi, h1, h2, h3⟩ := hentries i actual hi
  simp only [Nat.zero_add, List.nil_append] at h1 h3
  exact ⟨formal, arg, dsi, h1, h2, h3⟩

/-- C21: for a timing check whose schema `d` is one of the table and whose
number `n` of actual arguments satisfies `minArgs <= n <= ` number of formal
arguments, the argument list that `resolve` stores has exactly `n` entries, and
entry `i` is the one that the loop iteration for actual argument `i` and formal
argument `i` pushed, run on the entries `0 .. i-1`.

* Whenever `resolve` returns, its list has `n` entries in this lockstep.
* `resolve` does return when every terminal in an `Event` position binds
  without a failed assertion and, where it is written in event form, is
  accepted by `bindTerminal`.
* For the remaining input, an event-form terminal that `bindTerminal`
  rejects, `resolve` has the marker of `*expr` on a null pointer; the compiled
  loop (`resolveBound`, which returns whatever `resolve` returns) pushes one
  entry with a null `expr` there as well, so it returns a list of `n` entries in
  the same lockstep whenever no terminal binding stops at a failed assertion. -/
theorem SystemTimingCheckSymbol.resolve_argument_count (E : Engine)
    (self : SystemTimingCheckSymbol) (name : String) (d : SystemTimingCheckDef)
    (syn : SystemTimingCheckSyntax) (parent : Scope)
    (htable : (name, d) ∈ createTimingCheckDefs)
    (hdef : self.defn = some d) (hsyn : self.originatingSyntax = some syn)
    (hparent : self.parentScope = some parent)
    (hmin : d.minArgs ≤ syn.args.length) (hmax : syn.args.length ≤ d.args.length) :
    (∀ (after : SystemTimingCheckSymbol) (ds : List Diagnostic),
      SystemTimingCheckSymbol.resolve E self = .ok (after, ds) →
      after.args.length = syn.args.length ∧
      ∀ (i : Nat) (actual : TimingCheckArgSyntax), syn.args[i]? = some actual →
        ∃ (formal : SystemTimingCheckArgDef) (arg : Arg) (dsi : List Diagnostic),
          d.args[i]? = some formal ∧ after.args[i]? = some arg ∧
          SystemTimingCheckSymbol.resolveArg E (resolveContext parent self.indexInScope)
            parent.getParentScope d syn i formal actual (after.args.take i) =
            .ok (arg, dsi)) ∧
    ((∀ (i : Nat) (formal : SystemTimingCheckArgDef) (actual : TimingCheckArgSyntax),
        d.args[i]? = some formal → syn.args[i]? = some actual →
        formal.kind = ArgKind.Event →
        actual.terminalBinds E parent.getParentScope
          (resolveContext parent self.indexInScope)) →
      ∃ (after : SystemTimingCheckSymbol) (ds : List Diagnostic),
        SystemTimingCheckSymbol.resolve E self = .ok (after, ds) ∧
        after.args.length = syn.args.length) ∧
    (∀ r : SystemTimingCheckSymbol × List Diagnostic,
      SystemTimingCheckSymbol.resolve E self = .ok r →
      SystemTimingCheckSymbol.resolveBound E self = .ok r) ∧
    ((∀ (i : Nat) (formal : SystemTimingCheckArgDef) (actual : TimingCheckArgSyntax),
        d.args[i]? = some formal → syn.args[i]? = some actual →
        formal.kind = ArgKind.Event →
        actual.terminalReturns E parent.getParentScope
          (resolveContext parent self.indexInScope)) →
      ∃ (after : SystemTimingCheckSymbol) (ds : List Diagnostic),
        SystemTimingCheckSymbol.resolveBound E self = .ok (after, ds) ∧
        after.args.length = syn.args.length ∧
        ∀ (i : Nat) (actual : TimingCheckArgSyntax), syn.args[i]? = some actual →
          ∃ (formal : SystemTimingCheckArgDef) (arg : Arg) (dsi : List Diagnostic),
            d.args[i]? = some formal ∧ after.args[i]? = some arg ∧
            SystemTimingCheckSymbol.resolveArgBound E
              (resolveContext parent self.indexInScope) parent.getParentScope d syn i formal
              actual (after.args.take i) = .ok (arg, dsi)) := by
  have hback : d.backReferencesOk = true := by
    have hall := SystemTimingCheckDefs.backReferencesOk_all
    rw [List.all_eq_true] at hall
    exact hall (name, d) htable
  refine ⟨?_, ?_, ?_, ?_⟩
  · intro after ds h
    rw [SystemTimingCheckSymbol.resolve_in_bounds E self d syn parent hdef hsyn hparent hmin
      hmax] at h
    cases hloop : SystemTimingCheckSymbol.resolveArgs E
        (resolveContext parent self.indexInScope) parent.getParentScope d syn 0 syn.args []
      with
    | error f => simp [hloop] at h
    | ok p =>
      obtain ⟨argBuf, ds2⟩ := p
      simp only [hloop, Except.ok.injEq, Prod.mk.injEq] at h
      rw [SystemTimingCheckSymbol.resolveArgs_eq_argumentLoop] at hloop
      have hlock := SystemTimingCheckSymbol.argumentLoop_lockstep _ d syn.args argBuf ds2 hloop
      rw [← h.1]
      exact hlock
  · intro hterm
    obtain ⟨result, ds, hloop, hlen⟩ := SystemTimingCheckSymbol.argumentLoop_returns
      (SystemTimingCheckSymbol.resolveArg E (resolveContext parent self.indexInScope)
        parent.getParentScope d syn) d syn.args 0 [] rfl (by omega)
      (fun k formal actual buf hf ha hb =>
        SystemTimingCheckSymbol.resolveArg_returns E _ _ d syn (0 + k) formal actual buf
          (fun hk => by
            have hlt := SystemTimingCheckDef.backReference_lt d hback (0 + k) formal hf hk
            exact ⟨hlt.1, by omega⟩)
          (fun hk => hterm k formal actual (by simpa using hf) ha hk))
    rw [← SystemTimingCheckSymbol.resolveArgs_eq_argumentLoop] at hloop
    refine ⟨{ self with isResolved := true, args := result }, ds, ?_, by simpa using hlen⟩
    rw [SystemTimingCheckSymbol.resolve_in_bounds E self d syn parent hdef hsyn hparent hmin
      hmax, hloop]
  · exact SystemTimingCheckSymbol.resolveBound_extends E self
  · intro hterm
    obtain ⟨result, ds, hloop, hlen⟩ := SystemTimingCheckSymbol.argumentLoop_returns
      (SystemTimingCheckSymbol.resolveArgBound E (resolveContext parent self.indexInScope)
        parent.getParentScope d syn) d syn.args 0 [] rfl (by omega)
      (fun k formal actual buf hf ha hb =>
        SystemTimingCheckSymbol.resolveArgBound_returns E _ _ d syn (0 + k) formal actual buf
          (fun hk => by
            have hlt := SystemTimingCheckDef.backReference_lt d hback (0 + k) formal hf hk
            exact ⟨hlt.1, by omega⟩)
          (fun hk => hterm k formal actual (by simpa using hf) ha hk))
    have hlock := SystemTimingCheckSymbol.argumentLoop_lockstep _ d syn.args result ds hloop
    rw [← SystemTimingCheckSymbol.resolveArgsBound_eq_argumentLoop] at hloop
    refine ⟨{ self with isResolved := true, args := result }, ds, ?_, hlock.1, hlock.2⟩
    rw [SystemTimingCheckSymbol.resolveBound_in_bounds E self d syn parent hdef hsyn hparent
      hmin hmax, hloop]
/-- C21 on three checks against the schema of `$setup` (3 required, 4 formal
arguments). `$setup(posedge clk, data, 5, notif)` resolves to 4 entries and
`$setup(notif, data, 5)`, whose first terminal is rejected, to 3 entries, the
first one unbound. On `$setup(posedge notif, data, 5)`, where the rejected
terminal is written in event form, the compiled loop returns 3 entries in
lockstep with the actual and formal arguments: the first with a null `expr`
and the edge `posedge`, after the one diagnostic of `bindTerminal`. -/
theorem SystemTimingCheckSymbol.resolve_argument_count_witness :
    Example.setupDef.minArgs ≤ Example.setupRejectedEvent.args.length ∧
    Example.setupRejectedEvent.args.length ≤ Example.setupDef.args.length ∧
    (∃ (after : SystemTimingCheckSymbol) (ds : List Diagnostic),
      SystemTimingCheckSymbol.resolve Example.engine
          (SystemTimingCheckSymbol.create Example.setupFourArgs Example.specifyBlock 0) =
        .ok (after, ds) ∧
      after.args.length = 4) ∧
    (∃ (after : SystemTimingCheckSymbol) (ds : List Diagnostic),
      SystemTimingCheckSymbol.resolve Example.engine
          (SystemTimingCheckSymbol.create Example.setupRejectedExpression Example.specifyBlock
            0) = .ok (after, ds) ∧
      after.args.length = 3) ∧
    (∃ (after : SystemTimingCheckSymbol) (ds : List Diagnostic),
      SystemTimingCheckSymbol.resolveBound Example.engine
          (SystemTimingCheckSymbol.create Example.setupRejectedEvent Example.specifyBlock 0) =
        .ok (after, ds) ∧
      after.args.length = 3 ∧
      ∀ (i : Nat) (actual : TimingCheckArgSyntax),
        Example.setupRejectedEvent.args[i]? = some actual →
        ∃ (formal : SystemTimingCheckArgDef) (arg : Arg) (dsi : List Diagnostic),
          Example.setupDef.args[i]? = some formal ∧ after.args[i]? = some arg ∧
          SystemTimingCheckSymbol.resolveArgBound Example.engine
            (resolveContext Example.specifyBlock 0) Example.specifyBlock.getParentScope
            Example.setupDef Example.setupRejectedEvent i formal actual (after.args.take i) =
            .ok (arg, dsi)) ∧
    SystemTimingCheckSymbol.resolveBound Example.engine
        (SystemTimingCheckSymbol.create Example.setupRejectedEvent Example.specifyBlock 0) =
      .ok ({ SystemTimingCheckSymbol.create Example.setupRejectedEvent Example.specifyBlock 0 with
             isResolved := true,
             args := [{ expr := none, condition := none, edge := EdgeKind.PosEdge,
                        edgeDescriptors := [] },
                      Arg.ofExpr (Expression.NamedValue Example.data Example.logic1
                                  { start := 22, stop := 26 }),
                      Arg.ofExpr (Expression.IntegerLiteral Example.int32
                                  { start := 28, stop := 29 })] },
           [Example.notifRejected]) :=
  ⟨by decide, by decide,
   (SystemTimingCheckSymbol.resolve_argument_count Example.engine
      (SystemTimingCheckSymbol.create Example.setupFourArgs Example.specifyBlock 0) "$setup"
      Example.setupDef Example.setupFourArgs Example.specifyBlock (by decide) rfl rfl rfl
      (by decide) (by decide)).2.1
     (fun i formal actual hf ha hk => by
       match i, hf, ha with
       | 0, _, ha =>
         obtain rfl : Example.posedgeClk = actual := by
           simpa [Example.setupFourArgs] using ha
         exact ⟨_, _, rfl⟩
       | 1, _, ha =>
         obtain rfl : Example.exprArg (Example.name "data" 20) = actual := by
           simpa [Example.setupFourArgs] using ha
         exact ⟨_, rfl⟩
       | 2, hf, _ =>
         obtain rfl : ({ kind := ArgKind.Limit, requirePositive := true } :
             SystemTimingCheckArgDef) = formal := by
           simpa [Example.setupDef] using hf
         cases hk
       | 3, hf, _ =>
         obtain rfl : ({ kind := ArgKind.Notifier } : SystemTimingCheckArgDef) = formal := by
           simpa [Example.setupDef] using hf
         cases hk
       | n + 4, hf, _ => simp [Example.setupDef] at hf),
   (SystemTimingCheckSymbol.resolve_argument_count Example.engine
      (SystemTimingCheckSymbol.create Example.setupRejectedExpression Example.specifyBlock 0)
      "$setup" Example.setupDef Example.setupRejectedExpression Example.specifyBlock
      (by decide) rfl rfl rfl (by decide) (by decide)).2.1
     (fun i formal actual hf ha hk => by
       match i, hf, ha with
       | 0, _, ha =>
         obtain rfl : Example.exprArg (Example.name "notif" 15) = actual := by
           simpa [Example.setupRejectedExpression] using ha
         exact ⟨_, rfl⟩
       | 1, _, ha =>
         obtain rfl : Example.exprArg (Example.name "data" 22) = actual := by
           simpa [Example.setupRejectedExpression] using ha
         exact ⟨_, rfl⟩
       | 2, hf, _ =>
         obtain rfl : ({ kind := ArgKind.Limit, requirePositive := true } :
             SystemTimingCheckArgDef) = formal := by
           simpa [Example.setupDef] using hf
         cases hk
       | n + 3, _, ha => simp [Example.setupRejectedExpression] at ha),
   (SystemTimingCheckSymbol.resolve_argument_count Example.engine
      (SystemTimingCheckSymbol.create Example.setupRejectedEvent Example.specifyBlock 0)
      "$setup" Example.setupDef Example.setupRejectedEvent Example.specifyBlock
      (by decide) rfl rfl rfl (by decide) (by decide)).2.2.2
     (fun i formal actual hf ha hk => by
       match i, hf, ha with
       | 0, _, ha =>
         obtain rfl : Example.posedgeNotif = actual := by
           simpa [Example.setupRejectedEvent] using ha
         exact ⟨_, rfl⟩
       | 1, _, ha =>
         obtain rfl : Example.exprArg (Example.name "data" 22) = actual := by
           simpa [Example.setupRejectedEvent] using ha
         exact ⟨_, rfl⟩
       | 2, hf, _ =>
         obtain rfl : ({ kind := ArgKind.Limit, requirePositive := true } :
             SystemTimingCheckArgDef) = formal := by
           simpa [Example.setupDef] using hf
         cases hk
       | n + 3, _, ha => simp [Example.setupRejectedEvent] at ha),
   rfl⟩

end Slang
